import Mathlib

/-!
Verification of the Forthic core (tokenizer, literal handlers, module/word
model, interpreter loop, error model) against its natural-language
specification.  Python source files `tokenizer.py`, `literals.py`,
`module.py`, `interpreter.py`, `errors.py` and
`modules/standard/core_module.py` are shallowly embedded: mutable objects
become explicit state records, Python exceptions become `Except`/`Option`
results, and unbounded loops take an explicit fuel argument (running out of
fuel is reported with a dedicated marker, distinct from every program
error).  Python lists are kept in Python order (index 0 first, push/append
at the end).
-/

namespace Forthic

/-- Single-quote character (kept out of literals for hygiene). -/
def sq : Char := Char.ofNat 39

/-- Double-quote character. -/
def dq : Char := Char.ofNat 34

/-- Open-brace character. -/
def obr : Char := Char.ofNat 123

/-- Close-brace character. -/
def cbr : Char := Char.ofNat 125

/-- Token kinds, from `TokenType` in tokenizer.py. -/
inductive TokenType where
  | string
  | comment
  | startArray
  | endArray
  | startModule
  | endModule
  | startDef
  | endDef
  | startMemo
  | word
  | dotSymbol
  | eos
deriving DecidableEq, Repr

/-- `CodeLocation` from tokenizer.py: source name, line, column and the
character span `[startPos, endPos)`. -/
structure Loc where
  source : Option (List Char) := none
  line : Nat := 1
  column : Nat := 1
  startPos : Nat := 0
  endPos : Nat := 0
deriving DecidableEq, Repr

/-- `Token` from tokenizer.py: a kind, the lexeme (`Token.string`) and a
location. -/
structure Token where
  type : TokenType
  string : List Char
  location : Loc
deriving DecidableEq, Repr

/-- Tokenizer errors.  `fuelOut` is the embedding's marker for exhausted
fuel and corresponds to no Python behaviour. -/
inductive TokErr where
  | invalidWordName (note : List Char) (loc : Loc)
  | unterminatedString (loc : Loc)
  | invalidInputPosition
  | fuelOut
deriving DecidableEq, Repr

/-- Mutable state of `Tokenizer` from tokenizer.py.  `input` is the
(already HTML-unescaped) input string; `refStartPos`/`refSource` come from
the reference location; the `token*` fields mirror the token-in-progress
bookkeeping of the Python class. -/
structure TokState where
  input : List Char
  pos : Nat
  line : Nat
  col : Nat
  refStartPos : Nat
  refSource : Option (List Char)
  tokenStartPos : Nat
  tokenLine : Nat
  tokenCol : Nat
  tokenString : List Char
deriving DecidableEq, Repr

/-- `Tokenizer._unescape_string`: replace the HTML entities for the angle
brackets before tokenization begins. -/
def unescape_string (s : List Char) : List Char :=
  match s with
  | '&' :: 'l' :: 't' :: ';' :: rest => '<' :: unescape_string rest
  | '&' :: 'g' :: 't' :: ';' :: rest => '>' :: unescape_string rest
  | c :: rest => c :: unescape_string rest
  | [] => []

/-- `Tokenizer.__init__` with a caller-supplied reference location
(line, column, startPos, source); the Python default reference location is
line 1, column 1, start 0, no source. -/
def initTokState (s : List Char) (refLine refCol refStart : Nat)
    (refSrc : Option (List Char)) : TokState :=
  { input := unescape_string s
    pos := 0
    line := refLine
    col := refCol
    refStartPos := refStart
    refSource := refSrc
    tokenStartPos := 0
    tokenLine := 0
    tokenCol := 0
    tokenString := [] }

/-- The whitespace list from `Tokenizer.__init__`. -/
def is_whitespace (c : Char) : Bool :=
  c = ' ' || c = '\t' || c = '\n' || c = '\r' || c = '(' || c = ')' || c = ','

/-- The quote-character list from `Tokenizer.__init__`. -/
def is_quote (c : Char) : Bool :=
  c = dq || c = sq || c = '^'

/-- `Tokenizer._is_triple_quote` at index `i`. -/
def is_triple_quote (st : TokState) (i : Nat) (c : Char) : Bool :=
  is_quote c && decide (i + 2 < st.input.length)
    && st.input.get? (i + 1) = some c && st.input.get? (i + 2) = some c

/-- `Tokenizer._note_start_token`. -/
def note_start_token (st : TokState) : TokState :=
  { st with
    tokenStartPos := st.pos + st.refStartPos
    tokenLine := st.line
    tokenCol := st.col }

/-- Net effect of `Tokenizer._advance_position(1)` over the character `c`
sitting at the current position: newline resets the column and bumps the
line, anything else bumps the column. -/
def consume (c : Char) (st : TokState) : TokState :=
  if c = '\n' then { st with pos := st.pos + 1, line := st.line + 1, col := 1 }
  else { st with pos := st.pos + 1, col := st.col + 1 }

/-- `Tokenizer._get_token_location`: exclusive-end span computed from the
noted start and the gathered `token_string`. -/
def get_token_location (st : TokState) : Loc :=
  { source := st.refSource
    line := st.tokenLine
    column := st.tokenCol
    startPos := st.tokenStartPos
    endPos := st.tokenStartPos + st.tokenString.length }

/-- Builds a single-character token: the Python branches set
`token_string = char` and use `_get_token_location`. -/
def charToken (ty : TokenType) (c : Char) (st : TokState) : Token × TokState :=
  let st1 := { st with tokenString := [c] }
  (⟨ty, [c], get_token_location st1⟩, st1)

/-- Loop body of `Tokenizer._transition_from_COMMENT` (the start was noted
by the caller).  The newline case appends the newline, then performs the
source's advance(1)/advance(-1) pair, whose net effect is resetting the
column to 1. -/
def gather_comment (fuel : Nat) (st : TokState) : Except TokErr (Token × TokState) :=
  match fuel with
  | 0 => .error .fuelOut
  | fuel + 1 =>
    match st.input.get? st.pos with
    | none => .ok (⟨.comment, st.tokenString, get_token_location st⟩, st)
    | some c =>
      let st1 := { st with tokenString := st.tokenString ++ [c] }
      if c = '\n' then
        let st2 := { st1 with col := 1 }
        .ok (⟨.comment, st2.tokenString, get_token_location st2⟩, st2)
      else gather_comment fuel (consume c st1)

/-- `Tokenizer._gather_definition_name`: gathers name characters, rejecting
quotes and the four bracket characters; a terminating whitespace character
is consumed. -/
def gather_definition_name (fuel : Nat) (st : TokState) : Except TokErr TokState :=
  match fuel with
  | 0 => .error .fuelOut
  | fuel + 1 =>
    match st.input.get? st.pos with
    | none => .ok st
    | some c =>
      if is_whitespace c then .ok (consume c st)
      else if is_quote c then
        .error (.invalidWordName (r"Definition names can't have quotes in them").data
          (get_token_location (consume c st)))
      else if c = '[' || c = ']' || c = obr || c = cbr then
        .error (.invalidWordName (r"Definition names can't have brackets in them").data
          (get_token_location (consume c st)))
      else gather_definition_name fuel (consume c { st with tokenString := st.tokenString ++ [c] })

/-- `Tokenizer._transition_from_GATHER_DEFINITION_NAME` /
`_transition_from_GATHER_MEMO_NAME`: note the start, gather the name,
return a START_DEF or START_MEMO token. -/
def gather_name_token (ty : TokenType) (fuel : Nat) (st : TokState) :
    Except TokErr (Token × TokState) := do
  let st1 ← gather_definition_name fuel (note_start_token st)
  .ok (⟨ty, st1.tokenString, get_token_location st1⟩, st1)

/-- Whitespace-skipping loop of `Tokenizer._transition_from_START_DEFINITION`
and `_transition_from_START_MEMO` (after the `:` or `@:`), parameterised by
the token kind the name gatherer should produce. -/
def start_definition_loop (ty : TokenType) (fuel : Nat) (st : TokState) :
    Except TokErr (Token × TokState) :=
  match fuel with
  | 0 => .error .fuelOut
  | fuel + 1 =>
    match st.input.get? st.pos with
    | none => .error (.invalidWordName (r"Got EOS in START_DEFINITION").data
        (get_token_location st))
    | some c =>
      if is_whitespace c then start_definition_loop ty fuel (consume c st)
      else if is_quote c then
        .error (.invalidWordName (r"Definition names can't have quotes in them").data
          (get_token_location (consume c st)))
      else gather_name_token ty fuel st

/-- `Tokenizer._transition_from_GATHER_MODULE`: gather the module name up
to whitespace (consumed) or `}` (left for the next token). -/
def gather_module (fuel : Nat) (st : TokState) : Except TokErr (Token × TokState) :=
  match fuel with
  | 0 => .error .fuelOut
  | fuel + 1 =>
    match st.input.get? st.pos with
    | none => .ok (⟨.startModule, st.tokenString, get_token_location st⟩, st)
    | some c =>
      if is_whitespace c then
        let st1 := consume c st
        .ok (⟨.startModule, st1.tokenString, get_token_location st1⟩, st1)
      else if c = cbr then
        .ok (⟨.startModule, st.tokenString, get_token_location st⟩, st)
      else gather_module fuel (consume c { st with tokenString := st.tokenString ++ [c] })

/-- Loop body of `Tokenizer._transition_from_GATHER_TRIPLE_QUOTE_STRING`
(the start was noted by the caller; the three opening quotes are already
consumed).  The string closes at the first triple occurrence of the
delimiter not followed by a fourth; a triple followed by a fourth is the
greedy case: one literal delimiter joins the content. -/
def gather_triple_quote (d : Char) (fuel : Nat) (st : TokState) :
    Except TokErr (Token × TokState) :=
  match fuel with
  | 0 => .error .fuelOut
  | fuel + 1 =>
    match st.input.get? st.pos with
    | none => .error (.unterminatedString (get_token_location st))
    | some c =>
      if c = d && is_triple_quote st st.pos c then
        if st.pos + 3 < st.input.length && st.input.get? (st.pos + 3) = some d then
          gather_triple_quote d fuel (consume c { st with tokenString := st.tokenString ++ [d] })
        else
          let tok : Token := ⟨.string, st.tokenString, get_token_location st⟩
          .ok (tok, consume d (consume d (consume d st)))
      else gather_triple_quote d fuel (consume c { st with tokenString := st.tokenString ++ [c] })

/-- Loop body of `Tokenizer._transition_from_GATHER_STRING` (start noted by
the caller): gather until the matching delimiter, which is consumed but not
stored. -/
def gather_string (d : Char) (fuel : Nat) (st : TokState) :
    Except TokErr (Token × TokState) :=
  match fuel with
  | 0 => .error .fuelOut
  | fuel + 1 =>
    match st.input.get? st.pos with
    | none => .error (.unterminatedString (get_token_location st))
    | some c =>
      if c = d then
        .ok (⟨.string, st.tokenString, get_token_location st⟩, consume c st)
      else gather_string d fuel (consume c { st with tokenString := st.tokenString ++ [c] })

/-- Stop characters shared by `_transition_from_GATHER_WORD` and
`_transition_from_GATHER_DOT_SYMBOL`. -/
def is_word_stop (c : Char) : Bool :=
  c = ';' || c = '[' || c = ']' || c = obr || c = cbr || c = '#'

/-- Loop body of `Tokenizer._transition_from_GATHER_WORD` (start noted by
the caller): gather until whitespace (consumed) or a stop character (left
in place). -/
def gather_word_loop (fuel : Nat) (st : TokState) : Except TokErr (Token × TokState) :=
  match fuel with
  | 0 => .error .fuelOut
  | fuel + 1 =>
    match st.input.get? st.pos with
    | none => .ok (⟨.word, st.tokenString, get_token_location st⟩, st)
    | some c =>
      if is_whitespace c then
        let st1 := consume c st
        .ok (⟨.word, st1.tokenString, get_token_location st1⟩, st1)
      else if is_word_stop c then
        .ok (⟨.word, st.tokenString, get_token_location st⟩, st)
      else gather_word_loop fuel (consume c { st with tokenString := st.tokenString ++ [c] })

/-- Loop body of `Tokenizer._transition_from_GATHER_DOT_SYMBOL`: gathers
exactly like a word (the Python code keeps `full_token_string` and
`token_string` in lockstep, so a single accumulator stands for both); a
gathered string of length < 2 becomes a WORD token, otherwise a DOT_SYMBOL
token whose lexeme drops the leading dot. -/
def gather_dot_symbol_loop (fuel : Nat) (st : TokState) : Except TokErr (Token × TokState) :=
  match fuel with
  | 0 => .error .fuelOut
  | fuel + 1 =>
    match st.input.get? st.pos with
    | none =>
      if st.tokenString.length < 2 then
        .ok (⟨.word, st.tokenString, get_token_location st⟩, st)
      else .ok (⟨.dotSymbol, st.tokenString.drop 1, get_token_location st⟩, st)
    | some c =>
      if is_whitespace c then
        let st1 := consume c st
        if st1.tokenString.length < 2 then
          .ok (⟨.word, st1.tokenString, get_token_location st1⟩, st1)
        else .ok (⟨.dotSymbol, st1.tokenString.drop 1, get_token_location st1⟩, st1)
      else if is_word_stop c then
        if st.tokenString.length < 2 then
          .ok (⟨.word, st.tokenString, get_token_location st⟩, st)
        else .ok (⟨.dotSymbol, st.tokenString.drop 1, get_token_location st⟩, st)
      else gather_dot_symbol_loop fuel (consume c { st with tokenString := st.tokenString ++ [c] })

/-- `Tokenizer._transition_from_START`: skip whitespace, then select the
transition from the lead character.  The Python code consumes the lead
character and occasionally retreats one position; here the branches that
retreat (dot symbols and ordinary words) simply do not consume. -/
def transition_from_START (fuel : Nat) (st : TokState) : Except TokErr (Token × TokState) :=
  match fuel with
  | 0 => .error .fuelOut
  | fuel + 1 =>
    match st.input.get? st.pos with
    | none => .ok (⟨.eos, [], get_token_location st⟩, st)
    | some c =>
      let st1 := note_start_token st
      if is_whitespace c then transition_from_START fuel (consume c st1)
      else if c = '#' then gather_comment fuel (note_start_token (consume c st1))
      else if c = ':' then start_definition_loop .startDef fuel (consume c st1)
      else if c = '@' && st.input.get? (st.pos + 1) = some ':' then
        start_definition_loop .startMemo fuel (consume ':' (consume c st1))
      else if c = ';' then .ok (charToken .endDef c (consume c st1))
      else if c = '[' then .ok (charToken .startArray c (consume c st1))
      else if c = ']' then .ok (charToken .endArray c (consume c st1))
      else if c = obr then gather_module fuel (note_start_token (consume c st1))
      else if c = cbr then .ok (charToken .endModule c (consume c st1))
      else if is_triple_quote st1 st.pos c then
        gather_triple_quote c fuel (note_start_token (consume c (consume c (consume c st1))))
      else if is_quote c then gather_string c fuel (note_start_token (consume c st1))
      else if c = '.' then gather_dot_symbol_loop fuel (note_start_token st1)
      else gather_word_loop fuel (note_start_token st1)

/-- `Tokenizer.next_token`: clear the gathered string, then run the main
transition. -/
def next_token (fuel : Nat) (st : TokState) : Except TokErr (Token × TokState) :=
  transition_from_START fuel { st with tokenString := [] }

/-- Repeated `next_token` until (and including) the first EOS token —
the stream a single interpreter `run` consumes. -/
def tokenizeAll (fuel : Nat) (st : TokState) : List Token × Option TokErr :=
  match fuel with
  | 0 => ([], some .fuelOut)
  | fuel + 1 =>
    match next_token fuel st with
    | .error e => ([], some e)
    | .ok (t, st1) =>
      if t.type = .eos then ([t], none)
      else
        let (ts, e) := tokenizeAll fuel st1
        (t :: ts, e)

/-- Tokenizer over a source string with the default reference location
(line 1, column 1, start position 0, no source name). -/
def tokenizeSource (fuel : Nat) (s : List Char) : List Token × Option TokErr :=
  tokenizeAll fuel (initTokState s 1 1 0 none)

/-- Spec-side restatement of the triple-quote closing rule, written from the
claim's words: scanning after the opening triple, the string closes at the
first occurrence of three consecutive `d` not immediately followed by a
fourth `d`; a triple followed by a fourth contributes one literal `d` to the
content and scanning continues; running off the end is failure.  Returns
the content and the characters remaining after the closing triple. -/
def tripleSpecScan (d : Char) : List Char → Option (List Char × List Char)
  | [] => none
  | c :: rest =>
    if c = d ∧ rest.head? = some d ∧ rest.tail.head? = some d then
      if rest.tail.tail.head? = some d then
        match tripleSpecScan d rest with
        | some (content, rem) => some (d :: content, rem)
        | none => none
      else some ([], rest.tail.tail)
    else
      match tripleSpecScan d rest with
      | some (content, rem) => some (c :: content, rem)
      | none => none

/-- The triple-quote test program from the spec. -/
def c8Src : List Char :=
  [sq, sq, sq] ++ (r"I said ").data ++ [sq] ++ (r"Hello").data ++ [sq, sq, sq, sq]

/-- Its expected STRING content. -/
def c8Content : List Char :=
  (r"I said ").data ++ [sq] ++ (r"Hello").data ++ [sq]

/-! ## Literal handlers (literals.py)

The handlers are functions `List Char → Option Value`.  Host datetime
machinery (`datetime.fromisoformat`, `ZoneInfo`, `date`, `time`) is modelled
just far enough to be faithful on every string the handlers can pass to it:
`pyFromIsoformat` accepts the `YYYY-MM-DD[*HH:MM[:SS[.ffffff]][±HH:MM]]`
grammar and rejects everything else (in particular any string containing a
bracketed IANA suffix, which `fromisoformat` rejects with `ValueError`). -/

/-- A timezone value: an IANA `ZoneInfo` name or a fixed offset in minutes
(the result of parsing an explicit `±HH:MM`). -/
inductive TzInfo where
  | zone (name : List Char)
  | offsetMin (minutes : Int)
deriving DecidableEq, Repr

/-- A Python `datetime.datetime`; `tz = none` is a naive datetime. -/
structure PyDateTime where
  year : Nat
  month : Nat
  day : Nat
  hour : Nat
  minute : Nat
  second : Nat
  microsecond : Nat
  tz : Option TzInfo
deriving DecidableEq, Repr

/-- Runtime values.  The base interpreter's stack holds ints, floats
(kept opaque as their accepted literal text — no claim observes float
arithmetic), booleans, plain and positioned strings, dates, times,
timezone-aware datetimes, arrays, the START_ARRAY token sentinel pushed by
`Interpreter._handle_start_array_token`, and variable handles. -/
inductive Value where
  | vint (n : Int)
  | vfloat (lit : List Char)
  | vbool (b : Bool)
  | vstr (s : List Char)
  | vposStr (s : List Char) (loc : Loc)
  | vdate (y m d : Nat)
  | vtime (h m : Nat)
  | vdatetime (dt : PyDateTime)
  | vlist (vs : List Value)
  | vtoken (t : Token)
  | vvarHandle (module : Nat) (name : List Char)
  | vnone
deriving Repr

/-- `to_bool`: exactly `TRUE` or `FALSE`. -/
def to_bool (s : List Char) : Option Value :=
  if s = (r"TRUE").data then some (.vbool true)
  else if s = (r"FALSE").data then some (.vbool false)
  else none

def isDigit (c : Char) : Bool := '0' ≤ c && c ≤ '9'

/-- Reads exactly `n` digits, returning their value and the rest. -/
def readDigits : Nat → List Char → Option (Nat × List Char)
  | 0, rest => some (0, rest)
  | n + 1, c :: rest =>
    if isDigit c then
      match readDigits n rest with
      | some (v, rest1) => some ((c.toNat - 48) * 10 ^ n + v, rest1)
      | none => none
    else none
  | _ + 1, [] => none

/-- Greedily reads 1 or more digits. -/
def readDigits1 : List Char → Option (Nat × Nat × List Char)
  | c :: rest =>
    if isDigit c then
      match readDigits1 rest with
      | some (v, k, rest1) => some ((c.toNat - 48) * 10 ^ k + v, k + 1, rest1)
      | none => some (c.toNat - 48, 1, rest)
    else none
  | [] => none

def isLeapYear (y : Nat) : Bool := (y % 4 = 0 && y % 100 ≠ 0) || y % 400 = 0

/-- Day count of a month, as validated by `datetime.date`. -/
def daysInMonth (y m : Nat) : Nat :=
  if m = 2 then (if isLeapYear y then 29 else 28)
  else if m = 4 || m = 6 || m = 9 || m = 11 then 30
  else 31

/-- Validity check performed by the `datetime.date` constructor. -/
def validDate (y m d : Nat) : Bool :=
  1 ≤ y && y ≤ 9999 && 1 ≤ m && m ≤ 12 && 1 ≤ d && d ≤ daysInMonth y m

/-- Fractional seconds: 1 to 6 digits, scaled to microseconds. -/
def readFraction (s : List Char) : Option (Nat × List Char) :=
  match readDigits1 s with
  | some (v, k, rest) => if k ≤ 6 then some (v * 10 ^ (6 - k), rest) else none
  | none => none

/-- UTC-offset suffix `±HH:MM` of an ISO time, as a signed minute count. -/
def readOffset (s : List Char) : Option (Int × List Char) :=
  match s with
  | c :: rest =>
    if c = '+' || c = '-' then
      match readDigits 2 rest with
      | some (h, rest1) =>
        match rest1 with
        | ':' :: rest2 =>
          match readDigits 2 rest2 with
          | some (m, rest3) =>
            if h < 24 && m < 60 then
              some ((if c = '-' then -(h * 60 + m : Int) else (h * 60 + m : Int)), rest3)
            else none
          | none => none
        | _ => none
      | none => none
    else none
  | [] => none

/-- Time-of-day part `HH:MM[:SS[.ffffff]][±HH:MM]` of an ISO datetime. -/
def readIsoTime (s : List Char) : Option (Nat × Nat × Nat × Nat × Option TzInfo) := do
  let (h, rest1) ← readDigits 2 s
  match rest1 with
  | ':' :: rest2 =>
    let (mi, rest3) ← readDigits 2 rest2
    let (sec, us, rest4) ←
      match rest3 with
      | ':' :: rest4 =>
        match readDigits 2 rest4 with
        | some (sec, rest5) =>
          match rest5 with
          | '.' :: rest6 =>
            match readFraction rest6 with
            | some (us, rest7) => some (sec, us, rest7)
            | none => none
          | ',' :: rest6 =>
            match readFraction rest6 with
            | some (us, rest7) => some (sec, us, rest7)
            | none => none
          | _ => some (sec, 0, rest5)
        | none => none
      | _ => some (0, 0, rest3)
    let tzo : Option TzInfo ←
      match rest4 with
      | [] => some none
      | _ =>
        match readOffset rest4 with
        | some (off, []) => some (some (.offsetMin off))
        | _ => none
    if h < 24 && mi < 60 && sec < 60 then
      some (h, mi, sec, us, tzo)
    else none
  | _ => none

/-- Model of `datetime.fromisoformat` on the strings the literal handlers
can produce: `YYYY-MM-DD`, optionally followed by a `T`/`t`/space separator
and `HH:MM[:SS[.ffffff]]` with an optional `±HH:MM` offset.  Everything
else — including RFC 9557 bracketed IANA names — raises `ValueError` in
Python and is `none` here. -/
def pyFromIsoformat (s : List Char) : Option PyDateTime := do
  let (y, rest1) ← readDigits 4 s
  match rest1 with
  | '-' :: rest2 =>
    let (mo, rest3) ← readDigits 2 rest2
    match rest3 with
    | '-' :: rest4 =>
      let (d, rest5) ← readDigits 2 rest4
      if validDate y mo d then
        match rest5 with
        | [] => some ⟨y, mo, d, 0, 0, 0, 0, none⟩
        | sep :: rest6 =>
          if sep = 'T' || sep = 't' || sep = ' ' then
            let (h, mi, sec, us, tzo) ← readIsoTime rest6
            some ⟨y, mo, d, h, mi, sec, us, tzo⟩
          else none
      else none
    | _ => none
  | _ => none

/-- Python `str.replace("Z", "+00:00")` (all occurrences). -/
def replaceZ (s : List Char) : List Char :=
  s.flatMap (fun c => if c = 'Z' then ('+' :: "00:00".data) else [c])

/-- The `re.search` for an explicit `[+-]\d{2}:\d{2}` offset anchored at the
end of the string (handler inputs are single tokens, so they contain no
newline and the `$` anchor means end-of-string). -/
def hasOffsetSuffix (s : List Char) : Bool :=
  match (s.reverse.take 6).reverse with
  | [c0, c1, c2, c3, c4, c5] =>
    (c0 = '+' || c0 = '-') && isDigit c1 && isDigit c2 && c3 = ':'
      && isDigit c4 && isDigit c5
  | _ => false

/-- `to_zoned_datetime(timezone)` from literals.py: requires a `T`; a
trailing `Z` is rewritten to `+00:00`; an explicit trailing offset is
parsed as-is; otherwise the parse result gets the interpreter timezone if
it is naive.  Any `ValueError` from `fromisoformat` yields `None`. -/
def to_zoned_datetime (tz : TzInfo) (s : List Char) : Option Value :=
  if s.contains 'T' then
    if s.getLast? = some 'Z' then
      (pyFromIsoformat (replaceZ s)).map .vdatetime
    else if hasOffsetSuffix s then
      (pyFromIsoformat s).map .vdatetime
    else
      match pyFromIsoformat s with
      | some dt =>
        if dt.tz = none then some (.vdatetime { dt with tz := some tz })
        else some (.vdatetime dt)
      | none => none
  else none

/-- `to_literal_date(timezone)` from literals.py: `YYYY-MM-DD` with the
wildcards `YYYY`, `MM`, `DD` substituted from today's date in the
interpreter timezone (`today` stands for `datetime.now(timezone)`). -/
def to_literal_date (today : Nat × Nat × Nat) (s : List Char) : Option Value :=
  let part1 : Option (Nat × List Char) :=
    match s with
    | 'Y' :: 'Y' :: 'Y' :: 'Y' :: rest => some (today.1, rest)
    | _ => readDigits 4 s
  match part1 with
  | none => none
  | some (y, rest1) =>
    match rest1 with
    | '-' :: rest2 =>
      let part2 : Option (Nat × List Char) :=
        match rest2 with
        | 'M' :: 'M' :: rest => some (today.2.1, rest)
        | _ => readDigits 2 rest2
      match part2 with
      | none => none
      | some (m, rest3) =>
        match rest3 with
        | '-' :: rest4 =>
          let part3 : Option (Nat × List Char) :=
            match rest4 with
            | 'D' :: 'D' :: [] => some (today.2.2, [])
            | _ =>
              match readDigits 2 rest4 with
              | some (d, []) => some (d, [])
              | _ => none
          match part3 with
          | none => none
          | some (d, _) => if validDate y m d then some (.vdate y m d) else none
        | _ => none
    | _ => none

def isPyWhitespace (c : Char) : Bool :=
  c = ' ' || c = '\t' || c = '\n' || c = '\r' || c = Char.ofNat 11 || c = Char.ofNat 12

/-- `to_time` from literals.py: `^(\d{1,2}):(\d{2})(?:\s*(AM|PM))?$` with
the source's AM/PM adjustments, rejecting hour > 23 or minute ≥ 60. -/
def to_time (s : List Char) : Option Value := do
  let (h0, k, rest1) ← readDigits1 s
  if k ≤ 2 then
    match rest1 with
    | ':' :: rest2 =>
      let (m, rest3) ← readDigits 2 rest2
      let meridiem : Option Bool ←   -- some true = PM, some false = AM
        match rest3.dropWhile isPyWhitespace with
        | [] => if rest3 = [] then some none else none
        | 'A' :: 'M' :: [] => some (some false)
        | 'P' :: 'M' :: [] => some (some true)
        | _ => none
      let h : Nat :=
        if meridiem = some true && h0 < 12 then h0 + 12
        else if meridiem = some false && h0 = 12 then 0
        else if meridiem = some false && h0 > 12 then h0 - 12
        else h0
      if h > 23 || m ≥ 60 then none
      else some (.vtime h m)
    | _ => none
  else none

/-- Python `str(int)` for the round-trip check in `to_int`. -/
def intToStr (n : Int) : List Char :=
  if n < 0 then '-' :: (Nat.toDigits 10 n.natAbs)
  else Nat.toDigits 10 n.natAbs

/-- `int(s, 10)`: optional sign then decimal digits.  (CPython also strips
whitespace and allows inner underscores, but every such input fails the
`str(result) != s` round-trip below, so the composite `to_int` is
unchanged.) -/
def pyIntParse (s : List Char) : Option Int :=
  match s with
  | '-' :: rest =>
    match readDigits1 rest with
    | some (v, _, []) => some (-(v : Int))
    | _ => none
  | '+' :: rest =>
    match readDigits1 rest with
    | some (v, _, []) => some (v : Int)
    | _ => none
  | _ =>
    match readDigits1 s with
    | some (v, _, []) => some (v : Int)
    | _ => none

/-- `to_int` from literals.py: no decimal point, parseable, and the
round-trip `str(result) == s` must hold (so `42abc` and non-canonical
spellings are rejected). -/
def to_int (s : List Char) : Option Value :=
  if s.contains '.' then none
  else
    match pyIntParse s with
    | some n => if intToStr n = s then some (.vint n) else none
    | none => none

/-- Acceptance model of CPython `float()` (used only behind the
decimal-point guard of `to_float`; no claim observes float values, so the
literal text is kept opaque): optional sign, then either a decimal literal
with optional exponent or an infinity/nan word. -/
def pyFloatAccepts (s : List Char) : Bool :=
  let core := match s with
    | '+' :: rest => rest
    | '-' :: rest => rest
    | _ => s
  let lower := core.map Char.toLower
  if lower = "inf".data || lower = "infinity".data || lower = "nan".data then true
  else
    let (mantissa, expPart) :=
      match core.span (fun c => c ≠ 'e' && c ≠ 'E') with
      | (m, []) => (m, none)
      | (m, _ :: e) => (m, some e)
    let mantOk :=
      match mantissa.span isDigit with
      | ([], _) =>
        (match mantissa with
         | '.' :: frac => frac ≠ [] && frac.all isDigit
         | _ => false)
      | (_, []) => false   -- plain integer: accepted by float() but cannot occur
      | (ip, '.' :: frac) => ip.all isDigit && frac.all isDigit
      | _ => false
    let expOk := match expPart with
      | none => true
      | some ('+' :: ds) => ds ≠ [] && ds.all isDigit
      | some ('-' :: ds) => ds ≠ [] && ds.all isDigit
      | some ds => ds ≠ [] && ds.all isDigit
    mantOk && expOk

/-- `to_float` from literals.py: must contain a decimal point, then parse
as a Python float. -/
def to_float (s : List Char) : Option Value :=
  if s.contains '.' then
    let stripped := ((s.dropWhile isPyWhitespace).reverse.dropWhile isPyWhitespace).reverse
    if pyFloatAccepts stripped then some (.vfloat s) else none
  else none

/-! ## Errors (errors.py), words and modules (module.py), interpreter
(interpreter.py)

Python objects with identity become heap indices: modules live in
`Interp.moduleHeap` (the app-module is index 0) and the shared mutable
memo cache of `ModuleMemoWord` lives in `Interp.memoHeap`, referenced by
the memo word and its `!`/`!@` companions alike.  Word execution returns
the (possibly partially mutated) interpreter state together with an
optional error, matching Python exception flow where mutations made
before a raise persist. -/

/-- Forthic error kinds (errors.py).  `hostIndexError` and `hostTypeError`
stand for the host language's `IndexError`/`TypeError`; `fuelOut` is the
embedding's exhausted-fuel marker. -/
inductive Err where
  | unknownWord (word : List Char) (loc : Option Loc)
  | stackUnderflow (loc : Option Loc)
  | missingSemicolon (loc : Option Loc)
  | extraSemicolon (loc : Option Loc)
  | wordExecution (name : List Char) (inner : Err) (callLoc : Loc) (defLoc : Option Loc)
  | tokenErr (e : TokErr)
  | hostIndexError
  | hostTypeError
  | fuelOut
deriving DecidableEq, Repr

/-- The word variants reachable in the embedded fragment: `PushValueWord`,
`DefinitionWord`, the interpreter's `StartModuleWord`/`EndModuleWord`/
`EndArrayWord`, the three memo words (sharing one cache through `mid`),
and the math module's `+` (`ModuleWord` with handler `plus` and no error
handlers).  Each carries the mutable `Word.location` slot. -/
inductive WordVal where
  | pushValue (name : List Char) (v : Value) (loc : Option Loc)
  | definition (name : List Char) (subs : List WordVal) (loc : Option Loc)
  | startModule (name : List Char) (loc : Option Loc)
  | endModule (loc : Option Loc)
  | endArray (loc : Option Loc)
  | memoWord (mid : Nat) (name : List Char) (loc : Option Loc)
  | memoBangWord (mid : Nat) (name : List Char) (loc : Option Loc)
  | memoBangAtWord (mid : Nat) (name : List Char) (loc : Option Loc)
  | plusWord (loc : Option Loc)
deriving Repr

/-- `Word.name`. -/
def wordName : WordVal → List Char
  | .pushValue n _ _ => n
  | .definition n _ _ => n
  | .startModule n _ => n
  | .endModule _ => [cbr]
  | .endArray _ => [']']
  | .memoWord _ n _ => n
  | .memoBangWord _ n _ => n
  | .memoBangAtWord _ n _ => n
  | .plusWord _ => ['+']

/-- `Word.get_location`. -/
def wordLoc : WordVal → Option Loc
  | .pushValue _ _ l => l
  | .definition _ _ l => l
  | .startModule _ l => l
  | .endModule l => l
  | .endArray l => l
  | .memoWord _ _ l => l
  | .memoBangWord _ _ l => l
  | .memoBangAtWord _ _ l => l
  | .plusWord l => l

/-- `Word.set_location`. -/
def set_word_location (w : WordVal) (loc : Option Loc) : WordVal :=
  match w with
  | .pushValue n v _ => .pushValue n v loc
  | .definition n subs _ => .definition n subs loc
  | .startModule n _ => .startModule n loc
  | .endModule _ => .endModule loc
  | .endArray _ => .endArray loc
  | .memoWord m n _ => .memoWord m n loc
  | .memoBangWord m n _ => .memoBangWord m n loc
  | .memoBangAtWord m n _ => .memoBangAtWord m n loc
  | .plusWord _ => .plusWord loc

/-- A `ModuleMemoWord`'s shared mutable state: the wrapped word and the
single cached value (`value` starts as Python `None`). -/
structure MemoRec where
  word : WordVal
  hasValue : Bool
  value : Value
deriving Repr

/-- `Module` (module.py): name, owned words, exportable names, variables
(never populated by the embedded fragment: the base interpreter has no
variable-creating words), sub-modules by name, and the prefix sets kept by
`register_module`. -/
structure ModuleRec where
  name : List Char
  words : List WordVal
  exportable : List (List Char)
  vars : List (List Char × Value)
  modules : List (List Char × Nat)
  modulePrefixes : List (List Char × List (List Char))
deriving Repr

/-- A fresh `Module(name)`. -/
def freshModule (name : List Char) : ModuleRec :=
  ⟨name, [], [], [], [], []⟩

def assocGet {α : Type} (l : List (List Char × α)) (k : List Char) : Option α :=
  (l.find? (fun p => p.1 = k)).map (fun p => p.2)

def assocSet {α : Type} (l : List (List Char × α)) (k : List Char) (v : α) :
    List (List Char × α) :=
  if (l.find? (fun p => p.1 = k)).isSome then
    l.map (fun p => if p.1 = k then (k, v) else p)
  else l ++ [(k, v)]

/-- `Module.find_dictionary_word`: newest-first scan of the owned words. -/
def module_find_dictionary_word (m : ModuleRec) (name : List Char) : Option WordVal :=
  m.words.reverse.find? (fun w => wordName w = name)

/-- `Module.find_variable`: a found variable comes back as a
`PushValueWord` pushing the variable handle itself (never hit in the
embedded fragment since `variables` stays empty). -/
def module_find_variable (m : ModuleRec) (varname : List Char) : Option WordVal :=
  match assocGet m.vars varname with
  | some _ => some (.pushValue varname (.vvarHandle 0 varname) none)
  | none => none

/-- `Module.find_word`: dictionary words, then variables. -/
def module_find_word (m : ModuleRec) (name : List Char) : Option WordVal :=
  match module_find_dictionary_word m name with
  | some w => some w
  | none => module_find_variable m name

/-- `Module.find_module`. -/
def module_find_module (m : ModuleRec) (name : List Char) : Option Nat :=
  assocGet m.modules name

/-- `Module.register_module`: record the submodule and accumulate the
prefix into its prefix set. -/
def module_register_module (m : ModuleRec) (moduleName pfx : List Char) (mid : Nat) :
    ModuleRec :=
  let prefixes := (assocGet m.modulePrefixes moduleName).getD []
  { m with
    modules := assocSet m.modules moduleName mid
    modulePrefixes := assocSet m.modulePrefixes moduleName
      (if pfx ∈ prefixes then prefixes else prefixes ++ [pfx]) }

/-- The interpreter state (`Interpreter.__init__`).  `today` stands for
`datetime.now(timezone)` inside the date literal handler.  The tokenizer
stack is implicit: a single `run` is modelled, threading its tokenizer
state through the loop (the embedded fragment has no words that launch
nested runs). -/
structure Interp where
  timezone : TzInfo
  today : Nat × Nat × Nat
  stack : List Value
  moduleHeap : List ModuleRec
  moduleStack : List Nat
  registeredModules : List (List Char × Nat)
  memoHeap : List MemoRec
  prevToken : Option Token
  isCompiling : Bool
  isMemoDefinition : Bool
  curDefinition : Option (List Char × List WordVal)
  stringLocation : Option Loc
  maxAttempts : Nat
deriving Repr

/-- `Interpreter.__init__` with no modules: app-module (index 0, empty
name) alone on the module stack, empty stack, `max_attempts = 3`. -/
def initInterp (tz : TzInfo) (today : Nat × Nat × Nat) : Interp :=
  { timezone := tz
    today := today
    stack := []
    moduleHeap := [freshModule []]
    moduleStack := [0]
    registeredModules := []
    memoHeap := []
    prevToken := none
    isCompiling := false
    isMemoDefinition := false
    curDefinition := none
    stringLocation := none
    maxAttempts := 3 }

def getModule (s : Interp) (mid : Nat) : Option ModuleRec :=
  s.moduleHeap.get? mid

def updateModule (s : Interp) (mid : Nat) (f : ModuleRec → ModuleRec) : Interp :=
  { s with moduleHeap :=
      match s.moduleHeap.get? mid with
      | some m => s.moduleHeap.set mid (f m)
      | none => s.moduleHeap }

/-- `Interpreter.cur_module`: the top (last) entry of the module stack;
`none` models the `IndexError` an empty stack would raise. -/
def cur_module (s : Interp) : Option Nat :=
  s.moduleStack.getLast?

/-- `Interpreter.module_stack_push` (Python appends at the end). -/
def module_stack_push (mid : Nat) (s : Interp) : Interp :=
  { s with moduleStack := s.moduleStack ++ [mid] }

/-- `Interpreter.module_stack_pop`: `list.pop()`, raising `IndexError` on an
empty list. -/
def module_stack_pop (s : Interp) : Except Err (Nat × Interp) :=
  match s.moduleStack.getLast? with
  | none => .error .hostIndexError
  | some mid => .ok (mid, { s with moduleStack := s.moduleStack.dropLast })

/-- `Interpreter.stack_push` (Python appends at the end). -/
def stack_push (v : Value) (s : Interp) : Interp :=
  { s with stack := s.stack ++ [v] }

/-- `Interpreter.stack_pop`: underflow raises stack-underflow carrying the
active tokenizer's current token location; a popped positioned string
decays to a plain string and records its location in the one-slot
`_string_location`, which every other pop clears. -/
def stack_pop (tok : TokState) (s : Interp) : Except Err (Value × Interp) :=
  if s.stack.length = 0 then
    .error (.stackUnderflow (some (get_token_location tok)))
  else
    match s.stack.getLast? with
    | none => .error .hostIndexError
    | some v =>
      let s1 := { s with stack := s.stack.dropLast }
      match v with
      | .vposStr str loc => .ok (.vstr str, { s1 with stringLocation := some loc })
      | _ => .ok (v, { s1 with stringLocation := none })

/-- Native Python list indexing with negative-index wrapping, as used by
`Stack.__getitem__`. -/
def pyListGet (l : List Value) (i : Int) : Option Value :=
  let j : Int := if i < 0 then i + l.length else i
  if 0 ≤ j ∧ j < l.length then l.get? j.toNat else none

/-- `Interpreter.stack_peek`: index `len - 1` through `Stack.__getitem__`
(so an empty stack raises the host `IndexError`, not stack-underflow), and
decay a positioned string without touching `_string_location`. -/
def stack_peek (s : Interp) : Except Err Value :=
  match pyListGet s.stack ((s.stack.length : Int) - 1) with
  | none => .error .hostIndexError
  | some top =>
    match top with
    | .vposStr str _ => .ok (.vstr str)
    | v => .ok v

/-- `Interpreter.find_literal_word`: try the standard chain in
registration order — bool, float, zoned datetime, date, time, int — and
wrap the first hit in a fresh `PushValueWord`. -/
def find_literal_word (s : Interp) (name : List Char) : Option WordVal :=
  let chain : List (List Char → Option Value) :=
    [to_bool, to_float, to_zoned_datetime s.timezone, to_literal_date s.today,
      to_time, to_int]
  match chain.findSome? (fun h => h name) with
  | some v => some (.pushValue name v none)
  | none => none

/-- `Interpreter.find_word`: scan the module stack from the top, fall back
to the literal chain, else unknown-word (carrying the last string
location). -/
def find_word (s : Interp) (name : List Char) : Except Err WordVal :=
  let fromModules :=
    s.moduleStack.reverse.findSome? (fun mid =>
      match getModule s mid with
      | some m => module_find_word m name
      | none => none)
  match fromModules with
  | some w => .ok w
  | none =>
    match find_literal_word s name with
    | some w => .ok w
    | none => .error (.unknownWord name s.stringLocation)

/-- `Module.add_word` on the module `mid`. -/
def add_word (mid : Nat) (w : WordVal) (s : Interp) : Interp :=
  updateModule s mid (fun m => { m with words := m.words ++ [w] })

/-- `Module.add_memo_words` on the module `mid`: allocate the shared
`ModuleMemoWord` cache and append the memo word and its `!` and `!@`
companions. -/
def add_memo_words (mid : Nat) (w : WordVal) (s : Interp) : Interp :=
  let memoId := s.memoHeap.length
  let name := wordName w
  let s1 := { s with memoHeap := s.memoHeap ++ [⟨w, false, .vnone⟩] }
  updateModule s1 mid (fun m =>
    { m with words := m.words
        ++ [.memoWord memoId name none,
            .memoBangWord memoId (name ++ ['!']) none,
            .memoBangAtWord memoId (name ++ ['!', '@']) none] })

/-- `StartModuleWord.execute`: empty name pushes the app-module; otherwise
push the sub-module registered with the current module, creating,
registering (with prefix = its own name) and — when the current module is
the app-module — interpreter-registering a fresh one first. -/
def start_module_execute (name : List Char) (s : Interp) : Interp × Option Err :=
  if name = [] then (module_stack_push 0 s, none)
  else
    match cur_module s with
    | none => (s, some .hostIndexError)
    | some cm =>
      match getModule s cm with
      | none => (s, some .hostIndexError)
      | some m =>
        match module_find_module m name with
        | some mid => (module_stack_push mid s, none)
        | none =>
          let newId := s.moduleHeap.length
          let s1 := { s with moduleHeap := s.moduleHeap ++ [freshModule name] }
          let s2 := updateModule s1 cm (fun mm => module_register_module mm name name newId)
          let s3 :=
            if m.name = [] then
              { s2 with registeredModules := assocSet s2.registeredModules name newId }
            else s2
          (module_stack_push newId s3, none)

/-- Python `num_a + num_b` in `MathModule.plus`, with `None` treated as 0.
Only integer addition occurs in the verified scenarios; other combinations
surface as a host `TypeError`. -/
def addValues (a b : Value) : Option Value :=
  match a, b with
  | .vnone, .vnone => some (.vint 0)
  | .vnone, .vint n => some (.vint n)
  | .vint n, .vnone => some (.vint n)
  | .vint x, .vint y => some (.vint (x + y))
  | _, _ => none

/-- The array branch of `MathModule.plus`: sum the non-`None` entries
starting from 0. -/
def sum_list (items : List Value) : Option Value :=
  items.foldl
    (fun acc it =>
      match acc with
      | none => none
      | some a =>
        match it with
        | .vnone => some a
        | _ => addValues a it)
    (some (.vint 0))

/-- `MathModule.plus` wrapped in `ModuleWord.execute`: the word has no
per-word error handlers, so any error from the handler is re-raised
unchanged (and no intentional-stop can arise here). -/
def plus_handler (tok : TokState) (s : Interp) : Interp × Option Err :=
  match stack_pop tok s with
  | .error e => (s, some e)
  | .ok (b, s1) =>
    match b with
    | .vlist items =>
      match sum_list items with
      | some v => (stack_push v s1, none)
      | none => (s1, some .hostTypeError)
    | _ =>
      match stack_pop tok s1 with
      | .error e => (s1, some e)
      | .ok (a, s2) =>
        match addValues a b with
        | some v => (stack_push v s2, none)
        | none => (s2, some .hostTypeError)

/-- `EndArrayWord.execute` loop: pop until the START_ARRAY token sentinel,
accumulating popped items in pop order. -/
def end_array_loop : Nat → TokState → Interp → List Value → Interp × Except Err (List Value)
  | 0, _, s, _ => (s, .error .fuelOut)
  | fuel + 1, tok, s, acc =>
    match stack_pop tok s with
    | .error e => (s, .error e)
    | .ok (v, s1) =>
      match v with
      | .vtoken t =>
        if t.type = .startArray then (s1, .ok acc)
        else end_array_loop fuel tok s1 (acc ++ [v])
      | _ => end_array_loop fuel tok s1 (acc ++ [v])

mutual

/-- `Word.execute` over the embedded word variants.  `tok` is the state of
the active tokenizer (used for call-site and underflow locations). -/
def exec_word : Nat → TokState → WordVal → Interp → Interp × Option Err
  | 0, _, _, s => (s, some .fuelOut)
  | fuel + 1, tok, w, s =>
    match w with
    | .pushValue _ v _ => (stack_push v s, none)
    | .definition name subs _ => exec_subs fuel tok name subs s
    | .startModule name _ => start_module_execute name s
    | .endModule _ =>
      match module_stack_pop s with
      | .ok (_, s1) => (s1, none)
      | .error e => (s, some e)
    | .endArray _ =>
      match end_array_loop fuel tok s [] with
      | (s1, .ok items) => (stack_push (.vlist items.reverse) s1, none)
      | (s1, .error e) => (s1, some e)
    | .memoWord mid _ _ =>
      match s.memoHeap.get? mid with
      | none => (s, some .hostIndexError)
      | some mr =>
        if mr.hasValue then (stack_push mr.value s, none)
        else
          match memo_refresh fuel tok mid s with
          | (s1, some e) => (s1, some e)
          | (s1, none) =>
            match s1.memoHeap.get? mid with
            | some mr2 => (stack_push mr2.value s1, none)
            | none => (s1, some .hostIndexError)
    | .memoBangWord mid _ _ =>
      match memo_refresh fuel tok mid s with
      | (s1, e) => (s1, e)
    | .memoBangAtWord mid _ _ =>
      match memo_refresh fuel tok mid s with
      | (s1, some e) => (s1, some e)
      | (s1, none) =>
        match s1.memoHeap.get? mid with
        | some mr2 => (stack_push mr2.value s1, none)
        | none => (s1, some .hostIndexError)
    | .plusWord _ => plus_handler tok s

/-- `DefinitionWord.execute`: run the sub-words in order; any error raised
by a sub-word is wrapped into a word-execution-error carrying the outer
tokenizer's current token location (call site) and the failing sub-word's
recorded location (definition site). -/
def exec_subs : Nat → TokState → List Char → List WordVal → Interp → Interp × Option Err
  | 0, _, _, _, s => (s, some .fuelOut)
  | fuel + 1, tok, name, subs, s =>
    match subs with
    | [] => (s, none)
    | w :: rest =>
      match exec_word fuel tok w s with
      | (s1, none) => exec_subs fuel tok name rest s1
      | (s1, some e) =>
        (s1, some (.wordExecution name e (get_token_location tok) (wordLoc w)))

/-- `ModuleMemoWord.refresh`: execute the wrapped word, pop the result into
the shared cache, mark the cache filled. -/
def memo_refresh : Nat → TokState → Nat → Interp → Interp × Option Err
  | 0, _, _, s => (s, some .fuelOut)
  | fuel + 1, tok, mid, s =>
    match s.memoHeap.get? mid with
    | none => (s, some .hostIndexError)
    | some mr =>
      match exec_word fuel tok mr.word s with
      | (s1, some e) => (s1, some e)
      | (s1, none) =>
        match stack_pop tok s1 with
        | .error e => (s1, some e)
        | .ok (v, s2) =>
          match s2.memoHeap.get? mid with
          | some mr2 =>
            ({ s2 with memoHeap := s2.memoHeap.set mid { mr2 with hasValue := true, value := v } },
              none)
          | none => (s2, some .hostIndexError)

end

/-- `Interpreter._handle_word`: while compiling, record the location on the
word and append it to the current definition; otherwise execute it
(profiling is off throughout, so `count_word` is a no-op). -/
def handle_word (fuel : Nat) (tok : TokState) (w : WordVal) (loc : Option Loc)
    (s : Interp) : Interp × Option Err :=
  match s.isCompiling, s.curDefinition with
  | true, some (n, ws) =>
    ({ s with curDefinition := some (n, ws ++ [set_word_location w loc]) }, none)
  | _, _ => exec_word fuel tok w s

/-- `Interpreter._handle_token`: dispatch one token. -/
def handle_token (fuel : Nat) (tok : TokState) (token : Token) (s : Interp) :
    Interp × Option Err :=
  match token.type with
  | .string =>
    handle_word fuel tok
      (.pushValue (r"<string>").data (.vposStr token.string token.location) none) none s
  | .dotSymbol =>
    handle_word fuel tok
      (.pushValue (r"<dot-symbol>").data (.vposStr token.string token.location) none) none s
  | .comment => (s, none)
  | .startArray =>
    handle_word fuel tok
      (.pushValue (r"<start_array_token>").data (.vtoken token) none) none s
  | .endArray => handle_word fuel tok (.endArray none) none s
  | .startModule =>
    let w : WordVal := .startModule token.string none
    let s1 :=
      match s.isCompiling, s.curDefinition with
      | true, some (n, ws) => { s with curDefinition := some (n, ws ++ [w]) }
      | _, _ => s
    exec_word fuel tok w s1
  | .endModule =>
    let w : WordVal := .endModule none
    let s1 :=
      match s.isCompiling, s.curDefinition with
      | true, some (n, ws) => { s with curDefinition := some (n, ws ++ [w]) }
      | _, _ => s
    exec_word fuel tok w s1
  | .startDef =>
    if s.isCompiling then
      (s, some (.missingSemicolon (s.prevToken.map (fun t => t.location))))
    else
      let s1 := { s with curDefinition := some (token.string, []) }
      ({ s1 with isCompiling := true, isMemoDefinition := false }, none)
  | .startMemo =>
    if s.isCompiling then
      (s, some (.missingSemicolon (s.prevToken.map (fun t => t.location))))
    else
      let s1 := { s with curDefinition := some (token.string, []) }
      ({ s1 with isCompiling := true, isMemoDefinition := true }, none)
  | .endDef =>
    match s.isCompiling, s.curDefinition with
    | true, some (n, ws) =>
      match cur_module s with
      | none => (s, some .hostIndexError)
      | some cm =>
        let d : WordVal := .definition n ws none
        if s.isMemoDefinition then
          (add_memo_words cm d { s with isCompiling := false }, none)
        else (add_word cm d { s with isCompiling := false }, none)
    | _, _ => (s, some (.extraSemicolon (some token.location)))
  | .word =>
    match find_word s token.string with
    | .error e => (s, some e)
    | .ok w => handle_word fuel tok w (some token.location) s
  | .eos =>
    if s.isCompiling then
      (s, some (.missingSemicolon (s.prevToken.map (fun t => t.location))))
    else (s, none)

/-- `Interpreter._run_with_tokenizer`: fetch and dispatch tokens until EOS
(recording each token in `_previous_token` before handling it); a raised
error aborts the loop. -/
def run_loop : Nat → TokState → Interp → Interp × TokState × Option Err
  | 0, tok, s => (s, tok, some .fuelOut)
  | fuel + 1, tok, s =>
    match next_token fuel tok with
    | .error te => (s, tok, some (.tokenErr te))
    | .ok (token, tok1) =>
      let s1 := { s with prevToken := some token }
      match handle_token fuel tok1 token s1 with
      | (s2, some e) => (s2, tok1, some e)
      | (s2, none) =>
        if token.type = .eos then (s2, tok1, none)
        else run_loop fuel tok1 s2

/-- `Interpreter.run` on a source string with no error handler installed
and the default reference location: push a fresh tokenizer and run the
token loop. -/
def interp_run (fuel : Nat) (src : List Char) (s : Interp) : Interp × Option Err :=
  let (s1, _, e) := run_loop fuel (initTokState src 1 1 0 none) s
  (s1, e)

/-- A base interpreter whose app-module additionally owns the math module's
`+` word — the relevant slice of `StandardInterpreter.__init__`, whose
unprefixed `import_module` appends each exportable stdlib word object
directly to the app-module's word list. -/
def initInterpWithPlus (tz : TzInfo) (today : Nat × Nat × Nat) : Interp :=
  let s := initInterp tz today
  add_word 0 (.plusWord none) s

/-! ## Recovery loop (`Interpreter._execute_with_recovery`)

The loop is modelled over abstract behaviours: `cont n` is the outcome of
`await self._continue()` on attempt `n` (`none` = success), and
`handler e` is the outcome of `await self._handle_error(e, self)`
(`none` = the handler returned normally, `some e1` = it raised `e1`).
The claim presupposes an installed handler, so the `if not
self._handle_error: raise` branch never fires. -/

/-- Exceptions flowing through the recovery loop: the structured
too-many-attempts error (carrying `num_attempts` and `max_attempts`) or
any other runtime error, abstracted by a tag. -/
inductive RecErr where
  | tooManyAttempts (numAttempts maxAttempts : Nat)
  | runtime (tag : Nat)
deriving DecidableEq, Repr

/-- Outcome of the recovery loop. -/
inductive RecResult where
  | ok (attempts : Nat)
  | raised (e : RecErr)
  | fuelOut
deriving DecidableEq, Repr

/-- `Interpreter._execute_with_recovery`: bump the attempt counter; past
`max_attempts` raise too-many-attempts — note that this raise sits inside
the `try`, so it is caught by the same `except Exception` and fed to the
error handler like any other failure; otherwise run `continue`.  On any
caught error, invoke the handler: if the handler returns normally, recurse
with the bumped counter; if it raises, that exception propagates. -/
def execute_with_recovery (fuel : Nat) (maxAttempts : Nat)
    (cont : Nat → Option RecErr) (handler : RecErr → Option RecErr)
    (numAttempts : Nat) : RecResult :=
  match fuel with
  | 0 => .fuelOut
  | fuel + 1 =>
    let n := numAttempts + 1
    let attemptOutcome : Option RecErr :=
      if n > maxAttempts then some (.tooManyAttempts n maxAttempts) else cont n
    match attemptOutcome with
    | none => .ok n
    | some e =>
      match handler e with
      | none => execute_with_recovery fuel maxAttempts cont handler n
      | some e1 => .raised e1

/-! ## Core module variable words (core_module.py, module.py)

`Module.variables` maps names to mutable `Variable` objects; here it is an
association list from names to values (`Variable(name, value)` with the
default `None` as `Value.vnone`). -/

abbrev VarDict := List (List Char × Value)

/-- Core-module error: `InvalidVariableNameError`. -/
inductive CoreErr where
  | invalidVariableName (name : List Char)
deriving DecidableEq, Repr

/-- Python `name.startswith("__")`. -/
def startsWithDunder (name : List Char) : Bool :=
  name.take 2 = ['_', '_']

/-- `Module.add_variable`: add a variable only if absent — note there is
no name validation here. -/
def module_add_variable (vars : VarDict) (name : List Char)
    (value : Value := .vnone) : VarDict :=
  if (assocGet vars name).isSome then vars else vars ++ [(name, value)]

/-- `CoreModule._get_or_create_variable`: reject names starting with `__`,
then fetch or create the variable in the current module. -/
def get_or_create_variable (vars : VarDict) (name : List Char) :
    Except CoreErr (VarDict × List Char) :=
  if startsWithDunder name then .error (.invalidVariableName name)
  else
    match assocGet vars name with
    | some _ => .ok (vars, name)
    | none => .ok (module_add_variable vars name, name)

/-- The `VARIABLES` word: create each listed variable in the current
module, raising invalid-variable-name at the first `__`-prefixed name. -/
def core_VARIABLES (vars : VarDict) : List (List Char) → Except CoreErr VarDict
  | [] => .ok vars
  | v :: rest =>
    if startsWithDunder v then .error (.invalidVariableName v)
    else core_VARIABLES (module_add_variable vars v) rest

/-- The operand of `!`, `@` and `!@`: a plain string name (auto-created
through `_get_or_create_variable`) or an already-obtained variable
handle. -/
inductive VarOperand where
  | byName (name : List Char)
  | byHandle (name : List Char)
deriving DecidableEq, Repr

/-- The `!` word: store `value` into the variable. -/
def core_bang (vars : VarDict) (value : Value) (operand : VarOperand) :
    Except CoreErr VarDict :=
  match operand with
  | .byName n => do
    let (vs, nm) ← get_or_create_variable vars n
    .ok (assocSet vs nm value)
  | .byHandle n => .ok (assocSet vars n value)

/-- The `@` word: read the variable's value. -/
def core_at (vars : VarDict) (operand : VarOperand) :
    Except CoreErr (VarDict × Value) :=
  match operand with
  | .byName n => do
    let (vs, nm) ← get_or_create_variable vars n
    .ok (vs, (assocGet vs nm).getD .vnone)
  | .byHandle n => .ok (vars, (assocGet vars n).getD .vnone)

/-- The `!@` word: store, then read back. -/
def core_bang_at (vars : VarDict) (value : Value) (operand : VarOperand) :
    Except CoreErr (VarDict × Value) :=
  match operand with
  | .byName n => do
    let (vs, nm) ← get_or_create_variable vars n
    let vs1 := assocSet vs nm value
    .ok (vs1, (assocGet vs1 nm).getD .vnone)
  | .byHandle n =>
    let vs1 := assocSet vars n value
    .ok (vs1, (assocGet vs1 n).getD .vnone)

/-! ## Host-handler words and per-word error handlers (module.py)

`ModuleWord.execute` and `Word.try_error_handlers`, over an abstract state
type: the host handler and each error handler may mutate the interpreter
and may raise.  A handler behaviour maps the incoming error and state to
the new state plus a raised-or-not flag. -/

/-- Exceptions at a host-handler boundary: `IntentionalStopError` or an
ordinary exception abstracted by a tag. -/
inductive HostErr where
  | intentionalStop
  | err (tag : Nat)
deriving DecidableEq, Repr

/-- `Word.try_error_handlers`: run the handlers in registration order; a
handler that raises is skipped (its state mutations persist) and the next
one is tried; the first handler that returns normally stops the scan with
`true`; if all raise, the scan reports `false`. -/
def try_error_handlers {σ : Type} (handlers : List (HostErr → σ → σ × Bool))
    (e : HostErr) (s : σ) : σ × Bool :=
  match handlers with
  | [] => (s, false)
  | h :: rest =>
    let (s1, raised) := h e s
    if raised then try_error_handlers rest e s1 else (s1, true)

/-- `ModuleWord.execute`: run the host handler; an intentional-stop error
is re-raised without consulting any error handler; any other error is
offered to the error handlers — suppressed if one of them succeeds,
re-raised (the original error) if all raise. -/
def module_word_execute {σ : Type} (hostHandler : σ → σ × Option HostErr)
    (errorHandlers : List (HostErr → σ → σ × Bool)) (s : σ) : σ × Option HostErr :=
  let (s1, res) := hostHandler s
  match res with
  | none => (s1, none)
  | some e =>
    match e with
    | .intentionalStop => (s1, some e)
    | .err _ =>
      let (s2, handled) := try_error_handlers errorHandlers e s1
      if handled then (s2, none) else (s2, some e)

/-! ## Shared constants and helpers for the theorems -/

/-- The interpreter timezone of the concrete scenarios: `ZoneInfo("UTC")`,
the default of `Interpreter.__init__`. -/
def utcTz : TzInfo := .zone (r"UTC").data

/-- An arbitrary concrete "today" for the date literal handler. -/
def today0 : Nat × Nat × Nat := (2026, 10, 12)

/-- A fresh base interpreter with timezone UTC. -/
def freshInterp : Interp := initInterp utcTz today0

/-- Python slicing `S[a:b]`. -/
def extract (l : List Char) (a b : Nat) : List Char :=
  (l.take b).drop a

/-- The span property of the (amended) position-fidelity claim: the source
slice `S[start_pos:end_pos]` is the token's lexeme — with the leading dot
back in front for DOT_SYMBOL tokens, whose lexeme had it stripped. -/
def spanProp (input : List Char) (t : Token) : Prop :=
  extract input t.location.startPos t.location.endPos =
    (if t.type = .dotSymbol then '.' :: t.string else t.string)

/-- Invariant of a token-in-progress over a tokenizer state with the
default reference start position: the noted start plus the gathered length
is the current position, and the slice from the noted start to the current
position is exactly the gathered string. -/
def TInv (st : TokState) : Prop :=
  st.refStartPos = 0
    ∧ st.tokenStartPos + st.tokenString.length = st.pos
    ∧ extract st.input st.tokenStartPos st.pos = st.tokenString

/-- The zoned-datetime literal of the claimed scenario. -/
def c1Input : List Char := (r"2020-06-05T10:15:00[America/New_York]").data


/-- Sources of the concrete memo scenarios. -/
def c5aSrc : List Char := (r"@: K 5 7 ; K K").data

/-- Memo scenario forcing a refresh with `K!`. -/
def c5bSrc : List Char := (r"@: K 5 7 ; K K!").data

/-- Memo scenario refreshing and pushing with `K!@`. -/
def c5cSrc : List Char := (r"@: K 5 7 ; K K!@").data

/-- The two-line definition-site/call-site scenario of the claim. -/
def c6Src : List Char := (": ADD + ;\n1 ADD 2 *").data

/-- Interpreter owning the math `+` word, for the C6 scenario. -/
def c6Interp0 : Interp := initInterpWithPlus utcTz today0

/-! Intermediate states of the concrete scenarios, one per interpreter
loop iteration, letting each step of a concrete run be checked by `rfl`
without re-evaluating the whole pipeline. -/

/-- Intermediate tokenizer state of the c1R scenario. -/
def c1RTok1 : TokState := { input := ['2', '0', '2', '0', '-', '0', '6', '-', '0', '5', 'T', '1', '0', ':', '1', '5', ':', '0', '0', '[', 'A', 'm', 'e', 'r', 'i', 'c', 'a', '/', 'N', 'e', 'w', '_', 'Y', 'o', 'r', 'k', ']'], pos := 19, line := 1, col := 20, refStartPos := 0, refSource := none, tokenStartPos := 0, tokenLine := 1, tokenCol := 1, tokenString := ['2', '0', '2', '0', '-', '0', '6', '-', '0', '5', 'T', '1', '0', ':', '1', '5', ':', '0', '0'] }

/-- Intermediate interpreter state of the c1R scenario. -/
def c1RS1 : Interp := { timezone := Forthic.TzInfo.zone ['U', 'T', 'C'], today := (2026, 10, 12), stack := [Forthic.Value.vdatetime { year := 2020, month := 6, day := 5, hour := 10, minute := 15, second := 0, microsecond := 0, tz := some (Forthic.TzInfo.zone ['U', 'T', 'C']) }], moduleHeap := [{ name := [], words := [], exportable := [], vars := [], modules := [], modulePrefixes := [] }], moduleStack := [0], registeredModules := [], memoHeap := [], prevToken := some { type := Forthic.TokenType.word, string := ['2', '0', '2', '0', '-', '0', '6', '-', '0', '5', 'T', '1', '0', ':', '1', '5', ':', '0', '0'], location := { source := none, line := 1, column := 1, startPos := 0, endPos := 19 } }, isCompiling := false, isMemoDefinition := false, curDefinition := none, stringLocation := none, maxAttempts := 3 }

/-- Intermediate tokenizer state of the c1R scenario. -/
def c1RTok2 : TokState := { input := ['2', '0', '2', '0', '-', '0', '6', '-', '0', '5', 'T', '1', '0', ':', '1', '5', ':', '0', '0', '[', 'A', 'm', 'e', 'r', 'i', 'c', 'a', '/', 'N', 'e', 'w', '_', 'Y', 'o', 'r', 'k', ']'], pos := 20, line := 1, col := 21, refStartPos := 0, refSource := none, tokenStartPos := 19, tokenLine := 1, tokenCol := 20, tokenString := ['['] }

/-- Intermediate interpreter state of the c1R scenario. -/
def c1RS2 : Interp := { timezone := Forthic.TzInfo.zone ['U', 'T', 'C'], today := (2026, 10, 12), stack := [Forthic.Value.vdatetime { year := 2020, month := 6, day := 5, hour := 10, minute := 15, second := 0, microsecond := 0, tz := some (Forthic.TzInfo.zone ['U', 'T', 'C']) }, Forthic.Value.vtoken { type := Forthic.TokenType.startArray, string := ['['], location := { source := none, line := 1, column := 20, startPos := 19, endPos := 20 } }], moduleHeap := [{ name := [], words := [], exportable := [], vars := [], modules := [], modulePrefixes := [] }], moduleStack := [0], registeredModules := [], memoHeap := [], prevToken := some { type := Forthic.TokenType.startArray, string := ['['], location := { source := none, line := 1, column := 20, startPos := 19, endPos := 20 } }, isCompiling := false, isMemoDefinition := false, curDefinition := none, stringLocation := none, maxAttempts := 3 }

/-- Final interpreter state of the c1R scenario. -/
def c1RSF : Interp := { timezone := Forthic.TzInfo.zone ['U', 'T', 'C'], today := (2026, 10, 12), stack := [Forthic.Value.vdatetime { year := 2020, month := 6, day := 5, hour := 10, minute := 15, second := 0, microsecond := 0, tz := some (Forthic.TzInfo.zone ['U', 'T', 'C']) }, Forthic.Value.vtoken { type := Forthic.TokenType.startArray, string := ['['], location := { source := none, line := 1, column := 20, startPos := 19, endPos := 20 } }], moduleHeap := [{ name := [], words := [], exportable := [], vars := [], modules := [], modulePrefixes := [] }], moduleStack := [0], registeredModules := [], memoHeap := [], prevToken := some { type := Forthic.TokenType.word, string := ['A', 'm', 'e', 'r', 'i', 'c', 'a', '/', 'N', 'e', 'w', '_', 'Y', 'o', 'r', 'k'], location := { source := none, line := 1, column := 21, startPos := 20, endPos := 36 } }, isCompiling := false, isMemoDefinition := false, curDefinition := none, stringLocation := none, maxAttempts := 3 }

/-- Final tokenizer state of the c1R scenario. -/
def c1RTokF : TokState := { input := ['2', '0', '2', '0', '-', '0', '6', '-', '0', '5', 'T', '1', '0', ':', '1', '5', ':', '0', '0', '[', 'A', 'm', 'e', 'r', 'i', 'c', 'a', '/', 'N', 'e', 'w', '_', 'Y', 'o', 'r', 'k', ']'], pos := 36, line := 1, col := 37, refStartPos := 0, refSource := none, tokenStartPos := 20, tokenLine := 1, tokenCol := 21, tokenString := ['A', 'm', 'e', 'r', 'i', 'c', 'a', '/', 'N', 'e', 'w', '_', 'Y', 'o', 'r', 'k'] }

/-- Final error of the c1R scenario. -/
def c1RErr : Option Err := some (Forthic.Err.unknownWord ['A', 'm', 'e', 'r', 'i', 'c', 'a', '/', 'N', 'e', 'w', '_', 'Y', 'o', 'r', 'k'] none)

/-- Intermediate tokenizer state of the c5a scenario. -/
def c5aTok1 : TokState := { input := ['@', ':', ' ', 'K', ' ', '5', ' ', '7', ' ', ';', ' ', 'K', ' ', 'K'], pos := 5, line := 1, col := 6, refStartPos := 0, refSource := none, tokenStartPos := 3, tokenLine := 1, tokenCol := 4, tokenString := ['K'] }

/-- Intermediate interpreter state of the c5a scenario. -/
def c5aS1 : Interp := { timezone := Forthic.TzInfo.zone ['U', 'T', 'C'], today := (2026, 10, 12), stack := [], moduleHeap := [{ name := [], words := [], exportable := [], vars := [], modules := [], modulePrefixes := [] }], moduleStack := [0], registeredModules := [], memoHeap := [], prevToken := some { type := Forthic.TokenType.startMemo, string := ['K'], location := { source := none, line := 1, column := 4, startPos := 3, endPos := 4 } }, isCompiling := true, isMemoDefinition := true, curDefinition := some (['K'], []), stringLocation := none, maxAttempts := 3 }

/-- Intermediate tokenizer state of the c5a scenario. -/
def c5aTok2 : TokState := { input := ['@', ':', ' ', 'K', ' ', '5', ' ', '7', ' ', ';', ' ', 'K', ' ', 'K'], pos := 7, line := 1, col := 8, refStartPos := 0, refSource := none, tokenStartPos := 5, tokenLine := 1, tokenCol := 6, tokenString := ['5'] }

/-- Intermediate interpreter state of the c5a scenario. -/
def c5aS2 : Interp := { timezone := Forthic.TzInfo.zone ['U', 'T', 'C'], today := (2026, 10, 12), stack := [], moduleHeap := [{ name := [], words := [], exportable := [], vars := [], modules := [], modulePrefixes := [] }], moduleStack := [0], registeredModules := [], memoHeap := [], prevToken := some { type := Forthic.TokenType.word, string := ['5'], location := { source := none, line := 1, column := 6, startPos := 5, endPos := 6 } }, isCompiling := true, isMemoDefinition := true, curDefinition := some (['K'], [Forthic.WordVal.pushValue ['5'] (Forthic.Value.vint 5) (some { source := none, line := 1, column := 6, startPos := 5, endPos := 6 })]), stringLocation := none, maxAttempts := 3 }

/-- Intermediate tokenizer state of the c5a scenario. -/
def c5aTok3 : TokState := { input := ['@', ':', ' ', 'K', ' ', '5', ' ', '7', ' ', ';', ' ', 'K', ' ', 'K'], pos := 9, line := 1, col := 10, refStartPos := 0, refSource := none, tokenStartPos := 7, tokenLine := 1, tokenCol := 8, tokenString := ['7'] }

/-- Intermediate interpreter state of the c5a scenario. -/
def c5aS3 : Interp := { timezone := Forthic.TzInfo.zone ['U', 'T', 'C'], today := (2026, 10, 12), stack := [], moduleHeap := [{ name := [], words := [], exportable := [], vars := [], modules := [], modulePrefixes := [] }], moduleStack := [0], registeredModules := [], memoHeap := [], prevToken := some { type := Forthic.TokenType.word, string := ['7'], location := { source := none, line := 1, column := 8, startPos := 7, endPos := 8 } }, isCompiling := true, isMemoDefinition := true, curDefinition := some (['K'], [Forthic.WordVal.pushValue ['5'] (Forthic.Value.vint 5) (some { source := none, line := 1, column := 6, startPos := 5, endPos := 6 }), Forthic.WordVal.pushValue ['7'] (Forthic.Value.vint 7) (some { source := none, line := 1, column := 8, startPos := 7, endPos := 8 })]), stringLocation := none, maxAttempts := 3 }

/-- Intermediate tokenizer state of the c5a scenario. -/
def c5aTok4 : TokState := { input := ['@', ':', ' ', 'K', ' ', '5', ' ', '7', ' ', ';', ' ', 'K', ' ', 'K'], pos := 10, line := 1, col := 11, refStartPos := 0, refSource := none, tokenStartPos := 9, tokenLine := 1, tokenCol := 10, tokenString := [';'] }

/-- Intermediate interpreter state of the c5a scenario. -/
def c5aS4 : Interp := { timezone := Forthic.TzInfo.zone ['U', 'T', 'C'], today := (2026, 10, 12), stack := [], moduleHeap := [{ name := [], words := [Forthic.WordVal.memoWord 0 ['K'] none, Forthic.WordVal.memoBangWord 0 ['K', '!'] none, Forthic.WordVal.memoBangAtWord 0 ['K', '!', '@'] none], exportable := [], vars := [], modules := [], modulePrefixes := [] }], moduleStack := [0], registeredModules := [], memoHeap := [{ word := Forthic.WordVal.definition ['K'] [Forthic.WordVal.pushValue ['5'] (Forthic.Value.vint 5) (some { source := none, line := 1, column := 6, startPos := 5, endPos := 6 }), Forthic.WordVal.pushValue ['7'] (Forthic.Value.vint 7) (some { source := none, line := 1, column := 8, startPos := 7, endPos := 8 })] none, hasValue := false, value := Forthic.Value.vnone }], prevToken := some { type := Forthic.TokenType.endDef, string := [';'], location := { source := none, line := 1, column := 10, startPos := 9, endPos := 10 } }, isCompiling := false, isMemoDefinition := true, curDefinition := some (['K'], [Forthic.WordVal.pushValue ['5'] (Forthic.Value.vint 5) (some { source := none, line := 1, column := 6, startPos := 5, endPos := 6 }), Forthic.WordVal.pushValue ['7'] (Forthic.Value.vint 7) (some { source := none, line := 1, column := 8, startPos := 7, endPos := 8 })]), stringLocation := none, maxAttempts := 3 }

/-- Intermediate tokenizer state of the c5a scenario. -/
def c5aTok5 : TokState := { input := ['@', ':', ' ', 'K', ' ', '5', ' ', '7', ' ', ';', ' ', 'K', ' ', 'K'], pos := 13, line := 1, col := 14, refStartPos := 0, refSource := none, tokenStartPos := 11, tokenLine := 1, tokenCol := 12, tokenString := ['K'] }

/-- Intermediate interpreter state of the c5a scenario. -/
def c5aS5 : Interp := { timezone := Forthic.TzInfo.zone ['U', 'T', 'C'], today := (2026, 10, 12), stack := [Forthic.Value.vint 5, Forthic.Value.vint 7], moduleHeap := [{ name := [], words := [Forthic.WordVal.memoWord 0 ['K'] none, Forthic.WordVal.memoBangWord 0 ['K', '!'] none, Forthic.WordVal.memoBangAtWord 0 ['K', '!', '@'] none], exportable := [], vars := [], modules := [], modulePrefixes := [] }], moduleStack := [0], registeredModules := [], memoHeap := [{ word := Forthic.WordVal.definition ['K'] [Forthic.WordVal.pushValue ['5'] (Forthic.Value.vint 5) (some { source := none, line := 1, column := 6, startPos := 5, endPos := 6 }), Forthic.WordVal.pushValue ['7'] (Forthic.Value.vint 7) (some { source := none, line := 1, column := 8, startPos := 7, endPos := 8 })] none, hasValue := true, value := Forthic.Value.vint 7 }], prevToken := some { type := Forthic.TokenType.word, string := ['K'], location := { source := none, line := 1, column := 12, startPos := 11, endPos := 12 } }, isCompiling := false, isMemoDefinition := true, curDefinition := some (['K'], [Forthic.WordVal.pushValue ['5'] (Forthic.Value.vint 5) (some { source := none, line := 1, column := 6, startPos := 5, endPos := 6 }), Forthic.WordVal.pushValue ['7'] (Forthic.Value.vint 7) (some { source := none, line := 1, column := 8, startPos := 7, endPos := 8 })]), stringLocation := none, maxAttempts := 3 }

/-- Intermediate tokenizer state of the c5a scenario. -/
def c5aTok6 : TokState := { input := ['@', ':', ' ', 'K', ' ', '5', ' ', '7', ' ', ';', ' ', 'K', ' ', 'K'], pos := 14, line := 1, col := 15, refStartPos := 0, refSource := none, tokenStartPos := 13, tokenLine := 1, tokenCol := 14, tokenString := ['K'] }

/-- Intermediate interpreter state of the c5a scenario. -/
def c5aS6 : Interp := { timezone := Forthic.TzInfo.zone ['U', 'T', 'C'], today := (2026, 10, 12), stack := [Forthic.Value.vint 5, Forthic.Value.vint 7, Forthic.Value.vint 7], moduleHeap := [{ name := [], words := [Forthic.WordVal.memoWord 0 ['K'] none, Forthic.WordVal.memoBangWord 0 ['K', '!'] none, Forthic.WordVal.memoBangAtWord 0 ['K', '!', '@'] none], exportable := [], vars := [], modules := [], modulePrefixes := [] }], moduleStack := [0], registeredModules := [], memoHeap := [{ word := Forthic.WordVal.definition ['K'] [Forthic.WordVal.pushValue ['5'] (Forthic.Value.vint 5) (some { source := none, line := 1, column := 6, startPos := 5, endPos := 6 }), Forthic.WordVal.pushValue ['7'] (Forthic.Value.vint 7) (some { source := none, line := 1, column := 8, startPos := 7, endPos := 8 })] none, hasValue := true, value := Forthic.Value.vint 7 }], prevToken := some { type := Forthic.TokenType.word, string := ['K'], location := { source := none, line := 1, column := 14, startPos := 13, endPos := 14 } }, isCompiling := false, isMemoDefinition := true, curDefinition := some (['K'], [Forthic.WordVal.pushValue ['5'] (Forthic.Value.vint 5) (some { source := none, line := 1, column := 6, startPos := 5, endPos := 6 }), Forthic.WordVal.pushValue ['7'] (Forthic.Value.vint 7) (some { source := none, line := 1, column := 8, startPos := 7, endPos := 8 })]), stringLocation := none, maxAttempts := 3 }

/-- Final interpreter state of the c5a scenario. -/
def c5aSF : Interp := { timezone := Forthic.TzInfo.zone ['U', 'T', 'C'], today := (2026, 10, 12), stack := [Forthic.Value.vint 5, Forthic.Value.vint 7, Forthic.Value.vint 7], moduleHeap := [{ name := [], words := [Forthic.WordVal.memoWord 0 ['K'] none, Forthic.WordVal.memoBangWord 0 ['K', '!'] none, Forthic.WordVal.memoBangAtWord 0 ['K', '!', '@'] none], exportable := [], vars := [], modules := [], modulePrefixes := [] }], moduleStack := [0], registeredModules := [], memoHeap := [{ word := Forthic.WordVal.definition ['K'] [Forthic.WordVal.pushValue ['5'] (Forthic.Value.vint 5) (some { source := none, line := 1, column := 6, startPos := 5, endPos := 6 }), Forthic.WordVal.pushValue ['7'] (Forthic.Value.vint 7) (some { source := none, line := 1, column := 8, startPos := 7, endPos := 8 })] none, hasValue := true, value := Forthic.Value.vint 7 }], prevToken := some { type := Forthic.TokenType.eos, string := [], location := { source := none, line := 1, column := 14, startPos := 13, endPos := 13 } }, isCompiling := false, isMemoDefinition := true, curDefinition := some (['K'], [Forthic.WordVal.pushValue ['5'] (Forthic.Value.vint 5) (some { source := none, line := 1, column := 6, startPos := 5, endPos := 6 }), Forthic.WordVal.pushValue ['7'] (Forthic.Value.vint 7) (some { source := none, line := 1, column := 8, startPos := 7, endPos := 8 })]), stringLocation := none, maxAttempts := 3 }

/-- Final tokenizer state of the c5a scenario. -/
def c5aTokF : TokState := { input := ['@', ':', ' ', 'K', ' ', '5', ' ', '7', ' ', ';', ' ', 'K', ' ', 'K'], pos := 14, line := 1, col := 15, refStartPos := 0, refSource := none, tokenStartPos := 13, tokenLine := 1, tokenCol := 14, tokenString := [] }

/-- Final error of the c5a scenario. -/
def c5aErr : Option Err := none

/-- Intermediate tokenizer state of the c5b scenario. -/
def c5bTok1 : TokState := { input := ['@', ':', ' ', 'K', ' ', '5', ' ', '7', ' ', ';', ' ', 'K', ' ', 'K', '!'], pos := 5, line := 1, col := 6, refStartPos := 0, refSource := none, tokenStartPos := 3, tokenLine := 1, tokenCol := 4, tokenString := ['K'] }

/-- Intermediate interpreter state of the c5b scenario. -/
def c5bS1 : Interp := { timezone := Forthic.TzInfo.zone ['U', 'T', 'C'], today := (2026, 10, 12), stack := [], moduleHeap := [{ name := [], words := [], exportable := [], vars := [], modules := [], modulePrefixes := [] }], moduleStack := [0], registeredModules := [], memoHeap := [], prevToken := some { type := Forthic.TokenType.startMemo, string := ['K'], location := { source := none, line := 1, column := 4, startPos := 3, endPos := 4 } }, isCompiling := true, isMemoDefinition := true, curDefinition := some (['K'], []), stringLocation := none, maxAttempts := 3 }

/-- Intermediate tokenizer state of the c5b scenario. -/
def c5bTok2 : TokState := { input := ['@', ':', ' ', 'K', ' ', '5', ' ', '7', ' ', ';', ' ', 'K', ' ', 'K', '!'], pos := 7, line := 1, col := 8, refStartPos := 0, refSource := none, tokenStartPos := 5, tokenLine := 1, tokenCol := 6, tokenString := ['5'] }

/-- Intermediate interpreter state of the c5b scenario. -/
def c5bS2 : Interp := { timezone := Forthic.TzInfo.zone ['U', 'T', 'C'], today := (2026, 10, 12), stack := [], moduleHeap := [{ name := [], words := [], exportable := [], vars := [], modules := [], modulePrefixes := [] }], moduleStack := [0], registeredModules := [], memoHeap := [], prevToken := some { type := Forthic.TokenType.word, string := ['5'], location := { source := none, line := 1, column := 6, startPos := 5, endPos := 6 } }, isCompiling := true, isMemoDefinition := true, curDefinition := some (['K'], [Forthic.WordVal.pushValue ['5'] (Forthic.Value.vint 5) (some { source := none, line := 1, column := 6, startPos := 5, endPos := 6 })]), stringLocation := none, maxAttempts := 3 }

/-- Intermediate tokenizer state of the c5b scenario. -/
def c5bTok3 : TokState := { input := ['@', ':', ' ', 'K', ' ', '5', ' ', '7', ' ', ';', ' ', 'K', ' ', 'K', '!'], pos := 9, line := 1, col := 10, refStartPos := 0, refSource := none, tokenStartPos := 7, tokenLine := 1, tokenCol := 8, tokenString := ['7'] }

/-- Intermediate interpreter state of the c5b scenario. -/
def c5bS3 : Interp := { timezone := Forthic.TzInfo.zone ['U', 'T', 'C'], today := (2026, 10, 12), stack := [], moduleHeap := [{ name := [], words := [], exportable := [], vars := [], modules := [], modulePrefixes := [] }], moduleStack := [0], registeredModules := [], memoHeap := [], prevToken := some { type := Forthic.TokenType.word, string := ['7'], location := { source := none, line := 1, column := 8, startPos := 7, endPos := 8 } }, isCompiling := true, isMemoDefinition := true, curDefinition := some (['K'], [Forthic.WordVal.pushValue ['5'] (Forthic.Value.vint 5) (some { source := none, line := 1, column := 6, startPos := 5, endPos := 6 }), Forthic.WordVal.pushValue ['7'] (Forthic.Value.vint 7) (some { source := none, line := 1, column := 8, startPos := 7, endPos := 8 })]), stringLocation := none, maxAttempts := 3 }

/-- Intermediate tokenizer state of the c5b scenario. -/
def c5bTok4 : TokState := { input := ['@', ':', ' ', 'K', ' ', '5', ' ', '7', ' ', ';', ' ', 'K', ' ', 'K', '!'], pos := 10, line := 1, col := 11, refStartPos := 0, refSource := none, tokenStartPos := 9, tokenLine := 1, tokenCol := 10, tokenString := [';'] }

/-- Intermediate interpreter state of the c5b scenario. -/
def c5bS4 : Interp := { timezone := Forthic.TzInfo.zone ['U', 'T', 'C'], today := (2026, 10, 12), stack := [], moduleHeap := [{ name := [], words := [Forthic.WordVal.memoWord 0 ['K'] none, Forthic.WordVal.memoBangWord 0 ['K', '!'] none, Forthic.WordVal.memoBangAtWord 0 ['K', '!', '@'] none], exportable := [], vars := [], modules := [], modulePrefixes := [] }], moduleStack := [0], registeredModules := [], memoHeap := [{ word := Forthic.WordVal.definition ['K'] [Forthic.WordVal.pushValue ['5'] (Forthic.Value.vint 5) (some { source := none, line := 1, column := 6, startPos := 5, endPos := 6 }), Forthic.WordVal.pushValue ['7'] (Forthic.Value.vint 7) (some { source := none, line := 1, column := 8, startPos := 7, endPos := 8 })] none, hasValue := false, value := Forthic.Value.vnone }], prevToken := some { type := Forthic.TokenType.endDef, string := [';'], location := { source := none, line := 1, column := 10, startPos := 9, endPos := 10 } }, isCompiling := false, isMemoDefinition := true, curDefinition := some (['K'], [Forthic.WordVal.pushValue ['5'] (Forthic.Value.vint 5) (some { source := none, line := 1, column := 6, startPos := 5, endPos := 6 }), Forthic.WordVal.pushValue ['7'] (Forthic.Value.vint 7) (some { source := none, line := 1, column := 8, startPos := 7, endPos := 8 })]), stringLocation := none, maxAttempts := 3 }

/-- Intermediate tokenizer state of the c5b scenario. -/
def c5bTok5 : TokState := { input := ['@', ':', ' ', 'K', ' ', '5', ' ', '7', ' ', ';', ' ', 'K', ' ', 'K', '!'], pos := 13, line := 1, col := 14, refStartPos := 0, refSource := none, tokenStartPos := 11, tokenLine := 1, tokenCol := 12, tokenString := ['K'] }

/-- Intermediate interpreter state of the c5b scenario. -/
def c5bS5 : Interp := { timezone := Forthic.TzInfo.zone ['U', 'T', 'C'], today := (2026, 10, 12), stack := [Forthic.Value.vint 5, Forthic.Value.vint 7], moduleHeap := [{ name := [], words := [Forthic.WordVal.memoWord 0 ['K'] none, Forthic.WordVal.memoBangWord 0 ['K', '!'] none, Forthic.WordVal.memoBangAtWord 0 ['K', '!', '@'] none], exportable := [], vars := [], modules := [], modulePrefixes := [] }], moduleStack := [0], registeredModules := [], memoHeap := [{ word := Forthic.WordVal.definition ['K'] [Forthic.WordVal.pushValue ['5'] (Forthic.Value.vint 5) (some { source := none, line := 1, column := 6, startPos := 5, endPos := 6 }), Forthic.WordVal.pushValue ['7'] (Forthic.Value.vint 7) (some { source := none, line := 1, column := 8, startPos := 7, endPos := 8 })] none, hasValue := true, value := Forthic.Value.vint 7 }], prevToken := some { type := Forthic.TokenType.word, string := ['K'], location := { source := none, line := 1, column := 12, startPos := 11, endPos := 12 } }, isCompiling := false, isMemoDefinition := true, curDefinition := some (['K'], [Forthic.WordVal.pushValue ['5'] (Forthic.Value.vint 5) (some { source := none, line := 1, column := 6, startPos := 5, endPos := 6 }), Forthic.WordVal.pushValue ['7'] (Forthic.Value.vint 7) (some { source := none, line := 1, column := 8, startPos := 7, endPos := 8 })]), stringLocation := none, maxAttempts := 3 }

/-- Intermediate tokenizer state of the c5b scenario. -/
def c5bTok6 : TokState := { input := ['@', ':', ' ', 'K', ' ', '5', ' ', '7', ' ', ';', ' ', 'K', ' ', 'K', '!'], pos := 15, line := 1, col := 16, refStartPos := 0, refSource := none, tokenStartPos := 13, tokenLine := 1, tokenCol := 14, tokenString := ['K', '!'] }

/-- Intermediate interpreter state of the c5b scenario. -/
def c5bS6 : Interp := { timezone := Forthic.TzInfo.zone ['U', 'T', 'C'], today := (2026, 10, 12), stack := [Forthic.Value.vint 5, Forthic.Value.vint 7, Forthic.Value.vint 5], moduleHeap := [{ name := [], words := [Forthic.WordVal.memoWord 0 ['K'] none, Forthic.WordVal.memoBangWord 0 ['K', '!'] none, Forthic.WordVal.memoBangAtWord 0 ['K', '!', '@'] none], exportable := [], vars := [], modules := [], modulePrefixes := [] }], moduleStack := [0], registeredModules := [], memoHeap := [{ word := Forthic.WordVal.definition ['K'] [Forthic.WordVal.pushValue ['5'] (Forthic.Value.vint 5) (some { source := none, line := 1, column := 6, startPos := 5, endPos := 6 }), Forthic.WordVal.pushValue ['7'] (Forthic.Value.vint 7) (some { source := none, line := 1, column := 8, startPos := 7, endPos := 8 })] none, hasValue := true, value := Forthic.Value.vint 7 }], prevToken := some { type := Forthic.TokenType.word, string := ['K', '!'], location := { source := none, line := 1, column := 14, startPos := 13, endPos := 15 } }, isCompiling := false, isMemoDefinition := true, curDefinition := some (['K'], [Forthic.WordVal.pushValue ['5'] (Forthic.Value.vint 5) (some { source := none, line := 1, column := 6, startPos := 5, endPos := 6 }), Forthic.WordVal.pushValue ['7'] (Forthic.Value.vint 7) (some { source := none, line := 1, column := 8, startPos := 7, endPos := 8 })]), stringLocation := none, maxAttempts := 3 }

/-- Final interpreter state of the c5b scenario. -/
def c5bSF : Interp := { timezone := Forthic.TzInfo.zone ['U', 'T', 'C'], today := (2026, 10, 12), stack := [Forthic.Value.vint 5, Forthic.Value.vint 7, Forthic.Value.vint 5], moduleHeap := [{ name := [], words := [Forthic.WordVal.memoWord 0 ['K'] none, Forthic.WordVal.memoBangWord 0 ['K', '!'] none, Forthic.WordVal.memoBangAtWord 0 ['K', '!', '@'] none], exportable := [], vars := [], modules := [], modulePrefixes := [] }], moduleStack := [0], registeredModules := [], memoHeap := [{ word := Forthic.WordVal.definition ['K'] [Forthic.WordVal.pushValue ['5'] (Forthic.Value.vint 5) (some { source := none, line := 1, column := 6, startPos := 5, endPos := 6 }), Forthic.WordVal.pushValue ['7'] (Forthic.Value.vint 7) (some { source := none, line := 1, column := 8, startPos := 7, endPos := 8 })] none, hasValue := true, value := Forthic.Value.vint 7 }], prevToken := some { type := Forthic.TokenType.eos, string := [], location := { source := none, line := 1, column := 14, startPos := 13, endPos := 13 } }, isCompiling := false, isMemoDefinition := true, curDefinition := some (['K'], [Forthic.WordVal.pushValue ['5'] (Forthic.Value.vint 5) (some { source := none, line := 1, column := 6, startPos := 5, endPos := 6 }), Forthic.WordVal.pushValue ['7'] (Forthic.Value.vint 7) (some { source := none, line := 1, column := 8, startPos := 7, endPos := 8 })]), stringLocation := none, maxAttempts := 3 }

/-- Final tokenizer state of the c5b scenario. -/
def c5bTokF : TokState := { input := ['@', ':', ' ', 'K', ' ', '5', ' ', '7', ' ', ';', ' ', 'K', ' ', 'K', '!'], pos := 15, line := 1, col := 16, refStartPos := 0, refSource := none, tokenStartPos := 13, tokenLine := 1, tokenCol := 14, tokenString := [] }

/-- Final error of the c5b scenario. -/
def c5bErr : Option Err := none

/-- Intermediate tokenizer state of the c5c scenario. -/
def c5cTok1 : TokState := { input := ['@', ':', ' ', 'K', ' ', '5', ' ', '7', ' ', ';', ' ', 'K', ' ', 'K', '!', '@'], pos := 5, line := 1, col := 6, refStartPos := 0, refSource := none, tokenStartPos := 3, tokenLine := 1, tokenCol := 4, tokenString := ['K'] }

/-- Intermediate interpreter state of the c5c scenario. -/
def c5cS1 : Interp := { timezone := Forthic.TzInfo.zone ['U', 'T', 'C'], today := (2026, 10, 12), stack := [], moduleHeap := [{ name := [], words := [], exportable := [], vars := [], modules := [], modulePrefixes := [] }], moduleStack := [0], registeredModules := [], memoHeap := [], prevToken := some { type := Forthic.TokenType.startMemo, string := ['K'], location := { source := none, line := 1, column := 4, startPos := 3, endPos := 4 } }, isCompiling := true, isMemoDefinition := true, curDefinition := some (['K'], []), stringLocation := none, maxAttempts := 3 }

/-- Intermediate tokenizer state of the c5c scenario. -/
def c5cTok2 : TokState := { input := ['@', ':', ' ', 'K', ' ', '5', ' ', '7', ' ', ';', ' ', 'K', ' ', 'K', '!', '@'], pos := 7, line := 1, col := 8, refStartPos := 0, refSource := none, tokenStartPos := 5, tokenLine := 1, tokenCol := 6, tokenString := ['5'] }

/-- Intermediate interpreter state of the c5c scenario. -/
def c5cS2 : Interp := { timezone := Forthic.TzInfo.zone ['U', 'T', 'C'], today := (2026, 10, 12), stack := [], moduleHeap := [{ name := [], words := [], exportable := [], vars := [], modules := [], modulePrefixes := [] }], moduleStack := [0], registeredModules := [], memoHeap := [], prevToken := some { type := Forthic.TokenType.word, string := ['5'], location := { source := none, line := 1, column := 6, startPos := 5, endPos := 6 } }, isCompiling := true, isMemoDefinition := true, curDefinition := some (['K'], [Forthic.WordVal.pushValue ['5'] (Forthic.Value.vint 5) (some { source := none, line := 1, column := 6, startPos := 5, endPos := 6 })]), stringLocation := none, maxAttempts := 3 }

/-- Intermediate tokenizer state of the c5c scenario. -/
def c5cTok3 : TokState := { input := ['@', ':', ' ', 'K', ' ', '5', ' ', '7', ' ', ';', ' ', 'K', ' ', 'K', '!', '@'], pos := 9, line := 1, col := 10, refStartPos := 0, refSource := none, tokenStartPos := 7, tokenLine := 1, tokenCol := 8, tokenString := ['7'] }

/-- Intermediate interpreter state of the c5c scenario. -/
def c5cS3 : Interp := { timezone := Forthic.TzInfo.zone ['U', 'T', 'C'], today := (2026, 10, 12), stack := [], moduleHeap := [{ name := [], words := [], exportable := [], vars := [], modules := [], modulePrefixes := [] }], moduleStack := [0], registeredModules := [], memoHeap := [], prevToken := some { type := Forthic.TokenType.word, string := ['7'], location := { source := none, line := 1, column := 8, startPos := 7, endPos := 8 } }, isCompiling := true, isMemoDefinition := true, curDefinition := some (['K'], [Forthic.WordVal.pushValue ['5'] (Forthic.Value.vint 5) (some { source := none, line := 1, column := 6, startPos := 5, endPos := 6 }), Forthic.WordVal.pushValue ['7'] (Forthic.Value.vint 7) (some { source := none, line := 1, column := 8, startPos := 7, endPos := 8 })]), stringLocation := none, maxAttempts := 3 }

/-- Intermediate tokenizer state of the c5c scenario. -/
def c5cTok4 : TokState := { input := ['@', ':', ' ', 'K', ' ', '5', ' ', '7', ' ', ';', ' ', 'K', ' ', 'K', '!', '@'], pos := 10, line := 1, col := 11, refStartPos := 0, refSource := none, tokenStartPos := 9, tokenLine := 1, tokenCol := 10, tokenString := [';'] }

/-- Intermediate interpreter state of the c5c scenario. -/
def c5cS4 : Interp := { timezone := Forthic.TzInfo.zone ['U', 'T', 'C'], today := (2026, 10, 12), stack := [], moduleHeap := [{ name := [], words := [Forthic.WordVal.memoWord 0 ['K'] none, Forthic.WordVal.memoBangWord 0 ['K', '!'] none, Forthic.WordVal.memoBangAtWord 0 ['K', '!', '@'] none], exportable := [], vars := [], modules := [], modulePrefixes := [] }], moduleStack := [0], registeredModules := [], memoHeap := [{ word := Forthic.WordVal.definition ['K'] [Forthic.WordVal.pushValue ['5'] (Forthic.Value.vint 5) (some { source := none, line := 1, column := 6, startPos := 5, endPos := 6 }), Forthic.WordVal.pushValue ['7'] (Forthic.Value.vint 7) (some { source := none, line := 1, column := 8, startPos := 7, endPos := 8 })] none, hasValue := false, value := Forthic.Value.vnone }], prevToken := some { type := Forthic.TokenType.endDef, string := [';'], location := { source := none, line := 1, column := 10, startPos := 9, endPos := 10 } }, isCompiling := false, isMemoDefinition := true, curDefinition := some (['K'], [Forthic.WordVal.pushValue ['5'] (Forthic.Value.vint 5) (some { source := none, line := 1, column := 6, startPos := 5, endPos := 6 }), Forthic.WordVal.pushValue ['7'] (Forthic.Value.vint 7) (some { source := none, line := 1, column := 8, startPos := 7, endPos := 8 })]), stringLocation := none, maxAttempts := 3 }

/-- Intermediate tokenizer state of the c5c scenario. -/
def c5cTok5 : TokState := { input := ['@', ':', ' ', 'K', ' ', '5', ' ', '7', ' ', ';', ' ', 'K', ' ', 'K', '!', '@'], pos := 13, line := 1, col := 14, refStartPos := 0, refSource := none, tokenStartPos := 11, tokenLine := 1, tokenCol := 12, tokenString := ['K'] }

/-- Intermediate interpreter state of the c5c scenario. -/
def c5cS5 : Interp := { timezone := Forthic.TzInfo.zone ['U', 'T', 'C'], today := (2026, 10, 12), stack := [Forthic.Value.vint 5, Forthic.Value.vint 7], moduleHeap := [{ name := [], words := [Forthic.WordVal.memoWord 0 ['K'] none, Forthic.WordVal.memoBangWord 0 ['K', '!'] none, Forthic.WordVal.memoBangAtWord 0 ['K', '!', '@'] none], exportable := [], vars := [], modules := [], modulePrefixes := [] }], moduleStack := [0], registeredModules := [], memoHeap := [{ word := Forthic.WordVal.definition ['K'] [Forthic.WordVal.pushValue ['5'] (Forthic.Value.vint 5) (some { source := none, line := 1, column := 6, startPos := 5, endPos := 6 }), Forthic.WordVal.pushValue ['7'] (Forthic.Value.vint 7) (some { source := none, line := 1, column := 8, startPos := 7, endPos := 8 })] none, hasValue := true, value := Forthic.Value.vint 7 }], prevToken := some { type := Forthic.TokenType.word, string := ['K'], location := { source := none, line := 1, column := 12, startPos := 11, endPos := 12 } }, isCompiling := false, isMemoDefinition := true, curDefinition := some (['K'], [Forthic.WordVal.pushValue ['5'] (Forthic.Value.vint 5) (some { source := none, line := 1, column := 6, startPos := 5, endPos := 6 }), Forthic.WordVal.pushValue ['7'] (Forthic.Value.vint 7) (some { source := none, line := 1, column := 8, startPos := 7, endPos := 8 })]), stringLocation := none, maxAttempts := 3 }

/-- Intermediate tokenizer state of the c5c scenario. -/
def c5cTok6 : TokState := { input := ['@', ':', ' ', 'K', ' ', '5', ' ', '7', ' ', ';', ' ', 'K', ' ', 'K', '!', '@'], pos := 16, line := 1, col := 17, refStartPos := 0, refSource := none, tokenStartPos := 13, tokenLine := 1, tokenCol := 14, tokenString := ['K', '!', '@'] }

/-- Intermediate interpreter state of the c5c scenario. -/
def c5cS6 : Interp := { timezone := Forthic.TzInfo.zone ['U', 'T', 'C'], today := (2026, 10, 12), stack := [Forthic.Value.vint 5, Forthic.Value.vint 7, Forthic.Value.vint 5, Forthic.Value.vint 7], moduleHeap := [{ name := [], words := [Forthic.WordVal.memoWord 0 ['K'] none, Forthic.WordVal.memoBangWord 0 ['K', '!'] none, Forthic.WordVal.memoBangAtWord 0 ['K', '!', '@'] none], exportable := [], vars := [], modules := [], modulePrefixes := [] }], moduleStack := [0], registeredModules := [], memoHeap := [{ word := Forthic.WordVal.definition ['K'] [Forthic.WordVal.pushValue ['5'] (Forthic.Value.vint 5) (some { source := none, line := 1, column := 6, startPos := 5, endPos := 6 }), Forthic.WordVal.pushValue ['7'] (Forthic.Value.vint 7) (some { source := none, line := 1, column := 8, startPos := 7, endPos := 8 })] none, hasValue := true, value := Forthic.Value.vint 7 }], prevToken := some { type := Forthic.TokenType.word, string := ['K', '!', '@'], location := { source := none, line := 1, column := 14, startPos := 13, endPos := 16 } }, isCompiling := false, isMemoDefinition := true, curDefinition := some (['K'], [Forthic.WordVal.pushValue ['5'] (Forthic.Value.vint 5) (some { source := none, line := 1, column := 6, startPos := 5, endPos := 6 }), Forthic.WordVal.pushValue ['7'] (Forthic.Value.vint 7) (some { source := none, line := 1, column := 8, startPos := 7, endPos := 8 })]), stringLocation := none, maxAttempts := 3 }

/-- Final interpreter state of the c5c scenario. -/
def c5cSF : Interp := { timezone := Forthic.TzInfo.zone ['U', 'T', 'C'], today := (2026, 10, 12), stack := [Forthic.Value.vint 5, Forthic.Value.vint 7, Forthic.Value.vint 5, Forthic.Value.vint 7], moduleHeap := [{ name := [], words := [Forthic.WordVal.memoWord 0 ['K'] none, Forthic.WordVal.memoBangWord 0 ['K', '!'] none, Forthic.WordVal.memoBangAtWord 0 ['K', '!', '@'] none], exportable := [], vars := [], modules := [], modulePrefixes := [] }], moduleStack := [0], registeredModules := [], memoHeap := [{ word := Forthic.WordVal.definition ['K'] [Forthic.WordVal.pushValue ['5'] (Forthic.Value.vint 5) (some { source := none, line := 1, column := 6, startPos := 5, endPos := 6 }), Forthic.WordVal.pushValue ['7'] (Forthic.Value.vint 7) (some { source := none, line := 1, column := 8, startPos := 7, endPos := 8 })] none, hasValue := true, value := Forthic.Value.vint 7 }], prevToken := some { type := Forthic.TokenType.eos, string := [], location := { source := none, line := 1, column := 14, startPos := 13, endPos := 13 } }, isCompiling := false, isMemoDefinition := true, curDefinition := some (['K'], [Forthic.WordVal.pushValue ['5'] (Forthic.Value.vint 5) (some { source := none, line := 1, column := 6, startPos := 5, endPos := 6 }), Forthic.WordVal.pushValue ['7'] (Forthic.Value.vint 7) (some { source := none, line := 1, column := 8, startPos := 7, endPos := 8 })]), stringLocation := none, maxAttempts := 3 }

/-- Final tokenizer state of the c5c scenario. -/
def c5cTokF : TokState := { input := ['@', ':', ' ', 'K', ' ', '5', ' ', '7', ' ', ';', ' ', 'K', ' ', 'K', '!', '@'], pos := 16, line := 1, col := 17, refStartPos := 0, refSource := none, tokenStartPos := 13, tokenLine := 1, tokenCol := 14, tokenString := [] }

/-- Final error of the c5c scenario. -/
def c5cErr : Option Err := none

/-- Intermediate tokenizer state of the c6R scenario. -/
def c6RTok1 : TokState := { input := [':', ' ', 'A', 'D', 'D', ' ', '+', ' ', ';', '\n', '1', ' ', 'A', 'D', 'D', ' ', '2', ' ', '*'], pos := 6, line := 1, col := 7, refStartPos := 0, refSource := none, tokenStartPos := 2, tokenLine := 1, tokenCol := 3, tokenString := ['A', 'D', 'D'] }

/-- Intermediate interpreter state of the c6R scenario. -/
def c6RS1 : Interp := { timezone := Forthic.TzInfo.zone ['U', 'T', 'C'], today := (2026, 10, 12), stack := [], moduleHeap := [{ name := [], words := [Forthic.WordVal.plusWord none], exportable := [], vars := [], modules := [], modulePrefixes := [] }], moduleStack := [0], registeredModules := [], memoHeap := [], prevToken := some { type := Forthic.TokenType.startDef, string := ['A', 'D', 'D'], location := { source := none, line := 1, column := 3, startPos := 2, endPos := 5 } }, isCompiling := true, isMemoDefinition := false, curDefinition := some (['A', 'D', 'D'], []), stringLocation := none, maxAttempts := 3 }

/-- Intermediate tokenizer state of the c6R scenario. -/
def c6RTok2 : TokState := { input := [':', ' ', 'A', 'D', 'D', ' ', '+', ' ', ';', '\n', '1', ' ', 'A', 'D', 'D', ' ', '2', ' ', '*'], pos := 8, line := 1, col := 9, refStartPos := 0, refSource := none, tokenStartPos := 6, tokenLine := 1, tokenCol := 7, tokenString := ['+'] }

/-- Intermediate interpreter state of the c6R scenario. -/
def c6RS2 : Interp := { timezone := Forthic.TzInfo.zone ['U', 'T', 'C'], today := (2026, 10, 12), stack := [], moduleHeap := [{ name := [], words := [Forthic.WordVal.plusWord none], exportable := [], vars := [], modules := [], modulePrefixes := [] }], moduleStack := [0], registeredModules := [], memoHeap := [], prevToken := some { type := Forthic.TokenType.word, string := ['+'], location := { source := none, line := 1, column := 7, startPos := 6, endPos := 7 } }, isCompiling := true, isMemoDefinition := false, curDefinition := some (['A', 'D', 'D'], [Forthic.WordVal.plusWord (some { source := none, line := 1, column := 7, startPos := 6, endPos := 7 })]), stringLocation := none, maxAttempts := 3 }

/-- Intermediate tokenizer state of the c6R scenario. -/
def c6RTok3 : TokState := { input := [':', ' ', 'A', 'D', 'D', ' ', '+', ' ', ';', '\n', '1', ' ', 'A', 'D', 'D', ' ', '2', ' ', '*'], pos := 9, line := 1, col := 10, refStartPos := 0, refSource := none, tokenStartPos := 8, tokenLine := 1, tokenCol := 9, tokenString := [';'] }

/-- Intermediate interpreter state of the c6R scenario. -/
def c6RS3 : Interp := { timezone := Forthic.TzInfo.zone ['U', 'T', 'C'], today := (2026, 10, 12), stack := [], moduleHeap := [{ name := [], words := [Forthic.WordVal.plusWord none, Forthic.WordVal.definition ['A', 'D', 'D'] [Forthic.WordVal.plusWord (some { source := none, line := 1, column := 7, startPos := 6, endPos := 7 })] none], exportable := [], vars := [], modules := [], modulePrefixes := [] }], moduleStack := [0], registeredModules := [], memoHeap := [], prevToken := some { type := Forthic.TokenType.endDef, string := [';'], location := { source := none, line := 1, column := 9, startPos := 8, endPos := 9 } }, isCompiling := false, isMemoDefinition := false, curDefinition := some (['A', 'D', 'D'], [Forthic.WordVal.plusWord (some { source := none, line := 1, column := 7, startPos := 6, endPos := 7 })]), stringLocation := none, maxAttempts := 3 }

/-- Intermediate tokenizer state of the c6R scenario. -/
def c6RTok4 : TokState := { input := [':', ' ', 'A', 'D', 'D', ' ', '+', ' ', ';', '\n', '1', ' ', 'A', 'D', 'D', ' ', '2', ' ', '*'], pos := 12, line := 2, col := 3, refStartPos := 0, refSource := none, tokenStartPos := 10, tokenLine := 2, tokenCol := 1, tokenString := ['1'] }

/-- Intermediate interpreter state of the c6R scenario. -/
def c6RS4 : Interp := { timezone := Forthic.TzInfo.zone ['U', 'T', 'C'], today := (2026, 10, 12), stack := [Forthic.Value.vint 1], moduleHeap := [{ name := [], words := [Forthic.WordVal.plusWord none, Forthic.WordVal.definition ['A', 'D', 'D'] [Forthic.WordVal.plusWord (some { source := none, line := 1, column := 7, startPos := 6, endPos := 7 })] none], exportable := [], vars := [], modules := [], modulePrefixes := [] }], moduleStack := [0], registeredModules := [], memoHeap := [], prevToken := some { type := Forthic.TokenType.word, string := ['1'], location := { source := none, line := 2, column := 1, startPos := 10, endPos := 11 } }, isCompiling := false, isMemoDefinition := false, curDefinition := some (['A', 'D', 'D'], [Forthic.WordVal.plusWord (some { source := none, line := 1, column := 7, startPos := 6, endPos := 7 })]), stringLocation := none, maxAttempts := 3 }

/-- Final interpreter state of the c6R scenario. -/
def c6RSF : Interp := { timezone := Forthic.TzInfo.zone ['U', 'T', 'C'], today := (2026, 10, 12), stack := [], moduleHeap := [{ name := [], words := [Forthic.WordVal.plusWord none, Forthic.WordVal.definition ['A', 'D', 'D'] [Forthic.WordVal.plusWord (some { source := none, line := 1, column := 7, startPos := 6, endPos := 7 })] none], exportable := [], vars := [], modules := [], modulePrefixes := [] }], moduleStack := [0], registeredModules := [], memoHeap := [], prevToken := some { type := Forthic.TokenType.word, string := ['A', 'D', 'D'], location := { source := none, line := 2, column := 3, startPos := 12, endPos := 15 } }, isCompiling := false, isMemoDefinition := false, curDefinition := some (['A', 'D', 'D'], [Forthic.WordVal.plusWord (some { source := none, line := 1, column := 7, startPos := 6, endPos := 7 })]), stringLocation := none, maxAttempts := 3 }

/-- Final tokenizer state of the c6R scenario. -/
def c6RTokF : TokState := { input := [':', ' ', 'A', 'D', 'D', ' ', '+', ' ', ';', '\n', '1', ' ', 'A', 'D', 'D', ' ', '2', ' ', '*'], pos := 16, line := 2, col := 7, refStartPos := 0, refSource := none, tokenStartPos := 12, tokenLine := 2, tokenCol := 3, tokenString := ['A', 'D', 'D'] }

/-- Final error of the c6R scenario. -/
def c6RErr : Option Err := some (Forthic.Err.wordExecution ['A', 'D', 'D'] (Forthic.Err.stackUnderflow (some { source := none, line := 2, column := 3, startPos := 12, endPos := 15 })) { source := none, line := 2, column := 3, startPos := 12, endPos := 15 } (some { source := none, line := 1, column := 7, startPos := 6, endPos := 7 }))

/-- Source of the C3 counterexample: a single unmatched END_MODULE. -/
def c3Src : List Char := [cbr]

/-- Intermediate tokenizer state of the c3R scenario. -/
def c3RTok1 : TokState := { input := ['}'], pos := 1, line := 1, col := 2, refStartPos := 0, refSource := none, tokenStartPos := 0, tokenLine := 1, tokenCol := 1, tokenString := ['}'] }

/-- Intermediate interpreter state of the c3R scenario. -/
def c3RS1 : Interp := { timezone := Forthic.TzInfo.zone ['U', 'T', 'C'], today := (2026, 10, 12), stack := [], moduleHeap := [{ name := [], words := [], exportable := [], vars := [], modules := [], modulePrefixes := [] }], moduleStack := [], registeredModules := [], memoHeap := [], prevToken := some { type := Forthic.TokenType.endModule, string := ['}'], location := { source := none, line := 1, column := 1, startPos := 0, endPos := 1 } }, isCompiling := false, isMemoDefinition := false, curDefinition := none, stringLocation := none, maxAttempts := 3 }

/-- Final interpreter state of the c3R scenario. -/
def c3RSF : Interp := { timezone := Forthic.TzInfo.zone ['U', 'T', 'C'], today := (2026, 10, 12), stack := [], moduleHeap := [{ name := [], words := [], exportable := [], vars := [], modules := [], modulePrefixes := [] }], moduleStack := [], registeredModules := [], memoHeap := [], prevToken := some { type := Forthic.TokenType.eos, string := [], location := { source := none, line := 1, column := 1, startPos := 0, endPos := 0 } }, isCompiling := false, isMemoDefinition := false, curDefinition := none, stringLocation := none, maxAttempts := 3 }

/-- Final tokenizer state of the c3R scenario. -/
def c3RTokF : TokState := { input := ['}'], pos := 1, line := 1, col := 2, refStartPos := 0, refSource := none, tokenStartPos := 0, tokenLine := 1, tokenCol := 1, tokenString := [] }

/-- Final error of the c3R scenario. -/
def c3RErr : Option Err := none


/-- Call-site location of the C6 scenario: the `ADD` token on line 2. -/
def c6CallLoc : Loc := { source := none, line := 2, column := 3, startPos := 12, endPos := 15 }

/-- Definition-site location of the C6 scenario: the `+` token on line 1. -/
def c6DefLoc : Loc := { source := none, line := 1, column := 7, startPos := 6, endPos := 7 }


/-- Witness state for the memo theorem: a fresh interpreter whose memo
heap holds one unfilled memo wrapping `PushValueWord 5`. -/
def c5WitS : Interp :=
  { freshInterp with memoHeap := [⟨.pushValue ['5'] (.vint 5) none, false, .vnone⟩] }

/-- Witness state after executing the wrapped word. -/
def c5WitSw : Interp := stack_push (.vint 5) c5WitS

/-- Witness state after popping the wrapped word's result. -/
def c5WitSw2 : Interp := { c5WitSw with stack := [], stringLocation := none }


/-- Witness state for the definition-wrap theorem: one integer on the
stack, so `+` underflows on its second pop. -/
def c6WitS : Interp := { freshInterp with stack := [.vint 1] }

/-- The same state after the first pop of `+`. -/
def c6WitS1 : Interp := { c6WitS with stack := [], stringLocation := none }


/-- The (amended) module-stack invariant: the stack is empty or its bottom
(index 0 in Python order) is the app-module — heap index 0, the module
with the empty name. -/
def ModInv (s : Interp) : Prop :=
  (s.moduleStack = [] ∨ s.moduleStack.head? = some 0)
  ∧ (s.moduleHeap.get? 0).map ModuleRec.name = some []

/-- A handler that re-raises too-many-attempts errors and swallows
everything else — the behaviour under which the recovery loop's
too-many-attempts error actually escapes `run`. -/
def reraise_handler (e : RecErr) : Option RecErr :=
  match e with
  | .tooManyAttempts n m => some (.tooManyAttempts n m)
  | .runtime _ => none

/-! ## Theorems -/

/-- One interpreter-loop iteration, given the fetched token and the
dispatch result: used to replay concrete scenarios step by step. -/
theorem run_loop_step (fuel : Nat) (tok : TokState) (s : Interp) (token : Token)
    (tok1 : TokState) (s2 : Interp)
    (hnext : next_token fuel tok = .ok (token, tok1))
    (hhandle : handle_token fuel tok1 token { s with prevToken := some token }
      = (s2, none))
    (hne : token.type ≠ .eos) :
    run_loop (fuel + 1) tok s = run_loop fuel tok1 s2 := by
  simp only [run_loop, hnext, hhandle]
  rw [if_neg hne]

/-- Loop termination at the EOS token. -/
theorem run_loop_stop_eos (fuel : Nat) (tok : TokState) (s : Interp) (token : Token)
    (tok1 : TokState) (s2 : Interp)
    (hnext : next_token fuel tok = .ok (token, tok1))
    (hhandle : handle_token fuel tok1 token { s with prevToken := some token }
      = (s2, none))
    (heos : token.type = .eos) :
    run_loop (fuel + 1) tok s = (s2, tok1, none) := by
  simp only [run_loop, hnext, hhandle]
  rw [if_pos heos]

/-- Loop termination on a raised error. -/
theorem run_loop_stop_err (fuel : Nat) (tok : TokState) (s : Interp) (token : Token)
    (tok1 : TokState) (s2 : Interp) (e : Err)
    (hnext : next_token fuel tok = .ok (token, tok1))
    (hhandle : handle_token fuel tok1 token { s with prevToken := some token }
      = (s2, some e)) :
    run_loop (fuel + 1) tok s = (s2, tok1, some e) := by
  simp only [run_loop, hnext, hhandle]

theorem consume_input (c : Char) (st : TokState) : (consume c st).input = st.input := by
  unfold consume; split <;> rfl

theorem consume_pos (c : Char) (st : TokState) : (consume c st).pos = st.pos + 1 := by
  unfold consume; split <;> rfl

theorem consume_tokenString (c : Char) (st : TokState) :
    (consume c st).tokenString = st.tokenString := by
  unfold consume; split <;> rfl

theorem head?_drop_get (l : List Char) (n : Nat) : (l.drop n).head? = l.get? n := by
  rw [List.head?_drop, List.get?_eq_getElem?]

theorem quote_props (d : Char) (h : is_quote d = true) : d = dq ∨ d = sq ∨ d = '^' := by
  simp only [is_quote, Bool.or_eq_true, decide_eq_true_eq] at h
  tauto

theorem gather_triple_spec (d : Char) (fuel : Nat) :
    ∀ (st : TokState), is_quote d = true →
      st.input.length - st.pos < fuel →
      ∀ content rem,
        tripleSpecScan d (st.input.drop st.pos) = some (content, rem) →
        ∃ tok stf, gather_triple_quote d fuel st = .ok (tok, stf)
          ∧ tok.type = .string
          ∧ tok.string = st.tokenString ++ content
          ∧ stf.input = st.input
          ∧ stf.input.drop stf.pos = rem := by
  induction fuel with
  | zero => intro st hq hfuel content rem hscan; omega
  | succ fuel ih =>
    intro st hq hfuel content rem hscan
    cases hL : st.input.drop st.pos with
    | nil =>
      rw [hL] at hscan
      exact absurd hscan (by simp [tripleSpecScan])
    | cons c rest =>
      have hc : st.input.get? st.pos = some c := by
        rw [← head?_drop_get, hL]; rfl
      obtain ⟨hlt, -⟩ := List.get?_eq_some.mp hc
      have hrest : st.input.drop (st.pos + 1) = rest := by
        rw [← List.tail_drop, hL]; rfl
      have hr1 : rest.head? = st.input.get? (st.pos + 1) := by
        rw [← hrest, head?_drop_get]
      have hr2 : rest.tail.head? = st.input.get? (st.pos + 2) := by
        rw [← hrest, List.tail_drop, head?_drop_get]
      have hr3 : rest.tail.tail.head? = st.input.get? (st.pos + 3) := by
        rw [← hrest, List.tail_drop, List.tail_drop, head?_drop_get]
      have hrem2 : rest.tail.tail = st.input.drop (st.pos + 3) := by
        rw [← hrest, List.tail_drop, List.tail_drop]
      rw [hL] at hscan
      by_cases htrip : c = d ∧ st.input.get? (st.pos + 1) = some d
          ∧ st.input.get? (st.pos + 2) = some d
      · obtain ⟨hcd, h1, h2⟩ := htrip
        subst hcd
        have hspec : (c = c ∧ rest.head? = some c ∧ rest.tail.head? = some c) := by
          rw [hr1, hr2]; exact ⟨rfl, h1, h2⟩
        rw [tripleSpecScan, if_pos hspec] at hscan
        obtain ⟨hlt2, -⟩ := List.get?_eq_some.mp h2
        have hitq : is_triple_quote st st.pos c = true := by
          unfold is_triple_quote
          simp only [hq, decide_eq_true hlt2, decide_eq_true h1, decide_eq_true h2,
            Bool.and_self, Bool.true_and, Bool.and_true]
        by_cases hg : st.input.get? (st.pos + 3) = some c
        · obtain ⟨hlt3, -⟩ := List.get?_eq_some.mp hg
          rw [if_pos (by rw [hr3]; exact hg)] at hscan
          have hcond : (decide (st.pos + 3 < st.input.length)
              && decide (st.input.get? (st.pos + 3) = some c)) = true := by
            simp only [decide_eq_true hlt3, decide_eq_true hg, Bool.and_self]
          cases hsub : tripleSpecScan c rest with
          | none => rw [hsub] at hscan; exact absurd hscan (by simp)
          | some p =>
            obtain ⟨content1, rem1⟩ := p
            rw [hsub] at hscan
            injection hscan with hpair
            injection hpair with hcontent hrem
            subst hcontent; subst hrem
            have hst' : (consume c { st with tokenString := st.tokenString ++ [c] }).input.drop
                (consume c { st with tokenString := st.tokenString ++ [c] }).pos = rest := by
              rw [consume_input, consume_pos]
              exact hrest
            obtain ⟨tok, stf, hrun, hty, hstr, hinp, hremf⟩ :=
              ih (consume c { st with tokenString := st.tokenString ++ [c] }) hq
                (by rw [consume_input, consume_pos]
                    show st.input.length - (st.pos + 1) < fuel
                    omega)
                content1 rem1 (by rw [hst']; exact hsub)
            refine ⟨tok, stf, ?_, hty, ?_, ?_, hremf⟩
            · simp only [gather_triple_quote, hc, hitq, hcond, decide_True,
                Bool.true_and, Bool.and_self, if_true]
              exact hrun
            · rw [hstr, consume_tokenString]
              simp [List.append_assoc]
            · rw [hinp, consume_input]
        · rw [if_neg (by rw [hr3]; exact hg)] at hscan
          injection hscan with hpair
          injection hpair with hcontent hrem
          subst hcontent; subst hrem
          have hcond : (decide (st.pos + 3 < st.input.length)
              && decide (st.input.get? (st.pos + 3) = some c)) = false := by
            simp only [decide_eq_false hg, Bool.and_false]
          refine ⟨⟨.string, st.tokenString, get_token_location st⟩,
            consume c (consume c (consume c st)), ?_, rfl, by simp, ?_, ?_⟩
          · simp only [gather_triple_quote, hc, hitq, hcond, decide_True,
              Bool.true_and, Bool.and_self, Bool.false_eq_true, if_true, if_false]
          · rw [consume_input, consume_input, consume_input]
          · rw [consume_input, consume_input, consume_input,
              consume_pos, consume_pos, consume_pos]
            rw [show st.pos + 1 + 1 + 1 = st.pos + 3 from rfl]
            exact hrem2.symm
      · have hspec : ¬ (c = d ∧ rest.head? = some d ∧ rest.tail.head? = some d) := by
          rw [hr1, hr2]; exact htrip
        rw [tripleSpecScan, if_neg hspec] at hscan
        have hcond : (decide (c = d) && is_triple_quote st st.pos c) = false := by
          by_cases hcd : c = d
          · subst hcd
            unfold is_triple_quote
            by_cases h1 : st.input.get? (st.pos + 1) = some c
            · have h2 : ¬ st.input.get? (st.pos + 2) = some c :=
                fun h2 => htrip ⟨rfl, h1, h2⟩
              simp only [decide_eq_false h2, Bool.and_false]
            · simp only [decide_eq_false h1, Bool.and_false, Bool.false_and]
          · simp only [decide_eq_false hcd, Bool.false_and]
        cases hsub : tripleSpecScan d rest with
        | none => rw [hsub] at hscan; exact absurd hscan (by simp)
        | some p =>
          obtain ⟨content1, rem1⟩ := p
          rw [hsub] at hscan
          injection hscan with hpair
          injection hpair with hcontent hrem
          subst hcontent; subst hrem
          have hst' : (consume c { st with tokenString := st.tokenString ++ [c] }).input.drop
              (consume c { st with tokenString := st.tokenString ++ [c] }).pos = rest := by
            rw [consume_input, consume_pos]
            exact hrest
          obtain ⟨tok, stf, hrun, hty, hstr, hinp, hremf⟩ :=
            ih (consume c { st with tokenString := st.tokenString ++ [c] }) hq
              (by rw [consume_input, consume_pos]
                  show st.input.length - (st.pos + 1) < fuel
                  omega)
              content1 rem1 (by rw [hst']; exact hsub)
          refine ⟨tok, stf, ?_, hty, ?_, ?_, hremf⟩
          · simp only [gather_triple_quote, hc, hcond, Bool.false_eq_true, if_false]
            exact hrun
          · rw [hstr, consume_tokenString]
            simp [List.append_assoc]
          · rw [hinp, consume_input]

theorem triple_quote_opens (d : Char) (fuel : Nat) (st : TokState)
    (hq : is_quote d = true)
    (h0 : st.input.get? st.pos = some d)
    (h1 : st.input.get? (st.pos + 1) = some d)
    (h2 : st.input.get? (st.pos + 2) = some d) :
    transition_from_START (fuel + 1) st
      = gather_triple_quote d fuel
          (note_start_token (consume d (consume d (consume d (note_start_token st))))) := by
  have hd : d = dq ∨ d = sq ∨ d = '^' := quote_props d hq
  obtain ⟨hlt2, -⟩ := List.get?_eq_some.mp h2
  have hnw : is_whitespace d = false := by rcases hd with h | h | h <;> subst h <;> rfl
  have hhash : ¬ d = '#' := by rcases hd with h | h | h <;> subst h <;> decide
  have hcolon : ¬ d = ':' := by rcases hd with h | h | h <;> subst h <;> decide
  have hat : ¬ d = '@' := by rcases hd with h | h | h <;> subst h <;> decide
  have hsemi : ¬ d = ';' := by rcases hd with h | h | h <;> subst h <;> decide
  have hlb : ¬ d = '[' := by rcases hd with h | h | h <;> subst h <;> decide
  have hrb : ¬ d = ']' := by rcases hd with h | h | h <;> subst h <;> decide
  have hob : ¬ d = obr := by rcases hd with h | h | h <;> subst h <;> decide
  have hcb : ¬ d = cbr := by rcases hd with h | h | h <;> subst h <;> decide
  have hat2 : (decide (d = '@') && decide (st.input.get? (st.pos + 1) = some ':')) = false := by
    simp only [decide_eq_false hat, Bool.false_and]
  have htrip3 : is_triple_quote (note_start_token st) st.pos d = true := by
    unfold is_triple_quote note_start_token
    simp only [hq, decide_eq_true hlt2, decide_eq_true h1, decide_eq_true h2,
      Bool.and_self, Bool.true_and, Bool.and_true]
  simp only [transition_from_START, h0, hnw, Bool.false_eq_true, if_false,
    if_neg hhash, if_neg hcolon, hat2, if_neg hsemi, if_neg hlb, if_neg hrb,
    if_neg hob, if_neg hcb, htrip3, if_true]

/-- C8: triple-quoted strings — if the delimiter repeats three times the
string opens; it closes at the first occurrence of three consecutive
delimiters not immediately followed by a fourth; a triple followed by a
fourth contributes one literal delimiter to the content and scanning
continues (`gather_triple_quote` refines the spec-side `tripleSpecScan`);
and tokenizing the spec example (`I said ...` in triple single-quotes with
a quadruple close) yields the single STRING token `I said 'Hello'`. -/
theorem C8_triple_quote_greedy :
    (∀ (d : Char) (fuel : Nat) (st : TokState),
        is_quote d = true →
        st.input.get? st.pos = some d →
        st.input.get? (st.pos + 1) = some d →
        st.input.get? (st.pos + 2) = some d →
        transition_from_START (fuel + 1) st
          = gather_triple_quote d fuel
              (note_start_token (consume d (consume d (consume d (note_start_token st))))))
    ∧ (∀ (d : Char) (fuel : Nat) (st : TokState),
        is_quote d = true →
        st.input.length - st.pos < fuel →
        ∀ content rem,
          tripleSpecScan d (st.input.drop st.pos) = some (content, rem) →
          ∃ tok stf, gather_triple_quote d fuel st = .ok (tok, stf)
            ∧ tok.type = .string
            ∧ tok.string = st.tokenString ++ content
            ∧ stf.input = st.input
            ∧ stf.input.drop stf.pos = rem)
    ∧ (tokenizeSource 60 c8Src).1.map (fun t => (t.type, t.string))
        = [(.string, c8Content), (.eos, [])]
    ∧ (tokenizeSource 60 c8Src).2 = none :=
  ⟨triple_quote_opens, fun d fuel => gather_triple_spec d fuel, by decide, by decide⟩

/-- Witness for `C8_triple_quote_greedy` at concrete inputs: the opening
transition on a triple-quoted source, and the gather loop on a body closed
by a plain triple. -/
theorem C8_triple_quote_greedy_witness :
    (transition_from_START 11 (initTokState [sq, sq, sq, 'a', sq, sq, sq] 1 1 0 none)
      = gather_triple_quote sq 10 (note_start_token (consume sq (consume sq (consume sq
          (note_start_token (initTokState [sq, sq, sq, 'a', sq, sq, sq] 1 1 0 none)))))))
    ∧ (∃ tok stf,
        gather_triple_quote sq 10 (initTokState ['a', sq, sq, sq] 1 1 0 none) = .ok (tok, stf)
          ∧ tok.type = .string
          ∧ tok.string = (initTokState ['a', sq, sq, sq] 1 1 0 none).tokenString ++ ['a']
          ∧ stf.input = (initTokState ['a', sq, sq, sq] 1 1 0 none).input
          ∧ stf.input.drop stf.pos = []) :=
  ⟨C8_triple_quote_greedy.1 sq 10 _ (by decide) (by decide) (by decide) (by decide),
   C8_triple_quote_greedy.2.1 sq 10 _ (by decide) (by decide) ['a'] [] (by decide)⟩

theorem consume_tokenStartPos (c : Char) (st : TokState) :
    (consume c st).tokenStartPos = st.tokenStartPos := by
  unfold consume; split <;> rfl

theorem consume_refStartPos (c : Char) (st : TokState) :
    (consume c st).refStartPos = st.refStartPos := by
  unfold consume; split <;> rfl

theorem extract_nil (l : List Char) (a : Nat) : extract l a a = [] := by
  unfold extract
  exact List.drop_eq_nil_of_le (by simpa using List.length_take_le a l)

theorem extract_extend (l : List Char) (a p : Nat) (s : List Char) (c : Char)
    (hle : a ≤ p) (hx : extract l a p = s) (hc : l.get? p = some c) :
    extract l a (p + 1) = s ++ [c] := by
  unfold extract at hx ⊢
  obtain ⟨hlt, -⟩ := List.get?_eq_some.mp hc
  rw [List.take_succ]
  rw [List.get?_eq_getElem?] at hc
  rw [hc]
  rw [List.drop_append_of_le_length (by simpa using Nat.le_min.mpr ⟨hle, Nat.le_of_lt (Nat.lt_of_le_of_lt hle hlt)⟩)]
  rw [hx]
  rfl

/-- One gathered character preserves the token-in-progress invariant. -/
theorem TInv_step (st : TokState) (c : Char) (h : TInv st)
    (hc : st.input.get? st.pos = some c) :
    TInv (consume c { st with tokenString := st.tokenString ++ [c] }) := by
  obtain ⟨h0, h1, h2⟩ := h
  refine ⟨?_, ?_, ?_⟩
  · rw [consume_refStartPos]; exact h0
  · rw [consume_tokenStartPos, consume_tokenString, consume_pos]
    show st.tokenStartPos + (st.tokenString ++ [c]).length = st.pos + 1
    simp only [List.length_append, List.length_cons, List.length_nil]
    omega
  · rw [consume_input, consume_tokenStartPos, consume_tokenString, consume_pos]
    show extract st.input st.tokenStartPos (st.pos + 1) = st.tokenString ++ [c]
    exact extract_extend st.input st.tokenStartPos st.pos st.tokenString c
      (by omega) h2 hc

/-- `note_start_token` on a cleared token string establishes the invariant. -/
theorem TInv_note (st : TokState) (h0 : st.refStartPos = 0) (he : st.tokenString = []) :
    TInv (note_start_token st) := by
  refine ⟨h0, ?_, ?_⟩
  · show st.pos + st.refStartPos + st.tokenString.length = st.pos
    rw [h0, he]; rfl
  · show extract st.input (st.pos + st.refStartPos) st.pos = st.tokenString
    rw [h0, he]
    exact extract_nil st.input st.pos

/-- The span property for a token built as `(ty, X.tokenString,
get_token_location X)`, for any non-DOT_SYMBOL kind. -/
theorem spanProp_tok (input : List Char) (ty : TokenType) (X : TokState)
    (hty : ¬ ty = TokenType.dotSymbol)
    (hx : extract input X.tokenStartPos (X.tokenStartPos + X.tokenString.length)
      = X.tokenString) :
    spanProp input ⟨ty, X.tokenString, get_token_location X⟩ := by
  show extract input X.tokenStartPos (X.tokenStartPos + X.tokenString.length)
    = if ty = TokenType.dotSymbol then '.' :: X.tokenString else X.tokenString
  rw [if_neg hty]
  exact hx

/-- The span property for a DOT_SYMBOL token, whose lexeme drops the
gathered leading dot. -/
theorem spanProp_dot (input : List Char) (X : TokState) (rest : List Char)
    (hts : X.tokenString = '.' :: rest)
    (hx : extract input X.tokenStartPos (X.tokenStartPos + X.tokenString.length)
      = X.tokenString) :
    spanProp input ⟨.dotSymbol, X.tokenString.drop 1, get_token_location X⟩ := by
  show extract input X.tokenStartPos (X.tokenStartPos + X.tokenString.length)
    = if TokenType.dotSymbol = TokenType.dotSymbol
      then '.' :: X.tokenString.drop 1 else X.tokenString.drop 1
  rw [if_pos rfl, hx, hts]
  rfl

theorem span_gather_comment (fuel : Nat) :
    ∀ st t st1, TInv st →
      gather_comment fuel st = .ok (t, st1) →
      spanProp st.input t ∧ st1.input = st.input ∧ st1.refStartPos = 0 := by
  induction fuel with
  | zero => intro st t st1 h hrun; simp [gather_comment] at hrun
  | succ fuel ih =>
    intro st t st1 h hrun
    obtain ⟨h0, h1, h2⟩ := h
    simp only [gather_comment] at hrun
    cases hc : st.input.get? st.pos with
    | none =>
      simp only [hc] at hrun
      injection hrun with hp
      injection hp with ht hst
      subst ht; subst hst
      exact ⟨spanProp_tok st.input .comment st (by decide) (by rw [h1]; exact h2), rfl, h0⟩
    | some c =>
      simp only [hc] at hrun
      by_cases hnl : c = '\n'
      · subst hnl
        rw [if_pos rfl] at hrun
        injection hrun with hp
        injection hp with ht hst
        subst ht; subst hst
        refine ⟨spanProp_tok st.input .comment _ (by decide) ?_, rfl, h0⟩
        show extract st.input st.tokenStartPos
            (st.tokenStartPos + (st.tokenString ++ ['\n']).length)
          = st.tokenString ++ ['\n']
        rw [show st.tokenStartPos + (st.tokenString ++ ['\n']).length
            = st.pos + 1 by simp; omega]
        exact extract_extend st.input st.tokenStartPos st.pos st.tokenString '\n'
          (by omega) h2 hc
      · rw [if_neg hnl] at hrun
        obtain ⟨hsp, hin, hrf⟩ := ih _ t st1 (TInv_step st c ⟨h0, h1, h2⟩ hc) hrun
        rw [consume_input] at hsp hin
        exact ⟨hsp, hin, hrf⟩

theorem span_gather_string (d : Char) (fuel : Nat) :
    ∀ st t st1, TInv st →
      gather_string d fuel st = .ok (t, st1) →
      spanProp st.input t ∧ st1.input = st.input ∧ st1.refStartPos = 0 := by
  induction fuel with
  | zero => intro st t st1 h hrun; simp [gather_string] at hrun
  | succ fuel ih =>
    intro st t st1 h hrun
    obtain ⟨h0, h1, h2⟩ := h
    simp only [gather_string] at hrun
    cases hc : st.input.get? st.pos with
    | none => simp only [hc] at hrun; exact absurd hrun (by simp)
    | some c =>
      simp only [hc] at hrun
      by_cases hcd : c = d
      · rw [if_pos hcd] at hrun
        injection hrun with hp
        injection hp with ht hst
        subst ht; subst hst
        exact ⟨spanProp_tok st.input .string st (by decide) (by rw [h1]; exact h2),
          consume_input c st, by rw [consume_refStartPos]; exact h0⟩
      · rw [if_neg hcd] at hrun
        obtain ⟨hsp, hin, hrf⟩ := ih _ t st1 (TInv_step st c ⟨h0, h1, h2⟩ hc) hrun
        rw [consume_input] at hsp hin
        exact ⟨hsp, hin, hrf⟩

theorem span_gather_triple (d : Char) (fuel : Nat) :
    ∀ st t st1, TInv st →
      gather_triple_quote d fuel st = .ok (t, st1) →
      spanProp st.input t ∧ st1.input = st.input ∧ st1.refStartPos = 0 := by
  induction fuel with
  | zero => intro st t st1 h hrun; simp [gather_triple_quote] at hrun
  | succ fuel ih =>
    intro st t st1 h hrun
    obtain ⟨h0, h1, h2⟩ := h
    simp only [gather_triple_quote] at hrun
    cases hc : st.input.get? st.pos with
    | none => simp only [hc] at hrun; exact absurd hrun (by simp)
    | some c =>
      simp only [hc] at hrun
      cases hb : (decide (c = d) && is_triple_quote st st.pos c) with
      | true =>
        rw [hb, if_pos rfl] at hrun
        have hcd : c = d := by
          by_contra hne
          rw [decide_eq_false hne, Bool.false_and] at hb
          exact Bool.false_ne_true hb
        subst hcd
        cases hg : (decide (st.pos + 3 < st.input.length)
            && decide (st.input.get? (st.pos + 3) = some c)) with
        | true =>
          rw [hg, if_pos rfl] at hrun
          obtain ⟨hsp, hin, hrf⟩ := ih _ t st1 (TInv_step st c ⟨h0, h1, h2⟩ hc) hrun
          rw [consume_input] at hsp hin
          exact ⟨hsp, hin, hrf⟩
        | false =>
          rw [hg] at hrun
          simp only [Bool.false_eq_true, if_false] at hrun
          injection hrun with hp
          injection hp with ht hst
          subst ht; subst hst
          refine ⟨spanProp_tok st.input .string st (by decide) (by rw [h1]; exact h2),
            ?_, ?_⟩
          · rw [consume_input, consume_input, consume_input]
          · rw [consume_refStartPos, consume_refStartPos, consume_refStartPos]
            exact h0
      | false =>
        rw [hb] at hrun
        simp only [Bool.false_eq_true, if_false] at hrun
        obtain ⟨hsp, hin, hrf⟩ := ih _ t st1 (TInv_step st c ⟨h0, h1, h2⟩ hc) hrun
        rw [consume_input] at hsp hin
        exact ⟨hsp, hin, hrf⟩

theorem span_gather_defname (fuel : Nat) :
    ∀ st st1, TInv st →
      gather_definition_name fuel st = .ok st1 →
      (extract st1.input st1.tokenStartPos (st1.tokenStartPos + st1.tokenString.length)
          = st1.tokenString)
        ∧ st1.input = st.input ∧ st1.refStartPos = 0 := by
  induction fuel with
  | zero => intro st st1 h hrun; simp [gather_definition_name] at hrun
  | succ fuel ih =>
    intro st st1 h hrun
    obtain ⟨h0, h1, h2⟩ := h
    simp only [gather_definition_name] at hrun
    cases hc : st.input.get? st.pos with
    | none =>
      simp only [hc] at hrun
      injection hrun with hst
      subst hst
      exact ⟨by rw [h1]; exact h2, rfl, h0⟩
    | some c =>
      simp only [hc] at hrun
      by_cases hws : is_whitespace c = true
      · rw [hws] at hrun
        simp only [if_true] at hrun
        injection hrun with hst
        subst hst
        refine ⟨?_, consume_input c st, by rw [consume_refStartPos]; exact h0⟩
        rw [consume_input, consume_tokenStartPos, consume_tokenString, h1]
        exact h2
      · rw [Bool.not_eq_true] at hws
        rw [hws] at hrun
        simp only [Bool.false_eq_true, if_false] at hrun
        by_cases hq : is_quote c = true
        · rw [hq] at hrun
          simp only [if_true] at hrun
          exact absurd hrun (by simp)
        · rw [Bool.not_eq_true] at hq
          rw [hq] at hrun
          simp only [Bool.false_eq_true, if_false] at hrun
          by_cases hbr : (c = '[' || c = ']' || c = obr || c = cbr) = true
          · rw [hbr] at hrun
            simp only [if_true] at hrun
            exact absurd hrun (by simp)
          · rw [Bool.not_eq_true] at hbr
            rw [hbr] at hrun
            simp only [Bool.false_eq_true, if_false] at hrun
            obtain ⟨hsp, hin, hrf⟩ := ih _ st1 (TInv_step st c ⟨h0, h1, h2⟩ hc) hrun
            rw [consume_input] at hin
            exact ⟨hsp, hin, hrf⟩

theorem span_gather_name_token (ty : TokenType) (fuel : Nat) (st : TokState)
    (t : Token) (st1 : TokState) (hty : ¬ ty = TokenType.dotSymbol)
    (h0 : st.refStartPos = 0) (he : st.tokenString = [])
    (hrun : gather_name_token ty fuel st = .ok (t, st1)) :
    spanProp st.input t ∧ st1.input = st.input ∧ st1.refStartPos = 0 := by
  unfold gather_name_token at hrun
  cases hg : gather_definition_name fuel (note_start_token st) with
  | error e =>
    rw [hg] at hrun
    exact absurd hrun (by simp [Bind.bind, Except.bind])
  | ok stg =>
    rw [hg] at hrun
    simp only [Bind.bind, Except.bind] at hrun
    injection hrun with hp
    injection hp with ht hst
    subst ht; subst hst
    obtain ⟨hsp, hin, hrf⟩ := span_gather_defname fuel (note_start_token st) stg
      (TInv_note st h0 he) hg
    have hinn : (note_start_token st).input = st.input := rfl
    rw [hinn] at hin
    refine ⟨?_, hin, hrf⟩
    rw [← hin]
    exact spanProp_tok stg.input ty stg hty hsp

theorem span_start_definition_loop (ty : TokenType) (fuel : Nat)
    (hty : ¬ ty = TokenType.dotSymbol) :
    ∀ st t st1, st.refStartPos = 0 → st.tokenString = [] →
      start_definition_loop ty fuel st = .ok (t, st1) →
      spanProp st.input t ∧ st1.input = st.input ∧ st1.refStartPos = 0 := by
  induction fuel with
  | zero => intro st t st1 h0 he hrun; simp [start_definition_loop] at hrun
  | succ fuel ih =>
    intro st t st1 h0 he hrun
    simp only [start_definition_loop] at hrun
    cases hc : st.input.get? st.pos with
    | none => simp only [hc] at hrun; exact absurd hrun (by simp)
    | some c =>
      simp only [hc] at hrun
      by_cases hws : is_whitespace c = true
      · rw [hws] at hrun
        simp only [if_true] at hrun
        obtain ⟨hsp, hin, hrf⟩ := ih (consume c st) t st1
          (by rw [consume_refStartPos]; exact h0)
          (by rw [consume_tokenString]; exact he) hrun
        rw [consume_input] at hsp hin
        exact ⟨hsp, hin, hrf⟩
      · rw [Bool.not_eq_true] at hws
        rw [hws] at hrun
        simp only [Bool.false_eq_true, if_false] at hrun
        by_cases hq : is_quote c = true
        · rw [hq] at hrun
          simp only [if_true] at hrun
          exact absurd hrun (by simp)
        · rw [Bool.not_eq_true] at hq
          rw [hq] at hrun
          simp only [Bool.false_eq_true, if_false] at hrun
          exact span_gather_name_token ty fuel st t st1 hty h0 he hrun

theorem span_gather_module (fuel : Nat) :
    ∀ st t st1, TInv st →
      gather_module fuel st = .ok (t, st1) →
      spanProp st.input t ∧ st1.input = st.input ∧ st1.refStartPos = 0 := by
  induction fuel with
  | zero => intro st t st1 h hrun; simp [gather_module] at hrun
  | succ fuel ih =>
    intro st t st1 h hrun
    obtain ⟨h0, h1, h2⟩ := h
    simp only [gather_module] at hrun
    cases hc : st.input.get? st.pos with
    | none =>
      simp only [hc] at hrun
      injection hrun with hp
      injection hp with ht hst
      subst ht; subst hst
      exact ⟨spanProp_tok st.input .startModule st (by decide) (by rw [h1]; exact h2),
        rfl, h0⟩
    | some c =>
      simp only [hc] at hrun
      by_cases hws : is_whitespace c = true
      · rw [hws] at hrun
        simp only [if_true] at hrun
        injection hrun with hp
        injection hp with ht hst
        subst ht; subst hst
        refine ⟨?_, consume_input c st, by rw [consume_refStartPos]; exact h0⟩
        have : extract (consume c st).input (consume c st).tokenStartPos
            ((consume c st).tokenStartPos + (consume c st).tokenString.length)
            = (consume c st).tokenString := by
          rw [consume_input, consume_tokenStartPos, consume_tokenString, h1]
          exact h2
        rw [← consume_input c st]
        exact spanProp_tok (consume c st).input .startModule (consume c st) (by decide) this
      · rw [Bool.not_eq_true] at hws
        rw [hws] at hrun
        simp only [Bool.false_eq_true, if_false] at hrun
        by_cases hcb : c = cbr
        · rw [if_pos hcb] at hrun
          injection hrun with hp
          injection hp with ht hst
          subst ht; subst hst
          exact ⟨spanProp_tok st.input .startModule st (by decide) (by rw [h1]; exact h2),
            rfl, h0⟩
        · rw [if_neg hcb] at hrun
          obtain ⟨hsp, hin, hrf⟩ := ih _ t st1 (TInv_step st c ⟨h0, h1, h2⟩ hc) hrun
          rw [consume_input] at hsp hin
          exact ⟨hsp, hin, hrf⟩

theorem span_gather_word (fuel : Nat) :
    ∀ st t st1, TInv st →
      gather_word_loop fuel st = .ok (t, st1) →
      spanProp st.input t ∧ st1.input = st.input ∧ st1.refStartPos = 0 := by
  induction fuel with
  | zero => intro st t st1 h hrun; simp [gather_word_loop] at hrun
  | succ fuel ih =>
    intro st t st1 h hrun
    obtain ⟨h0, h1, h2⟩ := h
    simp only [gather_word_loop] at hrun
    cases hc : st.input.get? st.pos with
    | none =>
      simp only [hc] at hrun
      injection hrun with hp
      injection hp with ht hst
      subst ht; subst hst
      exact ⟨spanProp_tok st.input .word st (by decide) (by rw [h1]; exact h2), rfl, h0⟩
    | some c =>
      simp only [hc] at hrun
      by_cases hws : is_whitespace c = true
      · rw [hws] at hrun
        simp only [if_true] at hrun
        injection hrun with hp
        injection hp with ht hst
        subst ht; subst hst
        refine ⟨?_, consume_input c st, by rw [consume_refStartPos]; exact h0⟩
        have : extract (consume c st).input (consume c st).tokenStartPos
            ((consume c st).tokenStartPos + (consume c st).tokenString.length)
            = (consume c st).tokenString := by
          rw [consume_input, consume_tokenStartPos, consume_tokenString, h1]
          exact h2
        rw [← consume_input c st]
        exact spanProp_tok (consume c st).input .word (consume c st) (by decide) this
      · rw [Bool.not_eq_true] at hws
        rw [hws] at hrun
        simp only [Bool.false_eq_true, if_false] at hrun
        by_cases hst : is_word_stop c = true
        · rw [hst] at hrun
          simp only [if_true] at hrun
          injection hrun with hp
          injection hp with ht hst'
          subst ht; subst hst'
          exact ⟨spanProp_tok st.input .word st (by decide) (by rw [h1]; exact h2), rfl, h0⟩
        · rw [Bool.not_eq_true] at hst
          rw [hst] at hrun
          simp only [Bool.false_eq_true, if_false] at hrun
          obtain ⟨hsp, hin, hrf⟩ := ih _ t st1 (TInv_step st c ⟨h0, h1, h2⟩ hc) hrun
          rw [consume_input] at hsp hin
          exact ⟨hsp, hin, hrf⟩

theorem span_gather_dot (fuel : Nat) :
    ∀ st t st1, TInv st →
      (st.tokenString = [] ∧ st.input.get? st.pos = some '.' ∨
        st.tokenString.head? = some '.') →
      gather_dot_symbol_loop fuel st = .ok (t, st1) →
      spanProp st.input t ∧ st1.input = st.input ∧ st1.refStartPos = 0 := by
  induction fuel with
  | zero => intro st t st1 h hd hrun; simp [gather_dot_symbol_loop] at hrun
  | succ fuel ih =>
    intro st t st1 h hd hrun
    obtain ⟨h0, h1, h2⟩ := h
    have hdot : ¬ st.tokenString.length < 2 → ∃ rest, st.tokenString = '.' :: rest := by
      intro hlen
      cases hts : st.tokenString with
      | nil => rw [hts] at hlen; exact absurd (by decide) hlen
      | cons a as =>
        rcases hd with ⟨he, -⟩ | hh
        · rw [hts] at he; exact absurd he (by simp)
        · rw [hts] at hh
          injection hh with ha
          subst ha
          exact ⟨as, rfl⟩
    simp only [gather_dot_symbol_loop] at hrun
    cases hc : st.input.get? st.pos with
    | none =>
      simp only [hc] at hrun
      by_cases hlen : st.tokenString.length < 2
      · rw [if_pos hlen] at hrun
        injection hrun with hp
        injection hp with ht hst
        subst ht; subst hst
        exact ⟨spanProp_tok st.input .word st (by decide) (by rw [h1]; exact h2), rfl, h0⟩
      · rw [if_neg hlen] at hrun
        injection hrun with hp
        injection hp with ht hst
        subst ht; subst hst
        obtain ⟨rest, hts⟩ := hdot hlen
        exact ⟨spanProp_dot st.input st rest hts (by rw [h1]; exact h2), rfl, h0⟩
    | some c =>
      simp only [hc] at hrun
      by_cases hws : is_whitespace c = true
      · rw [hws] at hrun
        simp only [if_true] at hrun
        have hextr : extract (consume c st).input (consume c st).tokenStartPos
            ((consume c st).tokenStartPos + (consume c st).tokenString.length)
            = (consume c st).tokenString := by
          rw [consume_input, consume_tokenStartPos, consume_tokenString, h1]
          exact h2
        by_cases hlen : st.tokenString.length < 2
        · rw [if_pos (by rw [consume_tokenString]; exact hlen)] at hrun
          injection hrun with hp
          injection hp with ht hst
          subst ht; subst hst
          refine ⟨?_, consume_input c st, by rw [consume_refStartPos]; exact h0⟩
          rw [← consume_input c st]
          exact spanProp_tok (consume c st).input .word (consume c st) (by decide) hextr
        · rw [if_neg (by rw [consume_tokenString]; exact hlen)] at hrun
          injection hrun with hp
          injection hp with ht hst
          subst ht; subst hst
          obtain ⟨rest, hts⟩ := hdot hlen
          refine ⟨?_, consume_input c st, by rw [consume_refStartPos]; exact h0⟩
          rw [← consume_input c st]
          exact spanProp_dot (consume c st).input (consume c st) rest
            (by rw [consume_tokenString]; exact hts) hextr
      · rw [Bool.not_eq_true] at hws
        rw [hws] at hrun
        simp only [Bool.false_eq_true, if_false] at hrun
        by_cases hstp : is_word_stop c = true
        · rw [hstp] at hrun
          simp only [if_true] at hrun
          by_cases hlen : st.tokenString.length < 2
          · rw [if_pos hlen] at hrun
            injection hrun with hp
            injection hp with ht hst
            subst ht; subst hst
            exact ⟨spanProp_tok st.input .word st (by decide) (by rw [h1]; exact h2),
              rfl, h0⟩
          · rw [if_neg hlen] at hrun
            injection hrun with hp
            injection hp with ht hst
            subst ht; subst hst
            obtain ⟨rest, hts⟩ := hdot hlen
            exact ⟨spanProp_dot st.input st rest hts (by rw [h1]; exact h2), rfl, h0⟩
        · rw [Bool.not_eq_true] at hstp
          rw [hstp] at hrun
          simp only [Bool.false_eq_true, if_false] at hrun
          have hd' : ((consume c { st with tokenString := st.tokenString ++ [c] }).tokenString = []
              ∧ (consume c { st with tokenString := st.tokenString ++ [c] }).input.get?
                  (consume c { st with tokenString := st.tokenString ++ [c] }).pos
                = some '.') ∨
              (consume c { st with tokenString := st.tokenString ++ [c] }).tokenString.head?
                = some '.' := by
            right
            rw [consume_tokenString]
            show (st.tokenString ++ [c]).head? = some '.'
            rcases hd with ⟨he, hpc⟩ | hh
            · rw [he]
              rw [hc] at hpc
              injection hpc with hpc'
              rw [← hpc']
              rfl
            · cases hts : st.tokenString with
              | nil => rw [hts] at hh; exact absurd hh (by simp)
              | cons a as =>
                rw [hts] at hh
                show (a :: (as ++ [c])).head? = some '.'
                exact hh
          obtain ⟨hsp, hin, hrf⟩ := ih _ t st1 (TInv_step st c ⟨h0, h1, h2⟩ hc) hd' hrun
          rw [consume_input] at hsp hin
          exact ⟨hsp, hin, hrf⟩

theorem span_transition (fuel : Nat) :
    ∀ st t stf, st.refStartPos = 0 → st.tokenString = [] →
      transition_from_START fuel st = .ok (t, stf) →
      spanProp st.input t ∧ stf.input = st.input ∧ stf.refStartPos = 0 := by
  induction fuel with
  | zero => intro st t stf h0 he hrun; simp [transition_from_START] at hrun
  | succ fuel ih =>
    intro st t stf h0 he hrun
    simp only [transition_from_START] at hrun
    cases hc : st.input.get? st.pos with
    | none =>
      simp only [hc] at hrun
      injection hrun with hp
      injection hp with ht hst
      subst ht; subst hst
      refine ⟨?_, rfl, h0⟩
      rw [← he]
      refine spanProp_tok st.input .eos st (by decide) ?_
      rw [he]
      show extract st.input st.tokenStartPos (st.tokenStartPos + 0) = []
      rw [Nat.add_zero]
      exact extract_nil st.input st.tokenStartPos
    | some c =>
      simp only [hc] at hrun
      have hnn : (note_start_token st).input = st.input := rfl
      have hnr : (note_start_token st).refStartPos = 0 := h0
      have hne : (note_start_token st).tokenString = [] := he
      by_cases hws : is_whitespace c = true
      · rw [hws] at hrun
        simp only [if_true] at hrun
        obtain ⟨hsp, hin, hrf⟩ := ih (consume c (note_start_token st)) t stf
          (by rw [consume_refStartPos]; exact hnr)
          (by rw [consume_tokenString]; exact hne) hrun
        rw [consume_input] at hsp hin
        exact ⟨hsp, hin, hrf⟩
      · rw [Bool.not_eq_true] at hws
        rw [hws] at hrun
        simp only [Bool.false_eq_true, if_false] at hrun
        by_cases hhash : c = '#'
        · rw [if_pos hhash] at hrun
          obtain ⟨hsp, hin, hrf⟩ := span_gather_comment fuel _ t stf
            (TInv_note (consume c (note_start_token st))
              (by rw [consume_refStartPos]; exact hnr)
              (by rw [consume_tokenString]; exact hne)) hrun
          have hni : (note_start_token (consume c (note_start_token st))).input = st.input := by
            show (consume c (note_start_token st)).input = st.input
            rw [consume_input]
            exact hnn
          rw [hni] at hsp hin
          exact ⟨hsp, hin, hrf⟩
        · rw [if_neg hhash] at hrun
          by_cases hcol : c = ':'
          · rw [if_pos hcol] at hrun
            obtain ⟨hsp, hin, hrf⟩ := span_start_definition_loop .startDef fuel (by decide)
              (consume c (note_start_token st)) t stf
              (by rw [consume_refStartPos]; exact hnr)
              (by rw [consume_tokenString]; exact hne) hrun
            rw [consume_input] at hsp hin
            exact ⟨hsp, hin, hrf⟩
          · rw [if_neg hcol] at hrun
            cases hat : (decide (c = '@')
                && decide (st.input.get? (st.pos + 1) = some ':')) with
            | true =>
              rw [hat, if_pos rfl] at hrun
              obtain ⟨hsp, hin, hrf⟩ := span_start_definition_loop .startMemo fuel (by decide)
                (consume ':' (consume c (note_start_token st))) t stf
                (by rw [consume_refStartPos, consume_refStartPos]; exact hnr)
                (by rw [consume_tokenString, consume_tokenString]; exact hne) hrun
              rw [consume_input, consume_input] at hsp hin
              exact ⟨hsp, hin, hrf⟩
            | false =>
              rw [hat] at hrun
              simp only [Bool.false_eq_true, if_false] at hrun
              by_cases hsemi : c = ';'
              · rw [if_pos hsemi] at hrun
                simp only [charToken] at hrun
                injection hrun with hp
                injection hp with ht hst
                subst ht; subst hst
                refine ⟨?_, ?_, ?_⟩
                · refine spanProp_tok st.input .endDef _ (by decide) ?_
                  rw [consume_tokenStartPos]
                  show extract st.input (st.pos + st.refStartPos)
                    (st.pos + st.refStartPos + 1) = [c]
                  rw [h0, Nat.add_zero]
                  exact extract_extend st.input st.pos st.pos [] c (Nat.le_refl _)
                    (extract_nil st.input st.pos) hc
                · show (consume c (note_start_token st)).input = st.input
                  rw [consume_input]
                  exact hnn
                · show (consume c (note_start_token st)).refStartPos = 0
                  rw [consume_refStartPos]
                  exact hnr
              · rw [if_neg hsemi] at hrun
                by_cases hlb : c = '['
                · rw [if_pos hlb] at hrun
                  simp only [charToken] at hrun
                  injection hrun with hp
                  injection hp with ht hst
                  subst ht; subst hst
                  refine ⟨?_, ?_, ?_⟩
                  · refine spanProp_tok st.input .startArray _ (by decide) ?_
                    rw [consume_tokenStartPos]
                    show extract st.input (st.pos + st.refStartPos)
                      (st.pos + st.refStartPos + 1) = [c]
                    rw [h0, Nat.add_zero]
                    exact extract_extend st.input st.pos st.pos [] c (Nat.le_refl _)
                      (extract_nil st.input st.pos) hc
                  · show (consume c (note_start_token st)).input = st.input
                    rw [consume_input]
                    exact hnn
                  · show (consume c (note_start_token st)).refStartPos = 0
                    rw [consume_refStartPos]
                    exact hnr
                · rw [if_neg hlb] at hrun
                  by_cases hrb : c = ']'
                  · rw [if_pos hrb] at hrun
                    simp only [charToken] at hrun
                    injection hrun with hp
                    injection hp with ht hst
                    subst ht; subst hst
                    refine ⟨?_, ?_, ?_⟩
                    · refine spanProp_tok st.input .endArray _ (by decide) ?_
                      rw [consume_tokenStartPos]
                      show extract st.input (st.pos + st.refStartPos)
                        (st.pos + st.refStartPos + 1) = [c]
                      rw [h0, Nat.add_zero]
                      exact extract_extend st.input st.pos st.pos [] c (Nat.le_refl _)
                        (extract_nil st.input st.pos) hc
                    · show (consume c (note_start_token st)).input = st.input
                      rw [consume_input]
                      exact hnn
                    · show (consume c (note_start_token st)).refStartPos = 0
                      rw [consume_refStartPos]
                      exact hnr
                  · rw [if_neg hrb] at hrun
                    by_cases hob : c = obr
                    · rw [if_pos hob] at hrun
                      obtain ⟨hsp, hin, hrf⟩ := span_gather_module fuel _ t stf
                        (TInv_note (consume c (note_start_token st))
                          (by rw [consume_refStartPos]; exact hnr)
                          (by rw [consume_tokenString]; exact hne)) hrun
                      have hni : (note_start_token (consume c
                          (note_start_token st))).input = st.input := by
                        show (consume c (note_start_token st)).input = st.input
                        rw [consume_input]
                        exact hnn
                      rw [hni] at hsp hin
                      exact ⟨hsp, hin, hrf⟩
                    · rw [if_neg hob] at hrun
                      by_cases hcb : c = cbr
                      · rw [if_pos hcb] at hrun
                        simp only [charToken] at hrun
                        injection hrun with hp
                        injection hp with ht hst
                        subst ht; subst hst
                        refine ⟨?_, ?_, ?_⟩
                        · refine spanProp_tok st.input .endModule _ (by decide) ?_
                          rw [consume_tokenStartPos]
                          show extract st.input (st.pos + st.refStartPos)
                            (st.pos + st.refStartPos + 1) = [c]
                          rw [h0, Nat.add_zero]
                          exact extract_extend st.input st.pos st.pos [] c (Nat.le_refl _)
                            (extract_nil st.input st.pos) hc
                        · show (consume c (note_start_token st)).input = st.input
                          rw [consume_input]
                          exact hnn
                        · show (consume c (note_start_token st)).refStartPos = 0
                          rw [consume_refStartPos]
                          exact hnr
                      · rw [if_neg hcb] at hrun
                        cases htq : is_triple_quote (note_start_token st) st.pos c with
                        | true =>
                          rw [htq] at hrun
                          simp only [if_true] at hrun
                          obtain ⟨hsp, hin, hrf⟩ := span_gather_triple c fuel _ t stf
                            (TInv_note (consume c (consume c (consume c
                                (note_start_token st))))
                              (by rw [consume_refStartPos, consume_refStartPos,
                                  consume_refStartPos]
                                  exact hnr)
                              (by rw [consume_tokenString, consume_tokenString,
                                  consume_tokenString]
                                  exact hne)) hrun
                          have hni : (note_start_token (consume c (consume c (consume c
                              (note_start_token st))))).input = st.input := by
                            show (consume c (consume c (consume c
                              (note_start_token st)))).input = st.input
                            rw [consume_input, consume_input, consume_input]
                            exact hnn
                          rw [hni] at hsp hin
                          exact ⟨hsp, hin, hrf⟩
                        | false =>
                          rw [htq] at hrun
                          simp only [Bool.false_eq_true, if_false] at hrun
                          by_cases hq : is_quote c = true
                          · rw [hq] at hrun
                            simp only [if_true] at hrun
                            obtain ⟨hsp, hin, hrf⟩ := span_gather_string c fuel _ t stf
                              (TInv_note (consume c (note_start_token st))
                                (by rw [consume_refStartPos]; exact hnr)
                                (by rw [consume_tokenString]; exact hne)) hrun
                            have hni : (note_start_token (consume c
                                (note_start_token st))).input = st.input := by
                              show (consume c (note_start_token st)).input = st.input
                              rw [consume_input]
                              exact hnn
                            rw [hni] at hsp hin
                            exact ⟨hsp, hin, hrf⟩
                          · rw [Bool.not_eq_true] at hq
                            rw [hq] at hrun
                            simp only [Bool.false_eq_true, if_false] at hrun
                            by_cases hdc : c = '.'
                            · rw [if_pos hdc] at hrun
                              obtain ⟨hsp, hin, hrf⟩ := span_gather_dot fuel _ t stf
                                (TInv_note (note_start_token st) hnr hne)
                                (by left
                                    constructor
                                    · exact hne
                                    · show st.input.get? st.pos = some '.'
                                      rw [← hdc]
                                      exact hc) hrun
                              exact ⟨hsp, hin, hrf⟩
                            · rw [if_neg hdc] at hrun
                              obtain ⟨hsp, hin, hrf⟩ := span_gather_word fuel _ t stf
                                (TInv_note (note_start_token st) hnr hne) hrun
                              exact ⟨hsp, hin, hrf⟩

theorem span_next_token (fuel : Nat) (st : TokState) (t : Token) (stf : TokState)
    (h0 : st.refStartPos = 0) (hrun : next_token fuel st = .ok (t, stf)) :
    spanProp st.input t ∧ stf.input = st.input ∧ stf.refStartPos = 0 :=
  span_transition fuel { st with tokenString := [] } t stf h0 rfl hrun

theorem span_tokenizeAll (fuel : Nat) :
    ∀ st, st.refStartPos = 0 →
      ∀ t, t ∈ (tokenizeAll fuel st).1 → spanProp st.input t := by
  induction fuel with
  | zero => intro st h0 t ht; simp [tokenizeAll] at ht
  | succ fuel ih =>
    intro st h0 t ht
    simp only [tokenizeAll] at ht
    cases hnt : next_token fuel st with
    | error e => rw [hnt] at ht; simp at ht
    | ok p =>
      obtain ⟨tk, st1⟩ := p
      simp only [hnt] at ht
      obtain ⟨hsp, hin, hrf⟩ := span_next_token fuel st tk st1 h0 hnt
      by_cases heos : tk.type = .eos
      · rw [if_pos heos] at ht
        simp only [List.mem_singleton] at ht
        subst ht
        exact hsp
      · rw [if_neg heos] at ht
        simp only [List.mem_cons] at ht
        rcases ht with ht | ht
        · subst ht
          exact hsp
        · have := ih st1 hrf t ht
          rw [hin] at this
          exact this

/-- C9 (amended): tokenizer position fidelity — for every token returned by
a tokenizer with the default reference location over any source, the source
slice `[start_pos, end_pos)` is the token's lexeme for every token kind
except DOT_SYMBOL (STRING slices being the content between the
delimiters); for a DOT_SYMBOL token the slice is a dot followed by the
lexeme, because the gathered dot is counted in the span but stripped from
the lexeme. -/
theorem C9_token_span_fidelity (fuel : Nat) (src : List Char) :
    ∀ t, t ∈ (tokenizeSource fuel src).1 → spanProp (unescape_string src) t := by
  intro t ht
  exact span_tokenizeAll fuel (initTokState src 1 1 0 none) rfl t ht

/-- C9 witness: the spans of the WORD and DOT_SYMBOL tokens of `1 .ab`. -/
theorem C9_token_span_fidelity_witness :
    spanProp (unescape_string (r"1 .ab").data)
      ⟨.word, ['1'], ⟨none, 1, 1, 0, 1⟩⟩
    ∧ spanProp (unescape_string (r"1 .ab").data)
      ⟨.dotSymbol, ['a', 'b'], ⟨none, 1, 3, 2, 5⟩⟩ :=
  ⟨C9_token_span_fidelity 12 (r"1 .ab").data ⟨.word, ['1'], ⟨none, 1, 1, 0, 1⟩⟩
      (by decide),
   C9_token_span_fidelity 12 (r"1 .ab").data ⟨.dotSymbol, ['a', 'b'], ⟨none, 1, 3, 2, 5⟩⟩
      (by decide)⟩

/-- C9 counterexample to the unamended claim: `.ab` tokenizes to a
DOT_SYMBOL whose span `[0, 3)` covers the stripped dot, so the slice is
`.ab` while the lexeme is `ab`. -/
theorem C9_dot_symbol_span_counterexample :
    (tokenizeSource 10 (r".ab").data).1.head?
        = some ⟨.dotSymbol, ['a', 'b'], ⟨none, 1, 1, 0, 3⟩⟩
      ∧ extract (unescape_string (r".ab").data) 0 3 = '.' :: ['a', 'b']
      ∧ ¬ extract (unescape_string (r".ab").data) 0 3 = ['a', 'b'] := by
  refine ⟨by decide, by decide, by decide⟩

/-- C1: the `<iso>[<IANA>]` extension is NOT accepted anywhere in the code:
`to_zoned_datetime` hands the whole string to `datetime.fromisoformat`,
which rejects the bracket suffix, so the handler returns `None`; moreover
the tokenizer never even produces such a lexeme, because `[` terminates a
WORD token.  Running the claimed scenario raises unknown-word for
`America/New_York` instead of pushing a zoned datetime (the repository's
own tests, tests/unit/core/test_zoned_datetime_literals.py, assert the
claimed behaviour, so this is a code bug rather than a spec bug). -/
theorem C1_zoned_datetime_bracket_rejected :
    to_zoned_datetime utcTz c1Input = none
    ∧ (tokenizeSource 60 c1Input).1.map (fun t => (t.type, t.string)) =
        [(.word, (r"2020-06-05T10:15:00").data), (.startArray, ['[']),
         (.word, (r"America/New_York").data), (.endArray, [']']), (.eos, [])]
    ∧ (interp_run 60 c1Input freshInterp).2 =
        some (.unknownWord (r"America/New_York").data none)
    ∧ (interp_run 60 c1Input freshInterp).1.stack =
        [.vdatetime ⟨2020, 6, 5, 10, 15, 0, 0, some utcTz⟩,
         .vtoken ⟨.startArray, ['['],
           { source := none, line := 1, column := 20, startPos := 19, endPos := 20 }⟩] := by
  have hrun : run_loop 60 (initTokState c1Input 1 1 0 none) freshInterp
      = (c1RSF, c1RTokF, c1RErr) := by
    calc run_loop 60 (initTokState c1Input 1 1 0 none) freshInterp
        = run_loop 59 c1RTok1 c1RS1 :=
          run_loop_step 59 _ _ ({ type := Forthic.TokenType.word, string := ['2', '0', '2', '0', '-', '0', '6', '-', '0', '5', 'T', '1', '0', ':', '1', '5', ':', '0', '0'], location := { source := none, line := 1, column := 1, startPos := 0, endPos := 19 } }) _ _ (by rfl) (by rfl) (by decide)
      _ = run_loop 58 c1RTok2 c1RS2 :=
          run_loop_step 58 _ _ ({ type := Forthic.TokenType.startArray, string := ['['], location := { source := none, line := 1, column := 20, startPos := 19, endPos := 20 } }) _ _ (by rfl) (by rfl) (by decide)
      _ = (c1RSF, c1RTokF, c1RErr) :=
          run_loop_stop_err 57 _ _ ({ type := Forthic.TokenType.word, string := ['A', 'm', 'e', 'r', 'i', 'c', 'a', '/', 'N', 'e', 'w', '_', 'Y', 'o', 'r', 'k'], location := { source := none, line := 1, column := 21, startPos := 20, endPos := 36 } }) _ _ _ (by rfl) (by rfl)
  refine ⟨by rfl, by decide, ?_, ?_⟩
  · simp only [interp_run, hrun]
    rfl
  · simp only [interp_run, hrun]
    rfl

/-- C3 counterexample: interpreting the single token `}` from a fresh
interpreter pops the app-module and completes normally, leaving an EMPTY
module stack — the claimed invariant "the module stack is non-empty" fails
on this reachable state. -/
theorem C3_unmatched_end_module_empties_stack :
    (interp_run 10 c3Src freshInterp).1.moduleStack = ([] : List Nat)
    ∧ (interp_run 10 c3Src freshInterp).2 = none := by
  have hrun : run_loop 10 (initTokState c3Src 1 1 0 none) freshInterp
      = (c3RSF, c3RTokF, c3RErr) := by
    calc run_loop 10 (initTokState c3Src 1 1 0 none) freshInterp
        = run_loop 9 c3RTok1 c3RS1 :=
          run_loop_step 9 _ _ ({ type := Forthic.TokenType.endModule, string := [cbr], location := { source := none, line := 1, column := 1, startPos := 0, endPos := 1 } }) _ _ (by rfl) (by rfl) (by decide)
      _ = (c3RSF, c3RTokF, c3RErr) :=
          run_loop_stop_eos 8 _ _ ({ type := Forthic.TokenType.eos, string := [], location := { source := none, line := 1, column := 1, startPos := 0, endPos := 0 } }) _ _ (by rfl) (by rfl) (by rfl)
  refine ⟨?_, ?_⟩ <;> simp only [interp_run, hrun] <;> rfl

/-- C4 counterexample: `Module.add_variable` itself performs no name
validation — creating a variable named `__x` through it succeeds and
records the variable instead of raising invalid-variable-name. -/
theorem C4_add_variable_accepts_dunder :
    module_add_variable [] (r"__x").data = [((r"__x").data, Value.vnone)] := by
  rfl

/-- C4 (amended): every creation or store that goes through the core
module's variable words — `VARIABLES`, and `!`/`@`/`!@` with a string name,
all of which validate via `CoreModule._get_or_create_variable` — raises
invalid-variable-name for any name starting with `__`;
`Module.add_variable` itself does not validate. -/
theorem C4_core_words_reject_dunder_names (name : List Char) (vars : VarDict)
    (value : Value) (names1 names2 : List (List Char))
    (h : startsWithDunder name = true) :
    get_or_create_variable vars name = .error (.invalidVariableName name)
    ∧ core_bang vars value (.byName name) = .error (.invalidVariableName name)
    ∧ core_at vars (.byName name) = .error (.invalidVariableName name)
    ∧ core_bang_at vars value (.byName name) = .error (.invalidVariableName name)
    ∧ ∃ bad, startsWithDunder bad = true
        ∧ core_VARIABLES vars (names1 ++ name :: names2) =
            .error (.invalidVariableName bad) := by
  have hg : get_or_create_variable vars name = .error (.invalidVariableName name) := by
    simp [get_or_create_variable, h]
  refine ⟨hg, ?_, ?_, ?_, ?_⟩
  · simp only [core_bang, hg]; rfl
  · simp only [core_at, hg]; rfl
  · simp only [core_bang_at, hg]; rfl
  · clear hg
    induction names1 generalizing vars with
    | nil => exact ⟨name, h, by simp [core_VARIABLES, h]⟩
    | cons hd tl ih =>
      by_cases hhd : startsWithDunder hd = true
      · exact ⟨hd, hhd, by simp [core_VARIABLES, hhd]⟩
      · obtain ⟨bad, hbad, heq⟩ := ih (module_add_variable vars hd)
        refine ⟨bad, hbad, ?_⟩
        simpa [core_VARIABLES, hhd] using heq

/-- C4 witness: the concrete name `__x`. -/
theorem C4_core_words_reject_dunder_names_witness :
    get_or_create_variable [] (r"__x").data =
      .error (.invalidVariableName (r"__x").data)
    ∧ core_bang [] Value.vnone (.byName (r"__x").data) =
        .error (.invalidVariableName (r"__x").data)
    ∧ core_at [] (.byName (r"__x").data) =
        .error (.invalidVariableName (r"__x").data)
    ∧ core_bang_at [] Value.vnone (.byName (r"__x").data) =
        .error (.invalidVariableName (r"__x").data)
    ∧ ∃ bad, startsWithDunder bad = true
        ∧ core_VARIABLES [] ([] ++ (r"__x").data :: []) =
            .error (.invalidVariableName bad) :=
  C4_core_words_reject_dunder_names (r"__x").data [] Value.vnone [] [] (by decide)


/-- C5: memo words.  The general part works over any wrapped word: a memo
whose cache is filled pushes the cache without any budget to run the body
(fuel 1 — so the body cannot have run); a memo whose cache is empty runs
the body once, pops the result into the cache and pushes it; the `!` word
re-runs the body and caches without pushing; the `!@` word re-runs and
pushes.  The concrete part replays `@: K 5 7 ; K K` (body runs once:
residual 5 appears once, cached 7 pushed twice), `@: K 5 7 ; K K!`
(refresh, no push) and `@: K 5 7 ; K K!@` (refresh and push). -/
theorem C5_memo_semantics (g : Nat) (tok : TokState) (s : Interp) (mid : Nat)
    (n n1 n2 : List Char) (l : Option Loc) (mr : MemoRec) (sw : Interp) (v : Value)
    (sw2 : Interp) (mr2 : MemoRec)
    (h1 : s.memoHeap.get? mid = some mr)
    (h2 : mr.hasValue = false)
    (h3 : exec_word g tok mr.word s = (sw, none))
    (h4 : stack_pop tok sw = .ok (v, sw2))
    (h5 : sw2.memoHeap.get? mid = some mr2) :
    exec_word (g + 2) tok (.memoWord mid n l) s
      = (stack_push v { sw2 with
          memoHeap := sw2.memoHeap.set mid { mr2 with hasValue := true, value := v } }, none)
    ∧ (∀ (s1 : Interp) (mr3 : MemoRec), s1.memoHeap.get? mid = some mr3 →
        mr3.hasValue = true →
        exec_word 1 tok (.memoWord mid n l) s1 = (stack_push mr3.value s1, none))
    ∧ exec_word (g + 2) tok (.memoBangWord mid n1 l) s
      = ({ sw2 with
          memoHeap := sw2.memoHeap.set mid { mr2 with hasValue := true, value := v } }, none)
    ∧ exec_word (g + 2) tok (.memoBangAtWord mid n2 l) s
      = (stack_push v { sw2 with
          memoHeap := sw2.memoHeap.set mid { mr2 with hasValue := true, value := v } }, none)
    ∧ (interp_run 40 c5aSrc freshInterp).1.stack = [.vint 5, .vint 7, .vint 7]
    ∧ (interp_run 40 c5bSrc freshInterp).1.stack = [.vint 5, .vint 7, .vint 5]
    ∧ (interp_run 40 c5cSrc freshInterp).1.stack = [.vint 5, .vint 7, .vint 5, .vint 7] := by
  obtain ⟨hlt, -⟩ := List.get?_eq_some.mp h5
  have hset : (sw2.memoHeap.set mid { mr2 with hasValue := true, value := v }).get? mid
      = some { mr2 with hasValue := true, value := v } :=
    List.get?_set_eq_of_lt _ hlt
  have hrefresh : memo_refresh (g + 1) tok mid s
      = ({ sw2 with
          memoHeap := sw2.memoHeap.set mid { mr2 with hasValue := true, value := v } }, none) := by
    rw [show g + 1 = g + 1 from rfl]
    simp only [memo_refresh, h1, h3, h4, h5]
  have hruna : run_loop 40 (initTokState c5aSrc 1 1 0 none) freshInterp
      = (c5aSF, c5aTokF, c5aErr) := by
      calc run_loop 40 (initTokState c5aSrc 1 1 0 none) freshInterp
          = run_loop 39 c5aTok1 c5aS1 :=
            run_loop_step 39 _ _ ({ type := Forthic.TokenType.startMemo, string := ['K'], location := { source := none, line := 1, column := 4, startPos := 3, endPos := 4 } }) _ _ (by rfl) (by rfl) (by decide)
        _ = run_loop 38 c5aTok2 c5aS2 :=
            run_loop_step 38 _ _ ({ type := Forthic.TokenType.word, string := ['5'], location := { source := none, line := 1, column := 6, startPos := 5, endPos := 6 } }) _ _ (by rfl) (by rfl) (by decide)
        _ = run_loop 37 c5aTok3 c5aS3 :=
            run_loop_step 37 _ _ ({ type := Forthic.TokenType.word, string := ['7'], location := { source := none, line := 1, column := 8, startPos := 7, endPos := 8 } }) _ _ (by rfl) (by rfl) (by decide)
        _ = run_loop 36 c5aTok4 c5aS4 :=
            run_loop_step 36 _ _ ({ type := Forthic.TokenType.endDef, string := [';'], location := { source := none, line := 1, column := 10, startPos := 9, endPos := 10 } }) _ _ (by rfl) (by rfl) (by decide)
        _ = run_loop 35 c5aTok5 c5aS5 :=
            run_loop_step 35 _ _ ({ type := Forthic.TokenType.word, string := ['K'], location := { source := none, line := 1, column := 12, startPos := 11, endPos := 12 } }) _ _ (by rfl) (by rfl) (by decide)
        _ = run_loop 34 c5aTok6 c5aS6 :=
            run_loop_step 34 _ _ ({ type := Forthic.TokenType.word, string := ['K'], location := { source := none, line := 1, column := 14, startPos := 13, endPos := 14 } }) _ _ (by rfl) (by rfl) (by decide)
        _ = (c5aSF, c5aTokF, c5aErr) :=
            run_loop_stop_eos 33 _ _ ({ type := Forthic.TokenType.eos, string := [], location := { source := none, line := 1, column := 14, startPos := 13, endPos := 13 } }) _ _ (by rfl) (by rfl) (by rfl)
  have hrunb : run_loop 40 (initTokState c5bSrc 1 1 0 none) freshInterp
      = (c5bSF, c5bTokF, c5bErr) := by
      calc run_loop 40 (initTokState c5bSrc 1 1 0 none) freshInterp
          = run_loop 39 c5bTok1 c5bS1 :=
            run_loop_step 39 _ _ ({ type := Forthic.TokenType.startMemo, string := ['K'], location := { source := none, line := 1, column := 4, startPos := 3, endPos := 4 } }) _ _ (by rfl) (by rfl) (by decide)
        _ = run_loop 38 c5bTok2 c5bS2 :=
            run_loop_step 38 _ _ ({ type := Forthic.TokenType.word, string := ['5'], location := { source := none, line := 1, column := 6, startPos := 5, endPos := 6 } }) _ _ (by rfl) (by rfl) (by decide)
        _ = run_loop 37 c5bTok3 c5bS3 :=
            run_loop_step 37 _ _ ({ type := Forthic.TokenType.word, string := ['7'], location := { source := none, line := 1, column := 8, startPos := 7, endPos := 8 } }) _ _ (by rfl) (by rfl) (by decide)
        _ = run_loop 36 c5bTok4 c5bS4 :=
            run_loop_step 36 _ _ ({ type := Forthic.TokenType.endDef, string := [';'], location := { source := none, line := 1, column := 10, startPos := 9, endPos := 10 } }) _ _ (by rfl) (by rfl) (by decide)
        _ = run_loop 35 c5bTok5 c5bS5 :=
            run_loop_step 35 _ _ ({ type := Forthic.TokenType.word, string := ['K'], location := { source := none, line := 1, column := 12, startPos := 11, endPos := 12 } }) _ _ (by rfl) (by rfl) (by decide)
        _ = run_loop 34 c5bTok6 c5bS6 :=
            run_loop_step 34 _ _ ({ type := Forthic.TokenType.word, string := ['K', '!'], location := { source := none, line := 1, column := 14, startPos := 13, endPos := 15 } }) _ _ (by rfl) (by rfl) (by decide)
        _ = (c5bSF, c5bTokF, c5bErr) :=
            run_loop_stop_eos 33 _ _ ({ type := Forthic.TokenType.eos, string := [], location := { source := none, line := 1, column := 14, startPos := 13, endPos := 13 } }) _ _ (by rfl) (by rfl) (by rfl)
  have hrunc : run_loop 40 (initTokState c5cSrc 1 1 0 none) freshInterp
      = (c5cSF, c5cTokF, c5cErr) := by
      calc run_loop 40 (initTokState c5cSrc 1 1 0 none) freshInterp
          = run_loop 39 c5cTok1 c5cS1 :=
            run_loop_step 39 _ _ ({ type := Forthic.TokenType.startMemo, string := ['K'], location := { source := none, line := 1, column := 4, startPos := 3, endPos := 4 } }) _ _ (by rfl) (by rfl) (by decide)
        _ = run_loop 38 c5cTok2 c5cS2 :=
            run_loop_step 38 _ _ ({ type := Forthic.TokenType.word, string := ['5'], location := { source := none, line := 1, column := 6, startPos := 5, endPos := 6 } }) _ _ (by rfl) (by rfl) (by decide)
        _ = run_loop 37 c5cTok3 c5cS3 :=
            run_loop_step 37 _ _ ({ type := Forthic.TokenType.word, string := ['7'], location := { source := none, line := 1, column := 8, startPos := 7, endPos := 8 } }) _ _ (by rfl) (by rfl) (by decide)
        _ = run_loop 36 c5cTok4 c5cS4 :=
            run_loop_step 36 _ _ ({ type := Forthic.TokenType.endDef, string := [';'], location := { source := none, line := 1, column := 10, startPos := 9, endPos := 10 } }) _ _ (by rfl) (by rfl) (by decide)
        _ = run_loop 35 c5cTok5 c5cS5 :=
            run_loop_step 35 _ _ ({ type := Forthic.TokenType.word, string := ['K'], location := { source := none, line := 1, column := 12, startPos := 11, endPos := 12 } }) _ _ (by rfl) (by rfl) (by decide)
        _ = run_loop 34 c5cTok6 c5cS6 :=
            run_loop_step 34 _ _ ({ type := Forthic.TokenType.word, string := ['K', '!', '@'], location := { source := none, line := 1, column := 14, startPos := 13, endPos := 16 } }) _ _ (by rfl) (by rfl) (by decide)
        _ = (c5cSF, c5cTokF, c5cErr) :=
            run_loop_stop_eos 33 _ _ ({ type := Forthic.TokenType.eos, string := [], location := { source := none, line := 1, column := 14, startPos := 13, endPos := 13 } }) _ _ (by rfl) (by rfl) (by rfl)
  refine ⟨?_, ?_, ?_, ?_, ?_, ?_, ?_⟩
  · rw [show g + 2 = (g + 1) + 1 from rfl]
    simp only [exec_word, h1, h2, Bool.false_eq_true, if_false, hrefresh, hset]
  · intro s1 mr3 hm3 hv3
    simp only [exec_word, hm3, hv3, if_true]
  · rw [show g + 2 = (g + 1) + 1 from rfl]
    simp only [exec_word, hrefresh]
  · rw [show g + 2 = (g + 1) + 1 from rfl]
    simp only [exec_word, hrefresh, hset]
  · simp only [interp_run, hruna]; rfl
  · simp only [interp_run, hrunb]; rfl
  · simp only [interp_run, hrunc]; rfl


/-- C5 witness: the first-execution law at a concrete one-entry memo heap. -/
theorem C5_memo_semantics_witness :
    exec_word 3 (initTokState [] 1 1 0 none) (.memoWord 0 ['K'] none) c5WitS
      = (stack_push (.vint 5) { c5WitSw2 with
          memoHeap := c5WitSw2.memoHeap.set 0
            ⟨.pushValue ['5'] (.vint 5) none, true, .vint 5⟩ }, none) :=
  (C5_memo_semantics 1 (initTokState [] 1 1 0 none) c5WitS 0 ['K'] ['K'] ['K'] none
    ⟨.pushValue ['5'] (.vint 5) none, false, .vnone⟩ c5WitSw (.vint 5) c5WitSw2
    ⟨.pushValue ['5'] (.vint 5) none, false, .vnone⟩ rfl rfl rfl rfl rfl).1

/-- C6: inside `DefinitionWord.execute` any error raised by a sub-word is
wrapped into a word-execution-error that keeps the inner error, the outer
tokenizer's current token location (call site) and the sub-word's recorded
location (definition site); a succeeding sub-word just advances.  The
concrete scenario defines `: ADD + ;` on line 1 and runs `1 ADD 2 *` on
line 2: the propagated word-execution-error wraps the `+` stack-underflow
with definition-location on line 1 and call-location on line 2. -/
theorem C6_definition_word_dual_locations :
    (∀ (fuel : Nat) (tok : TokState) (name : List Char) (w : WordVal)
        (rest : List WordVal) (s s1 : Interp) (e : Err),
        exec_word fuel tok w s = (s1, some e) →
        exec_subs (fuel + 1) tok name (w :: rest) s
          = (s1, some (.wordExecution name e (get_token_location tok) (wordLoc w))))
    ∧ (∀ (fuel : Nat) (tok : TokState) (name : List Char) (w : WordVal)
        (rest : List WordVal) (s s1 : Interp),
        exec_word fuel tok w s = (s1, none) →
        exec_subs (fuel + 1) tok name (w :: rest) s = exec_subs fuel tok name rest s1)
    ∧ (interp_run 40 c6Src c6Interp0).2
        = some (.wordExecution (r"ADD").data
            (.stackUnderflow (some c6CallLoc)) c6CallLoc (some c6DefLoc))
    ∧ c6DefLoc.line = 1 ∧ c6CallLoc.line = 2 := by
  have hrun : run_loop 40 (initTokState c6Src 1 1 0 none) c6Interp0
      = (c6RSF, c6RTokF, c6RErr) := by
      calc run_loop 40 (initTokState c6Src 1 1 0 none) c6Interp0
          = run_loop 39 c6RTok1 c6RS1 :=
            run_loop_step 39 _ _ ({ type := Forthic.TokenType.startDef, string := ['A', 'D', 'D'], location := { source := none, line := 1, column := 3, startPos := 2, endPos := 5 } }) _ _ (by rfl) (by rfl) (by decide)
        _ = run_loop 38 c6RTok2 c6RS2 :=
            run_loop_step 38 _ _ ({ type := Forthic.TokenType.word, string := ['+'], location := { source := none, line := 1, column := 7, startPos := 6, endPos := 7 } }) _ _ (by rfl) (by rfl) (by decide)
        _ = run_loop 37 c6RTok3 c6RS3 :=
            run_loop_step 37 _ _ ({ type := Forthic.TokenType.endDef, string := [';'], location := { source := none, line := 1, column := 9, startPos := 8, endPos := 9 } }) _ _ (by rfl) (by rfl) (by decide)
        _ = run_loop 36 c6RTok4 c6RS4 :=
            run_loop_step 36 _ _ ({ type := Forthic.TokenType.word, string := ['1'], location := { source := none, line := 2, column := 1, startPos := 10, endPos := 11 } }) _ _ (by rfl) (by rfl) (by decide)
        _ = (c6RSF, c6RTokF, c6RErr) :=
            run_loop_stop_err 35 _ _ ({ type := Forthic.TokenType.word, string := ['A', 'D', 'D'], location := { source := none, line := 2, column := 3, startPos := 12, endPos := 15 } }) _ _ _ (by rfl) (by rfl)
  refine ⟨?_, ?_, ?_, rfl, rfl⟩
  · intro fuel tok name w rest s s1 e hfail
    simp only [exec_subs, hfail]
  · intro fuel tok name w rest s s1 hok
    simp only [exec_subs, hok]
  · simp only [interp_run, hrun]
    rfl

/-- C6 witness: the `+` word failing on a one-element stack, wrapped with
its recorded line-1 location and the tokenizer's line-2 location. -/
theorem C6_definition_word_dual_locations_witness :
    exec_subs 2 c6RTok4 (r"ADD").data [.plusWord (some c6DefLoc)] c6WitS
      = (c6WitS1, some (.wordExecution (r"ADD").data
          (.stackUnderflow (some (get_token_location c6RTok4)))
          (get_token_location c6RTok4) (some c6DefLoc))) :=
  C6_definition_word_dual_locations.1 1 c6RTok4 (r"ADD").data
    (.plusWord (some c6DefLoc)) [] c6WitS c6WitS1
    (.stackUnderflow (some (get_token_location c6RTok4))) rfl

/-- C7: a host-handler word's error handlers are consulted in registration
order; an intentional-stop error propagates without consulting any handler
(the word's result does not depend on the handler list at all); if every
handler raises, the original error propagates; the first handler that
returns without raising suppresses the error, and the handlers after it
are never consulted (the result does not depend on them). -/
theorem C7_error_handler_order {σ : Type} (hostHandler : σ → σ × Option HostErr)
    (s : σ) :
    (∀ (s1 : σ) (handlers : List (HostErr → σ → σ × Bool)),
        hostHandler s = (s1, some .intentionalStop) →
        module_word_execute hostHandler handlers s = (s1, some .intentionalStop))
    ∧ (∀ (s1 : σ) (tag : Nat) (handlers : List (HostErr → σ → σ × Bool)),
        hostHandler s = (s1, some (.err tag)) →
        (∀ g ∈ handlers, ∀ st, (g (.err tag) st).2 = true) →
        module_word_execute hostHandler handlers s
          = ((handlers.foldl (fun acc g => (g (.err tag) acc).1) s1), some (.err tag)))
    ∧ (∀ (s1 : σ) (tag : Nat) (pre post post' : List (HostErr → σ → σ × Bool))
        (h : HostErr → σ → σ × Bool),
        hostHandler s = (s1, some (.err tag)) →
        (∀ g ∈ pre, ∀ st, (g (.err tag) st).2 = true) →
        (∀ st, (h (.err tag) st).2 = false) →
        module_word_execute hostHandler (pre ++ h :: post) s
            = ((h (.err tag) (pre.foldl (fun acc g => (g (.err tag) acc).1) s1)).1, none)
          ∧ module_word_execute hostHandler (pre ++ h :: post) s
              = module_word_execute hostHandler (pre ++ h :: post') s) := by
  have hall : ∀ (e : HostErr) (handlers : List (HostErr → σ → σ × Bool)) (st : σ),
      (∀ g ∈ handlers, ∀ st1, (g e st1).2 = true) →
      try_error_handlers handlers e st
        = (handlers.foldl (fun acc g => (g e acc).1) st, false) := by
    intro e handlers
    induction handlers with
    | nil => intro st _; rfl
    | cons g rest ih =>
      intro st hs
      have hg := hs g (by simp) st
      simp only [try_error_handlers, List.foldl_cons]
      rw [show g e st = ((g e st).1, (g e st).2) from rfl, hg]
      simp only [if_true]
      exact ih (g e st).1 (fun g1 hg1 st1 => hs g1 (by simp [hg1]) st1)
  have hfirst : ∀ (e : HostErr) (pre post : List (HostErr → σ → σ × Bool))
      (h : HostErr → σ → σ × Bool) (st : σ),
      (∀ g ∈ pre, ∀ st1, (g e st1).2 = true) →
      (∀ st1, (h e st1).2 = false) →
      try_error_handlers (pre ++ h :: post) e st
        = ((h e (pre.foldl (fun acc g => (g e acc).1) st)).1, true) := by
    intro e pre
    induction pre with
    | nil =>
      intro post h st _ hh
      simp only [List.nil_append, try_error_handlers, List.foldl_nil]
      rw [show h e st = ((h e st).1, (h e st).2) from rfl, hh]
      simp
    | cons g rest ih =>
      intro post h st hs hh
      have hg := hs g (by simp) st
      simp only [List.cons_append, try_error_handlers, List.foldl_cons]
      rw [show g e st = ((g e st).1, (g e st).2) from rfl, hg]
      simp only [if_true]
      exact ih post h (g e st).1 (fun g1 hg1 st1 => hs g1 (by simp [hg1]) st1) hh
  refine ⟨?_, ?_, ?_⟩
  · intro s1 handlers hstop
    simp only [module_word_execute, hstop]
  · intro s1 tag handlers herr hs
    simp only [module_word_execute, herr, hall (.err tag) handlers s1 hs]
    simp
  · intro s1 tag pre post post1 h herr hpre hh
    constructor
    · simp only [module_word_execute, herr, hfirst (.err tag) pre post h s1 hpre hh]
      simp
    · simp only [module_word_execute, herr, hfirst (.err tag) pre post h s1 hpre hh,
        hfirst (.err tag) pre post1 h s1 hpre hh]

/-- C7 witness: over `σ = Nat`, with one always-raising handler followed
by one succeeding handler and an unconsulted third. -/
theorem C7_error_handler_order_witness :
    module_word_execute (fun n => (n + 1, some (.err 7)))
      [fun _ n => (n * 2, true), fun _ n => (n + 10, false), fun _ n => (n * 100, true)] 0
      = ((fun (_ : HostErr) (n : Nat) => (n + 10, false)) (.err 7)
          ([fun (_ : HostErr) (n : Nat) => (n * 2, true)].foldl
            (fun acc g => (g (.err 7) acc).1) 1) |>.1, none) :=
  ((C7_error_handler_order (fun n => (n + 1, some (.err 7))) 0).2.2 1 7
    [fun _ n => (n * 2, true)] [fun _ n => (n * 100, true)] [fun _ n => (n * 100, true)]
    (fun _ n => (n + 10, false)) rfl
    (by intro g hg st; simp at hg; subst hg; rfl)
    (fun st => rfl)).1


/-- Heads survive appending on the right to a non-empty list. -/
theorem head?_append_right {α : Type} (l : List α) (x : α) (h : l ≠ []) :
    (l ++ [x]).head? = l.head? := by
  cases l with
  | nil => exact absurd rfl h
  | cons a t => rfl

/-- Dropping the last element empties the list or keeps its head. -/
theorem head?_dropLast {α : Type} (l : List α) :
    l.dropLast = [] ∨ l.dropLast.head? = l.head? := by
  cases l with
  | nil => exact .inl rfl
  | cons a t =>
    cases t with
    | nil => exact .inl rfl
    | cons b t2 => exact .inr rfl

/-- `module_stack_push` preserves the invariant when pushing the
app-module or pushing onto a non-empty stack. -/
theorem ModInv_push (s : Interp) (mid : Nat)
    (h : ModInv s) (hcase : mid = 0 ∨ s.moduleStack ≠ []) :
    ModInv (module_stack_push mid s) := by
  obtain ⟨hstk, hheap⟩ := h
  refine ⟨?_, hheap⟩
  rcases hcase with rfl | hne
  · rcases hstk with hempty | hhead
    · rw [module_stack_push, hempty]
      exact .inr rfl
    · right
      have hne : s.moduleStack ≠ [] := by
        intro hc; rw [hc] at hhead; exact Option.noConfusion hhead
      rw [module_stack_push]
      show (s.moduleStack ++ [0]).head? = some 0
      rw [head?_append_right _ _ hne]
      exact hhead
  · right
    rcases hstk with hempty | hhead
    · exact absurd hempty hne
    · rw [module_stack_push]
      show (s.moduleStack ++ [mid]).head? = some 0
      rw [head?_append_right _ _ hne]
      exact hhead

/-- `module_stack_pop` preserves the invariant. -/
theorem ModInv_pop (s : Interp) (mid : Nat) (s1 : Interp)
    (h : ModInv s) (hpop : module_stack_pop s = .ok (mid, s1)) : ModInv s1 := by
  obtain ⟨hstk, hheap⟩ := h
  unfold module_stack_pop at hpop
  cases hlast : s.moduleStack.getLast? with
  | none => rw [hlast] at hpop; exact Except.noConfusion hpop
  | some m =>
    rw [hlast] at hpop
    injection hpop with hpair
    injection hpair with _ hs1
    subst hs1
    refine ⟨?_, hheap⟩
    rcases head?_dropLast s.moduleStack with hnil | hhd
    · exact .inl hnil
    · rcases hstk with hempty | hhead
      · exact .inl (by rw [hempty]; rfl)
      · exact .inr (by rw [hhd]; exact hhead)

/-- State changes that leave the module stack and heap alone preserve the
invariant. -/
theorem ModInv_congr (s s1 : Interp)
    (hstk : s1.moduleStack = s.moduleStack) (hheap : s1.moduleHeap = s.moduleHeap)
    (h : ModInv s) : ModInv s1 := by
  obtain ⟨h1, h2⟩ := h
  exact ⟨by rw [hstk]; exact h1, by rw [hheap]; exact h2⟩

/-- `updateModule` with a name-preserving update keeps the invariant. -/
theorem ModInv_updateModule (s : Interp) (mid : Nat) (f : ModuleRec → ModuleRec)
    (hf : ∀ m, (f m).name = m.name) (h : ModInv s) : ModInv (updateModule s mid f) := by
  obtain ⟨hstk, hheap⟩ := h
  refine ⟨hstk, ?_⟩
  unfold updateModule
  cases hget : s.moduleHeap.get? mid with
  | none => exact hheap
  | some m =>
    simp only [hget]
    by_cases hmid : mid = 0
    · subst hmid
      have hset : (s.moduleHeap.set 0 (f m)).get? 0 = some (f m) := by
        obtain ⟨hlt, -⟩ := List.get?_eq_some.mp hget
        exact List.get?_set_eq_of_lt _ hlt
      rw [hget] at hheap
      show ((s.moduleHeap.set 0 (f m)).get? 0).map ModuleRec.name = some []
      rw [hset]
      show some ((f m).name) = some []
      rw [hf m]
      exact hheap
    · have hset : (s.moduleHeap.set mid (f m)).get? 0 = s.moduleHeap.get? 0 :=
        List.get?_set_ne _ _ hmid
      show ((s.moduleHeap.set mid (f m)).get? 0).map ModuleRec.name = some []
      rw [hset]
      exact hheap

/-- `stack_pop` touches only the data stack and the string location. -/
theorem stack_pop_frame (tok : TokState) (s : Interp) (v : Value) (s1 : Interp)
    (h : stack_pop tok s = .ok (v, s1)) :
    s1.moduleStack = s.moduleStack ∧ s1.moduleHeap = s.moduleHeap
      ∧ s1.memoHeap = s.memoHeap := by
  unfold stack_pop at h
  by_cases hlen : s.stack.length = 0
  · simp [hlen] at h
  · simp only [hlen, if_false] at h
    cases hlast : s.stack.getLast? with
    | none => rw [hlast] at h; exact Except.noConfusion h
    | some v0 =>
      rw [hlast] at h
      cases v0 <;> simp_all <;> obtain ⟨-, rfl⟩ := h <;> exact ⟨rfl, rfl, rfl⟩

/-- `end_array_loop` only pops and records string locations. -/
theorem end_array_loop_frame (fuel : Nat) :
    ∀ (tok : TokState) (s : Interp) (acc : List Value),
      (end_array_loop fuel tok s acc).1.moduleStack = s.moduleStack
      ∧ (end_array_loop fuel tok s acc).1.moduleHeap = s.moduleHeap := by
  induction fuel with
  | zero => intro tok s acc; exact ⟨rfl, rfl⟩
  | succ n ih =>
    intro tok s acc
    unfold end_array_loop
    cases hpop : stack_pop tok s with
    | error e => exact ⟨rfl, rfl⟩
    | ok p =>
      obtain ⟨v, s1⟩ := p
      obtain ⟨hms, hmh, -⟩ := stack_pop_frame tok s v s1 hpop
      cases v with
      | vtoken t =>
        by_cases ht : t.type = .startArray
        · simp only [ht, if_true]
          exact ⟨hms, hmh⟩
        · simp only [ht, if_false]
          obtain ⟨h1, h2⟩ := ih tok s1 (acc ++ [.vtoken t])
          exact ⟨h1.trans hms, h2.trans hmh⟩
      | vint m => obtain ⟨h1, h2⟩ := ih tok s1 (acc ++ [.vint m]); exact ⟨h1.trans hms, h2.trans hmh⟩
      | vfloat l => obtain ⟨h1, h2⟩ := ih tok s1 (acc ++ [.vfloat l]); exact ⟨h1.trans hms, h2.trans hmh⟩
      | vbool b => obtain ⟨h1, h2⟩ := ih tok s1 (acc ++ [.vbool b]); exact ⟨h1.trans hms, h2.trans hmh⟩
      | vstr l => obtain ⟨h1, h2⟩ := ih tok s1 (acc ++ [.vstr l]); exact ⟨h1.trans hms, h2.trans hmh⟩
      | vposStr l loc => obtain ⟨h1, h2⟩ := ih tok s1 (acc ++ [.vposStr l loc]); exact ⟨h1.trans hms, h2.trans hmh⟩
      | vdate y m d => obtain ⟨h1, h2⟩ := ih tok s1 (acc ++ [.vdate y m d]); exact ⟨h1.trans hms, h2.trans hmh⟩
      | vtime hh mm => obtain ⟨h1, h2⟩ := ih tok s1 (acc ++ [.vtime hh mm]); exact ⟨h1.trans hms, h2.trans hmh⟩
      | vdatetime dt => obtain ⟨h1, h2⟩ := ih tok s1 (acc ++ [.vdatetime dt]); exact ⟨h1.trans hms, h2.trans hmh⟩
      | vlist vs => obtain ⟨h1, h2⟩ := ih tok s1 (acc ++ [.vlist vs]); exact ⟨h1.trans hms, h2.trans hmh⟩
      | vvarHandle m nm => obtain ⟨h1, h2⟩ := ih tok s1 (acc ++ [.vvarHandle m nm]); exact ⟨h1.trans hms, h2.trans hmh⟩
      | vnone => obtain ⟨h1, h2⟩ := ih tok s1 (acc ++ [.vnone]); exact ⟨h1.trans hms, h2.trans hmh⟩


/-- `plus_handler` touches only the data stack and string location. -/
theorem plus_handler_frame (tok : TokState) (s : Interp) :
    (plus_handler tok s).1.moduleStack = s.moduleStack
    ∧ (plus_handler tok s).1.moduleHeap = s.moduleHeap := by
  unfold plus_handler
  cases hpop : stack_pop tok s with
  | error e => exact ⟨rfl, rfl⟩
  | ok p =>
    obtain ⟨b, s1⟩ := p
    obtain ⟨hms1, hmh1, -⟩ := stack_pop_frame tok s b s1 hpop
    cases b
    case vlist items =>
      try dsimp only
      cases hsum : sum_list items <;> simp only [hsum] <;> exact ⟨hms1, hmh1⟩
    all_goals
      try dsimp only
      cases hpop2 : stack_pop tok s1 with
      | error e => simp only [hpop2]; exact ⟨hms1, hmh1⟩
      | ok p2 =>
        obtain ⟨a, s2⟩ := p2
        obtain ⟨hms2, hmh2, -⟩ := stack_pop_frame tok s1 a s2 hpop2
        simp only [hpop2]
        cases hadd : addValues a _ <;> simp only [hadd] <;>
          exact ⟨hms2.trans hms1, hmh2.trans hmh1⟩

/-- A non-empty module stack is what `cur_module` succeeding means. -/
theorem cur_module_ne_nil (s : Interp) (cm : Nat) (h : cur_module s = some cm) :
    s.moduleStack ≠ [] := by
  intro hc
  rw [cur_module, hc] at h
  exact Option.noConfusion h

/-- `StartModuleWord.execute` preserves the module-stack invariant. -/
theorem ModInv_start_module (name : List Char) (s : Interp) (h : ModInv s) :
    ModInv (start_module_execute name s).1 := by
  unfold start_module_execute
  by_cases hname : name = []
  · simp only [hname, if_true]
    exact ModInv_push s 0 h (.inl rfl)
  · simp only [hname, if_false]
    cases hcm : cur_module s with
    | none => exact h
    | some cm =>
      try dsimp only
      cases hgm : getModule s cm with
      | none => exact h
      | some m =>
        try dsimp only
        cases hfind : module_find_module m name with
        | some mid =>
          exact ModInv_push s mid h (.inr (cur_module_ne_nil s cm hcm))
        | none =>
          try dsimp only
          have hne := cur_module_ne_nil s cm hcm
          obtain ⟨hstk, hheap⟩ := h
          have hlen : 0 < s.moduleHeap.length := by
            cases hget : s.moduleHeap.get? 0 with
            | none => rw [hget] at hheap; exact Option.noConfusion hheap
            | some m0 => exact (List.get?_eq_some.mp hget).1
          have h1 : ModInv { s with moduleHeap := s.moduleHeap ++ [freshModule name] } := by
            refine ⟨hstk, ?_⟩
            show ((s.moduleHeap ++ [freshModule name]).get? 0).map ModuleRec.name = some []
            rw [List.get?_append hlen]
            exact hheap
          have h2 := ModInv_updateModule _ cm
            (fun mm => module_register_module mm name name s.moduleHeap.length)
            (fun mm => rfl) h1
          by_cases hm0 : m.name = []
          · simp only [hm0, if_true]
            refine ModInv_push _ _ (ModInv_congr _ _ rfl rfl h2) (.inr ?_)
            simpa [updateModule] using hne
          · simp only [hm0, if_false]
            refine ModInv_push _ _ h2 (.inr ?_)
            simpa [updateModule] using hne

/-- Word execution, sub-word sequencing and memo refresh preserve the
module-stack invariant, for every fuel. -/
theorem ModInv_exec (fuel : Nat) :
    (∀ (tok : TokState) (w : WordVal) (s : Interp), ModInv s →
      ModInv (exec_word fuel tok w s).1)
    ∧ (∀ (tok : TokState) (name : List Char) (subs : List WordVal) (s : Interp),
        ModInv s → ModInv (exec_subs fuel tok name subs s).1)
    ∧ (∀ (tok : TokState) (mid : Nat) (s : Interp), ModInv s →
        ModInv (memo_refresh fuel tok mid s).1) := by
  induction fuel with
  | zero => exact ⟨fun _ _ s h => h, fun _ _ _ s h => h, fun _ _ s h => h⟩
  | succ n ih =>
    obtain ⟨ihw, ihs, ihr⟩ := ih
    have hrefresh : ∀ (tok : TokState) (mid : Nat) (s : Interp), ModInv s →
        ModInv (memo_refresh (n + 1) tok mid s).1 := by
      intro tok mid s h
      simp only [memo_refresh]
      cases hget : s.memoHeap.get? mid with
      | none => exact h
      | some mr =>
        try dsimp only
        cases hexec : exec_word n tok mr.word s with
        | mk s1 e1 =>
        have h1 : ModInv s1 := by
          have := ihw tok mr.word s h
          rw [hexec] at this
          exact this
        try dsimp only
        cases e1 with
        | some e => exact h1
        | none =>
          try dsimp only
          cases hpop : stack_pop tok s1 with
          | error e => exact h1
          | ok p =>
            obtain ⟨v, s2⟩ := p
            obtain ⟨hms, hmh, -⟩ := stack_pop_frame tok s1 v s2 hpop
            have h2 : ModInv s2 := ModInv_congr s1 s2 hms hmh h1
            try dsimp only
            cases hget2 : s2.memoHeap.get? mid with
            | none => exact h2
            | some mr2 => exact ModInv_congr s2 _ rfl rfl h2
    refine ⟨?_, ?_, hrefresh⟩
    · intro tok w s h
      cases w with
      | pushValue nm v l =>
        simp only [exec_word]
        exact ModInv_congr s _ rfl rfl h
      | definition nm subs l =>
        simp only [exec_word]
        exact ihs tok nm subs s h
      | startModule nm l =>
        simp only [exec_word]
        exact ModInv_start_module nm s h
      | endModule l =>
        simp only [exec_word]
        cases hpop : module_stack_pop s with
        | error e => exact h
        | ok p =>
          obtain ⟨mid, s1⟩ := p
          try dsimp only
          exact ModInv_pop s mid s1 h hpop
      | endArray l =>
        simp only [exec_word]
        cases hloop : end_array_loop n tok s [] with
        | mk s1 r =>
        have hframe := end_array_loop_frame n tok s []
        rw [hloop] at hframe
        have h1 : ModInv s1 := ModInv_congr s s1 hframe.1 hframe.2 h
        try dsimp only
        cases r with
        | ok items => exact ModInv_congr s1 _ rfl rfl h1
        | error e => exact h1
      | memoWord mid nm l =>
        simp only [exec_word]
        cases hget : s.memoHeap.get? mid with
        | none => exact h
        | some mr =>
          try dsimp only
          by_cases hv : mr.hasValue
          · simp only [hv, if_true]
            exact ModInv_congr s _ rfl rfl h
          · simp only [hv, Bool.false_eq_true, if_false]
            cases hr : memo_refresh n tok mid s with
            | mk s1 e1 =>
            have h1 : ModInv s1 := by
              have := ihr tok mid s h
              rw [hr] at this
              exact this
            try dsimp only
            cases e1 with
            | some e => exact h1
            | none =>
              try dsimp only
              cases hget2 : s1.memoHeap.get? mid with
              | some mr2 => exact ModInv_congr s1 _ rfl rfl h1
              | none => exact h1
      | memoBangWord mid nm l =>
        simp only [exec_word]
        cases hr : memo_refresh n tok mid s with
        | mk s1 e1 =>
        have h1 : ModInv s1 := by
          have := ihr tok mid s h
          rw [hr] at this
          exact this
        try dsimp only
        exact h1
      | memoBangAtWord mid nm l =>
        simp only [exec_word]
        cases hr : memo_refresh n tok mid s with
        | mk s1 e1 =>
        have h1 : ModInv s1 := by
          have := ihr tok mid s h
          rw [hr] at this
          exact this
        try dsimp only
        cases e1 with
        | some e => exact h1
        | none =>
          try dsimp only
          cases hget2 : s1.memoHeap.get? mid with
          | some mr2 => exact ModInv_congr s1 _ rfl rfl h1
          | none => exact h1
      | plusWord l =>
        simp only [exec_word]
        have hframe := plus_handler_frame tok s
        exact ModInv_congr s _ hframe.1 hframe.2 h
    · intro tok nm subs s h
      cases subs with
      | nil => simpa only [exec_subs] using h
      | cons w rest =>
        simp only [exec_subs]
        cases hexec : exec_word n tok w s with
        | mk s1 e1 =>
        have h1 : ModInv s1 := by
          have := ihw tok w s h
          rw [hexec] at this
          exact this
        try dsimp only
        cases e1 with
        | none => exact ihs tok nm rest s1 h1
        | some e => exact h1


/-- `_handle_word` preserves the module-stack invariant. -/
theorem ModInv_handle_word (fuel : Nat) (tok : TokState) (w : WordVal)
    (loc : Option Loc) (s : Interp) (h : ModInv s) :
    ModInv (handle_word fuel tok w loc s).1 := by
  unfold handle_word
  cases hc : s.isCompiling with
  | false =>
    cases hd : s.curDefinition <;> exact (ModInv_exec fuel).1 tok w s h
  | true =>
    cases hd : s.curDefinition with
    | none => exact (ModInv_exec fuel).1 tok w s h
    | some p =>
      obtain ⟨nm, ws⟩ := p
      exact ModInv_congr s _ rfl rfl h

/-- `_handle_token` preserves the module-stack invariant. -/
theorem ModInv_handle_token (fuel : Nat) (tok : TokState) (token : Token)
    (s : Interp) (h : ModInv s) : ModInv (handle_token fuel tok token s).1 := by
  unfold handle_token
  cases htype : token.type with
  | string => exact ModInv_handle_word fuel tok _ none s h
  | dotSymbol => exact ModInv_handle_word fuel tok _ none s h
  | comment => exact h
  | startArray => exact ModInv_handle_word fuel tok _ none s h
  | endArray => exact ModInv_handle_word fuel tok _ none s h
  | startModule =>
    try dsimp only
    cases hc : s.isCompiling with
    | false =>
      cases hd : s.curDefinition <;>
        exact (ModInv_exec fuel).1 tok _ s h
    | true =>
      cases hd : s.curDefinition with
      | none => exact (ModInv_exec fuel).1 tok _ s h
      | some p =>
        obtain ⟨nm, ws⟩ := p
        exact (ModInv_exec fuel).1 tok _ _ (ModInv_congr s _ rfl rfl h)
  | endModule =>
    try dsimp only
    cases hc : s.isCompiling with
    | false =>
      cases hd : s.curDefinition <;>
        exact (ModInv_exec fuel).1 tok _ s h
    | true =>
      cases hd : s.curDefinition with
      | none => exact (ModInv_exec fuel).1 tok _ s h
      | some p =>
        obtain ⟨nm, ws⟩ := p
        exact (ModInv_exec fuel).1 tok _ _ (ModInv_congr s _ rfl rfl h)
  | startDef =>
    by_cases hc : s.isCompiling = true
    · simp only [hc, if_true]
      exact h
    · simp only [hc, if_false]
      exact ModInv_congr s _ rfl rfl h
  | startMemo =>
    by_cases hc : s.isCompiling = true
    · simp only [hc, if_true]
      exact h
    · simp only [hc, if_false]
      exact ModInv_congr s _ rfl rfl h
  | endDef =>
    try dsimp only
    cases hc : s.isCompiling with
    | false => cases hd : s.curDefinition <;> exact h
    | true =>
      cases hd : s.curDefinition with
      | none => exact h
      | some p =>
        obtain ⟨nm, ws⟩ := p
        try dsimp only
        cases hcm : cur_module s with
        | none => exact h
        | some cm =>
          try dsimp only
          have hbase : ModInv { s with isCompiling := false } :=
            ModInv_congr s _ rfl rfl h
          by_cases hm : s.isMemoDefinition = true
          · simp only [hm, if_true]
            unfold add_memo_words
            exact ModInv_updateModule _ cm _ (fun m => rfl)
              (ModInv_congr _ _ rfl rfl hbase)
          · simp only [hm, if_false]
            unfold add_word
            exact ModInv_updateModule _ cm _ (fun m => rfl) hbase
  | word =>
    try dsimp only
    cases hf : find_word s token.string with
    | error e => exact h
    | ok w => exact ModInv_handle_word fuel tok w _ s h
  | eos =>
    by_cases hc : s.isCompiling = true
    · simp only [hc, if_true]
      exact h
    · simp only [hc, if_false]
      exact h

/-- The interpreter loop preserves the module-stack invariant. -/
theorem ModInv_run_loop (fuel : Nat) :
    ∀ (tok : TokState) (s : Interp), ModInv s → ModInv (run_loop fuel tok s).1 := by
  induction fuel with
  | zero => exact fun tok s h => h
  | succ n ih =>
    intro tok s h
    simp only [run_loop]
    cases hnext : next_token n tok with
    | error te => exact h
    | ok p =>
      obtain ⟨token, tok1⟩ := p
      try dsimp only
      have h1 : ModInv { s with prevToken := some token } :=
        ModInv_congr s _ rfl rfl h
      cases hht : handle_token n tok1 token { s with prevToken := some token } with
      | mk s2 e =>
      have h2 : ModInv s2 := by
        have := ModInv_handle_token n tok1 token { s with prevToken := some token } h1
        rw [hht] at this
        exact this
      try dsimp only
      cases e with
      | some err => exact h2
      | none =>
        try dsimp only
        by_cases heos : token.type = .eos
        · simp only [heos, if_true]
          exact h2
        · simp only [heos, if_false]
          exact ih tok1 s2 h2

/-- C3 (amended): from a fresh interpreter, after interpreting any source
text with any fuel, the module stack is either empty (reachable via an
unmatched END_MODULE popping the app-module) or has the app-module — heap
index 0, the module with the empty name — at its bottom; the current
module is by definition the top of the module stack. -/
theorem C3_module_stack_invariant (fuel : Nat) (src : List Char) (tz : TzInfo)
    (today : Nat × Nat × Nat) :
    ((interp_run fuel src (initInterp tz today)).1.moduleStack = []
      ∨ (interp_run fuel src (initInterp tz today)).1.moduleStack.head? = some 0)
    ∧ ((interp_run fuel src (initInterp tz today)).1.moduleHeap.get? 0).map
        ModuleRec.name = some []
    ∧ cur_module (interp_run fuel src (initInterp tz today)).1
        = (interp_run fuel src (initInterp tz today)).1.moduleStack.getLast? := by
  have hinit : ModInv (initInterp tz today) := ⟨.inr rfl, rfl⟩
  have hrun := ModInv_run_loop fuel (initTokState src 1 1 0 none)
    (initInterp tz today) hinit
  have hproj : (interp_run fuel src (initInterp tz today)).1
      = (run_loop fuel (initTokState src 1 1 0 none) (initInterp tz today)).1 := by
    unfold interp_run
    cases run_loop fuel (initTokState src 1 1 0 none) (initInterp tz today) with
    | mk s1 p => cases p with | mk tok1 e => rfl
  rw [hproj]
  exact ⟨hrun.1, hrun.2, rfl⟩

/-- C10: `Interpreter.stack_peek` indexes `len - 1` through the stack's
native list indexing, so on an empty stack it fails with the host
`IndexError` (from index −1) and never with stack-underflow — only
`stack_pop` raises stack-underflow on an empty stack, preferring the
active tokenizer's current token location. -/
theorem C10_stack_peek_never_underflows :
    (∀ s : Interp, s.stack = [] → stack_peek s = .error .hostIndexError)
    ∧ (∀ (s : Interp) (loc : Option Loc),
        stack_peek s ≠ .error (.stackUnderflow loc))
    ∧ (∀ (s : Interp) (tok : TokState), s.stack = [] →
        stack_pop tok s = .error (.stackUnderflow (some (get_token_location tok)))) := by
  refine ⟨?_, ?_, ?_⟩
  · intro s hs
    simp [stack_peek, pyListGet, hs]
  · intro s loc
    unfold stack_peek
    cases hpy : pyListGet s.stack ((s.stack.length : Int) - 1) with
    | none => simp
    | some top => cases top <;> simp
  · intro s tok hs
    simp [stack_pop, hs]

/-- C10 witness: the fresh interpreter's empty stack. -/
theorem C10_stack_peek_never_underflows_witness :
    stack_peek freshInterp = .error .hostIndexError
    ∧ stack_pop (initTokState [] 1 1 0 none) freshInterp =
        .error (.stackUnderflow (some (get_token_location (initTokState [] 1 1 0 none)))) :=
  ⟨C10_stack_peek_never_underflows.1 freshInterp rfl,
   C10_stack_peek_never_underflows.2.2 freshInterp (initTokState [] 1 1 0 none) rfl⟩

/-- Supporting lemma for the C2 counterexample: with `max_attempts = 3`,
a `continue` that always fails and a handler that always returns normally,
the recovery loop never terminates from any attempt count: the
too-many-attempts error raised inside the `try` is caught by the same
`except`, handed to the handler, and the loop recurses forever. -/
theorem recovery_loops_forever (fuel k : Nat) :
    execute_with_recovery fuel 3 (fun _ => some (.runtime 0)) (fun _ => none) k
      = .fuelOut := by
  induction fuel generalizing k with
  | zero => rfl
  | succ n ih =>
    unfold execute_with_recovery
    by_cases h : k + 1 > 3 <;> simp only [h, if_true, if_false] <;> exact ih _

/-- C2 counterexample: the claim says that when every retry fails the run
raises too-many-attempts after at most `max-attempts` (3) attempts; but
with an error handler that returns normally, even 10 or 1000 loop
iterations produce no raised error at all — the loop never terminates, so
no too-many-attempts error propagates out of `run`. -/
theorem C2_too_many_attempts_never_propagates :
    execute_with_recovery 10 3 (fun _ => some (.runtime 0)) (fun _ => none) 0
      = .fuelOut
    ∧ execute_with_recovery 1000 3 (fun _ => some (.runtime 0)) (fun _ => none) 0
      = .fuelOut :=
  ⟨recovery_loops_forever 10 0, recovery_loops_forever 1000 0⟩

/-- Supporting lemma for C2: with a failing `continue` and a handler that
re-raises too-many-attempts and swallows other errors, the loop starting
from attempt count `k ≤ max` terminates by raising too-many-attempts. -/
theorem recovery_reraise_aux (maxA t : Nat) (handler : RecErr → Option RecErr)
    (hre : ∀ n m, handler (.tooManyAttempts n m) = some (.tooManyAttempts n m))
    (hrt : ∀ tg, handler (.runtime tg) = none) :
    ∀ fuel k, k ≤ maxA → fuel ≥ maxA + 2 - k →
      execute_with_recovery fuel maxA (fun _ => some (.runtime t)) handler k
        = .raised (.tooManyAttempts (maxA + 1) maxA) := by
  intro fuel
  induction fuel with
  | zero => intro k hk hf; omega
  | succ n ih =>
    intro k hk hf
    unfold execute_with_recovery
    by_cases hgt : k + 1 > maxA
    · have hkm : k = maxA := by omega
      subst hkm
      simp [hgt, hre]
    · have hlt : k < maxA := by omega
      simp only [hgt, if_false, hrt]
      exact ih (k + 1) (by omega) (by omega)

/-- C2 (amended): on failure the handler is invoked and the loop retried;
once the attempt count exceeds `max-attempts` a too-many-attempts error is
raised, but — being raised inside the `try` — it is passed to the error
handler like any other failure, and it propagates out of `run` exactly
when the handler re-raises it; with a handler that always returns normally
the loop never terminates. -/
theorem C2_recovery_raises_when_handler_reraises (maxA t fuel : Nat)
    (handler : RecErr → Option RecErr)
    (hre : ∀ n m, handler (.tooManyAttempts n m) = some (.tooManyAttempts n m))
    (hrt : ∀ tg, handler (.runtime tg) = none)
    (hf : fuel ≥ maxA + 2) :
    execute_with_recovery fuel maxA (fun _ => some (.runtime t)) handler 0
      = .raised (.tooManyAttempts (maxA + 1) maxA) :=
  recovery_reraise_aux maxA t handler hre hrt fuel 0 (by omega) (by omega)

/-- C2 witness: default `max_attempts = 3`, concrete re-raising handler. -/
theorem C2_recovery_raises_when_handler_reraises_witness :
    execute_with_recovery 5 3 (fun _ => some (.runtime 0)) reraise_handler 0
      = .raised (.tooManyAttempts 4 3) :=
  C2_recovery_raises_when_handler_reraises 3 0 5 reraise_handler
    (fun _ _ => rfl) (fun _ => rfl) (by omega)

end Forthic
